import Mathlib

/-!
Verification of the Wave compiler front-end (lexer and parser) against its
natural-language specification.

The development is a shallow embedding of `src/compiler/lexer.c`,
`src/compiler/parser.c` and the data model of `include/lexer.h`,
`include/ast.h`, `include/diagnostic.h`.

Modelling conventions, applied uniformly:

* A source string is a `List Nat` of byte values.  The C code scans a
  NUL-terminated buffer; reading at or past the end of the buffer is
  modelled as yielding byte 0 (`peekc`), which matches the in-bounds
  behaviour of a NUL-terminated C string.  (A handful of code paths can
  read past the terminator in C - undefined behaviour; the model extends
  the buffer with an infinite tail of zero bytes.)
* C functions that can fail at runtime return `Except Err _`:
  `.assertFailed` models a failed `assert`, `.panicked` models `panic()`
  (used by `pop_node`), `.todoHit` models `todo()` in `parse_primary`,
  and `.outOfFuel` is the fuel bookkeeping of the embedding: every loop
  and every (mutually) recursive call consumes one unit of fuel, so all
  definitions are total while genuinely non-terminating executions of the
  C code appear as `.error .outOfFuel` for every fuel.
* `uint32_t` subtraction that can wrap is modelled with `u32sub`;
  subtractions that are guarded (the index was just incremented) use
  plain `Nat` subtraction, which agrees with the C value there.
* Diagnostic `message`/`label`/`hint` strings: the two messages that the
  specification's claims identify diagnostics by ("invalid digit in
  numeric literal", "unterminated string", "unterminated multiline
  string") are kept verbatim; all other message/label/hint texts (long
  multi-line hint blocks, `strf`-interpolated labels) are abbreviated to
  short stand-ins, since no claim depends on their content - only on the
  diagnostic's presence, span and `is_error` flag.
* `lexer.h` in this snapshot declares `LexedSrc` without a `diagnostics`
  field, while `parser.c` reads `lexed_src.diagnostics` and the lexer
  accumulates diagnostics in its `Lexer` state; the model gives
  `LexedSrc` the `diagnostics` field that `parser.c` expects, holding
  exactly the diagnostics accumulated by the `Lexer` during scanning.
* `parser.c` uses the node kinds `NODE_VARIANT_TWO`, `NODE_VARIANT`,
  `NODE_VARPARAM`, `NODE_IMPORT`, `NODE_IMPORT_COMPLEX`,
  `NODE_FOREIGN_IMPORT`, `NODE_FOREIGN_IMPORT_COMPLEX`,
  `NODE_ALL_SYMBOLS` which are absent from this snapshot's `ast.h`
  enum; they are included as extra constructors below.
* In `ast.h`, `NODE_INVALID = -1` and `NODE_ROOT = 0`; consequently a
  zero-initialized `NodeKind` (e.g. `(Node){0}` in `parse_stmt`, or the
  zero entries of the `static const Op` tables) is `NODE_ROOT`, and the
  `op.kind != 0` test in `parse_lhs` compares against `NODE_ROOT`.
-/

namespace Wave

/-- Read a byte of a NUL-terminated C source buffer: positions at or past
the end yield the terminator byte 0. -/
def peekc (src : List Nat) (pos : Nat) : Nat := src.getD pos 0

/-- Wrapping `uint32_t` subtraction. -/
def u32sub (a b : Nat) : Nat := (a + 4294967296 - b % 4294967296) % 4294967296

/-- Runtime failures of the embedded C code, plus fuel exhaustion of the
embedding. -/
inductive Err
  | outOfFuel
  | assertFailed
  | panicked
  | todoHit
deriving DecidableEq

/-! ## Token kinds (`lexer.h`, `TOKENS`/`KEYWORDS` x-macros) -/

inductive TokenKind
  | TOKEN_EOF
  | TOKEN_BAD
  | TOKEN_COMMENT
  | TOKEN_DOC_COMMENT
  | TOKEN_MULTILINE_COMMENT
  | TOKEN_INT
  | TOKEN_FLOAT
  | TOKEN_CHAR
  | TOKEN_STRING
  | TOKEN_MULTILINE_STRING
  | TOKEN_IDENTIFIER
  | TOKEN_LPAREN
  | TOKEN_RPAREN
  | TOKEN_LBRACKET
  | TOKEN_RBRACKET
  | TOKEN_LBRACE
  | TOKEN_RBRACE
  | TOKEN_AT
  | TOKEN_EXCLAMATION
  | TOKEN_TILDE
  | TOKEN_QUESTION
  | TOKEN_STAR
  | TOKEN_SLASH
  | TOKEN_PERCENTAGE
  | TOKEN_AND
  | TOKEN_LT_LT
  | TOKEN_GT_GT
  | TOKEN_PLUS
  | TOKEN_MINUS
  | TOKEN_PIPE
  | TOKEN_CARET
  | TOKEN_EQ_EQ
  | TOKEN_EXCLAMATION_EQ
  | TOKEN_LT
  | TOKEN_GT
  | TOKEN_LT_EQ
  | TOKEN_GT_EQ
  | TOKEN_AND_AND
  | TOKEN_PIPE_PIPE
  | TOKEN_PIPE_GT
  | TOKEN_EQ
  | TOKEN_COLON_EQ
  | TOKEN_STAR_EQ
  | TOKEN_SLASH_EQ
  | TOKEN_PERCENTAGE_EQ
  | TOKEN_AND_EQ
  | TOKEN_LT_LT_EQ
  | TOKEN_GT_GT_EQ
  | TOKEN_PLUS_EQ
  | TOKEN_MINUS_EQ
  | TOKEN_PIPE_EQ
  | TOKEN_CARET_EQ
  | TOKEN_ARROW
  | TOKEN_FAT_ARROW
  | TOKEN_COMMA
  | TOKEN_DOT
  | TOKEN_DOT_DOT
  | TOKEN_ELLIPSIS
  | TOKEN_COLON
  | TOKEN_COLON_COLON
  | TOKEN_SEMICOLON
  | TOKEN_NEWLINE
  | TOKEN_FIRST_KEYWORD
  | TOKEN_AS
  | TOKEN_ALIGNOF
  | TOKEN_ASM
  | TOKEN_BREAK
  | TOKEN_CONTINUE
  | TOKEN_CONTEXT
  | TOKEN_DEFER
  | TOKEN_DISTINCT
  | TOKEN_ELSE
  | TOKEN_ENUM
  | TOKEN_FOR
  | TOKEN_FOREIGN
  | TOKEN_FALLTHROUGH
  | TOKEN_IF
  | TOKEN_IN
  | TOKEN_IMPORT
  | TOKEN_MUT
  | TOKEN_MATCH
  | TOKEN_MAP
  | TOKEN_NEW
  | TOKEN_OWN
  | TOKEN_OR
  | TOKEN_OFFSETOF
  | TOKEN_RETURN
  | TOKEN_STRUCT
  | TOKEN_SIZEOF
  | TOKEN_TYPEOF
  | TOKEN_USING
  | TOKEN_UNION
  | TOKEN_UNDEF
  | TOKEN_WHERE
  | TOKEN_WHEN
deriving DecidableEq

open TokenKind

/-- The printable-name strings of the `TOKENS` x-macro (used by
`token_to_string` and, via `sizeof`, by `token_length`). -/
def token_to_string : TokenKind → String
  | TOKEN_EOF => "EOF"
  | TOKEN_BAD => "unknown character"
  | TOKEN_COMMENT => "comment"
  | TOKEN_DOC_COMMENT => "docs comment"
  | TOKEN_MULTILINE_COMMENT => "multiline comment"
  | TOKEN_INT => "an int literal"
  | TOKEN_FLOAT => "a float literal"
  | TOKEN_CHAR => "a char literal"
  | TOKEN_STRING => "a string literal"
  | TOKEN_MULTILINE_STRING => "a multiline string"
  | TOKEN_IDENTIFIER => "an identifier"
  | TOKEN_LPAREN => "("
  | TOKEN_RPAREN => ")"
  | TOKEN_LBRACKET => "["
  | TOKEN_RBRACKET => "]"
  | TOKEN_LBRACE => "\x7b"
  | TOKEN_RBRACE => "\x7d"
  | TOKEN_AT => "@"
  | TOKEN_EXCLAMATION => "!"
  | TOKEN_TILDE => "~"
  | TOKEN_QUESTION => "?"
  | TOKEN_STAR => "*"
  | TOKEN_SLASH => "/"
  | TOKEN_PERCENTAGE => "%"
  | TOKEN_AND => "&"
  | TOKEN_LT_LT => "<<"
  | TOKEN_GT_GT => ">>"
  | TOKEN_PLUS => "+"
  | TOKEN_MINUS => "-"
  | TOKEN_PIPE => "|"
  | TOKEN_CARET => "^"
  | TOKEN_EQ_EQ => "=="
  | TOKEN_EXCLAMATION_EQ => "!="
  | TOKEN_LT => "<"
  | TOKEN_GT => ">"
  | TOKEN_LT_EQ => "<="
  | TOKEN_GT_EQ => ">="
  | TOKEN_AND_AND => "&&"
  | TOKEN_PIPE_PIPE => "||"
  | TOKEN_PIPE_GT => "|>"
  | TOKEN_EQ => "="
  | TOKEN_COLON_EQ => ":="
  | TOKEN_STAR_EQ => "*="
  | TOKEN_SLASH_EQ => "/="
  | TOKEN_PERCENTAGE_EQ => "%="
  | TOKEN_AND_EQ => "&="
  | TOKEN_LT_LT_EQ => "<<="
  | TOKEN_GT_GT_EQ => ">>="
  | TOKEN_PLUS_EQ => "+="
  | TOKEN_MINUS_EQ => "-="
  | TOKEN_PIPE_EQ => "|="
  | TOKEN_CARET_EQ => "^="
  | TOKEN_ARROW => "->"
  | TOKEN_FAT_ARROW => "=>"
  | TOKEN_COMMA => ","
  | TOKEN_DOT => "."
  | TOKEN_DOT_DOT => ".."
  | TOKEN_ELLIPSIS => "..."
  | TOKEN_COLON => ":"
  | TOKEN_COLON_COLON => "::"
  | TOKEN_SEMICOLON => ";"
  | TOKEN_NEWLINE => "NEWLINE"
  | TOKEN_FIRST_KEYWORD => ""
  | TOKEN_AS => "as"
  | TOKEN_ALIGNOF => "alignof"
  | TOKEN_ASM => "asm"
  | TOKEN_BREAK => "break"
  | TOKEN_CONTINUE => "continue"
  | TOKEN_CONTEXT => "context"
  | TOKEN_DEFER => "defer"
  | TOKEN_DISTINCT => "distinct"
  | TOKEN_ELSE => "else"
  | TOKEN_ENUM => "enum"
  | TOKEN_FOR => "for"
  | TOKEN_FOREIGN => "foreign"
  | TOKEN_FALLTHROUGH => "fallthrough"
  | TOKEN_IF => "if"
  | TOKEN_IN => "in"
  | TOKEN_IMPORT => "import"
  | TOKEN_MUT => "mut"
  | TOKEN_MATCH => "match"
  | TOKEN_MAP => "map"
  | TOKEN_NEW => "new"
  | TOKEN_OWN => "own"
  | TOKEN_OR => "or"
  | TOKEN_OFFSETOF => "offsetof"
  | TOKEN_RETURN => "return"
  | TOKEN_STRUCT => "struct"
  | TOKEN_SIZEOF => "sizeof"
  | TOKEN_TYPEOF => "typeof"
  | TOKEN_USING => "using"
  | TOKEN_UNION => "union"
  | TOKEN_UNDEF => "undef"
  | TOKEN_WHERE => "where"
  | TOKEN_WHEN => "when"

/-! ## Keyword tables (`lexer.c`) -/

/-- The `keywords` array generated from the `KEYWORDS` x-macro: the
keyword's bytes (its `length` is the list length, matching
`sizeof(_str) - 1`) and its token kind.  Index 0 is the empty
`TOKEN_FIRST_KEYWORD` entry, as in the C array. -/
def keywords : List (List Nat × TokenKind) :=
  [ ([], TOKEN_FIRST_KEYWORD),
    ([97, 115], TOKEN_AS),
    ([97, 108, 105, 103, 110, 111, 102], TOKEN_ALIGNOF),
    ([97, 115, 109], TOKEN_ASM),
    ([98, 114, 101, 97, 107], TOKEN_BREAK),
    ([99, 111, 110, 116, 105, 110, 117, 101], TOKEN_CONTINUE),
    ([99, 111, 110, 116, 101, 120, 116], TOKEN_CONTEXT),
    ([100, 101, 102, 101, 114], TOKEN_DEFER),
    ([100, 105, 115, 116, 105, 110, 99, 116], TOKEN_DISTINCT),
    ([101, 108, 115, 101], TOKEN_ELSE),
    ([101, 110, 117, 109], TOKEN_ENUM),
    ([102, 111, 114], TOKEN_FOR),
    ([102, 111, 114, 101, 105, 103, 110], TOKEN_FOREIGN),
    ([102, 97, 108, 108, 116, 104, 114, 111, 117, 103, 104], TOKEN_FALLTHROUGH),
    ([105, 102], TOKEN_IF),
    ([105, 110], TOKEN_IN),
    ([105, 109, 112, 111, 114, 116], TOKEN_IMPORT),
    ([109, 117, 116], TOKEN_MUT),
    ([109, 97, 116, 99, 104], TOKEN_MATCH),
    ([109, 97, 112], TOKEN_MAP),
    ([110, 101, 119], TOKEN_NEW),
    ([111, 119, 110], TOKEN_OWN),
    ([111, 114], TOKEN_OR),
    ([111, 102, 102, 115, 101, 116, 111, 102], TOKEN_OFFSETOF),
    ([114, 101, 116, 117, 114, 110], TOKEN_RETURN),
    ([115, 116, 114, 117, 99, 116], TOKEN_STRUCT),
    ([115, 105, 122, 101, 111, 102], TOKEN_SIZEOF),
    ([116, 121, 112, 101, 111, 102], TOKEN_TYPEOF),
    ([117, 115, 105, 110, 103], TOKEN_USING),
    ([117, 110, 105, 111, 110], TOKEN_UNION),
    ([117, 110, 100, 101, 102], TOKEN_UNDEF),
    ([119, 104, 101, 114, 101], TOKEN_WHERE),
    ([119, 104, 101, 110], TOKEN_WHEN) ]

/-- The `keyword_info` table: the first byte of an identifier selects an
inclusive `(start, end)` index range in `keywords`; `none` models
`.is_keyword = false`. -/
def keyword_info (c : Nat) : Option (Nat × Nat) :=
  if c = 97 then some (1, 3)        -- 'a': TOKEN_AS .. TOKEN_ASM
  else if c = 98 then some (4, 4)   -- 'b': TOKEN_BREAK .. TOKEN_BREAK
  else if c = 99 then some (5, 6)   -- 'c': TOKEN_CONTINUE .. TOKEN_CONTEXT
  else if c = 100 then some (7, 8)  -- 'd': TOKEN_DEFER .. TOKEN_DISTINCT
  else if c = 101 then some (9, 10) -- 'e': TOKEN_ELSE .. TOKEN_ENUM
  else if c = 102 then some (11, 13) -- 'f': TOKEN_FOR .. TOKEN_FALLTHROUGH
  else if c = 105 then some (14, 16) -- 'i': TOKEN_IF .. TOKEN_IMPORT
  else if c = 109 then some (17, 19) -- 'm': TOKEN_MUT .. TOKEN_MAP
  else if c = 110 then some (20, 20) -- 'n': TOKEN_NEW .. TOKEN_NEW
  else if c = 111 then some (21, 23) -- 'o': TOKEN_OWN .. TOKEN_OFFSETOF
  else if c = 114 then some (24, 24) -- 'r': TOKEN_RETURN .. TOKEN_RETURN
  else if c = 115 then some (25, 26) -- 's': TOKEN_STRUCT .. TOKEN_SIZEOF
  else if c = 116 then some (27, 27) -- 't': TOKEN_TYPEOF .. TOKEN_TYPEOF
  else if c = 117 then some (28, 30) -- 'u': TOKEN_USING .. TOKEN_UNDEF
  else if c = 119 then some (31, 32) -- 'w': TOKEN_WHERE .. TOKEN_WHEN
  else none

def max_keyword_length : Nat := 11

/-! ## character classification (`ctype.h` on ASCII, `util.h` UTF-8 macros) -/

def is_space (c : Nat) : Bool := c = 32 || c = 9

def isdigit (c : Nat) : Bool := 48 ≤ c && c ≤ 57

def isalpha (c : Nat) : Bool := (65 ≤ c && c ≤ 90) || (97 ≤ c && c ≤ 122)

def isalnum (c : Nat) : Bool := isalpha c || isdigit c

/-- `is_utf8(c) = c & 0x80` as a Bool. -/
def is_utf8 (c : Nat) : Bool := 128 ≤ c % 256

def utf8_isalpha (c : Nat) : Bool := is_utf8 c || isalpha c

def utf8_isalnum (c : Nat) : Bool := is_utf8 c || isalnum c

/-- `utf8_bytes` from `util.h`. -/
def utf8_bytes (c : Nat) : Nat :=
  if c % 256 / 16 ≥ 15 then 4           -- (c & 0xF0) == 0xF0
  else if c % 256 / 32 ≥ 7 then 3       -- (c & 0xE0) == 0xE0
  else if c % 256 / 64 ≥ 3 then 2       -- (c & 0xC0) == 0xC0
  else if c = 0 || c = 26 then 0        -- '\0' or '\x1A'
  else 1

/-- `digit_decoder` from `lexer.c` (bytes outside the 128-entry table read
as 0). -/
def digit_decoder (c : Nat) : Nat :=
  if 48 ≤ c ∧ c ≤ 57 then c - 48
  else if c = 97 ∨ c = 65 then 10
  else if c = 98 ∨ c = 66 then 11
  else if c = 99 ∨ c = 67 then 12
  else if c = 100 ∨ c = 68 then 13
  else if c = 101 ∨ c = 69 then 14
  else if c = 102 ∨ c = 70 then 15
  else 0

/-- `is_escapeable` from `lexer.c`. -/
def is_escapeable (c : Nat) : Bool :=
  c = 92 || c = 39 || c = 34 || c = 48 || c = 116 || c = 118 || c = 114 ||
  c = 110 || c = 98 || c = 97

/-! ## Diagnostics (`diagnostic.h`) -/

structure Span where
  file_id : Nat
  start : Nat
  stop : Nat
deriving DecidableEq

structure Diagnostic where
  location : Span
  is_error : Bool
  message : String
  label : String
  hint : Option String
deriving DecidableEq

/-- `error()` from `diagnostic.h`: always sets `is_error = true`. -/
def error (span : Span) (message label : String) (hint : Option String) : Diagnostic :=
  { location := span, is_error := true, message := message, label := label, hint := hint }

/-- `warn()` from `diagnostic.h`: always sets `is_error = false`.  Neither
the lexer nor the parser calls it. -/
def warn (span : Span) (message label : String) (hint : Option String) : Diagnostic :=
  { location := span, is_error := false, message := message, label := label, hint := hint }

/-! ## Lexer state (`lexer.c`) -/

/-- The `Lexer` struct.  `pos` is the offset form of the `str` cursor;
the `start` base pointer is offset 0.  `tok_kind`/`tok_start` are the
fields of the embedded `token`. -/
structure Lexer where
  file_id : Nat
  tok_kind : TokenKind
  tok_start : Nat
  pos : Nat
  diagnostics : List Diagnostic
deriving DecidableEq

/-- `lexer_error` + `push_error`: build an `error` diagnostic from two
byte offsets and append it. -/
def push_error (lx : Lexer) (start stop : Nat) (message label : String)
    (hint : Option String) : Lexer :=
  { lx with diagnostics :=
      lx.diagnostics ++ [error { file_id := lx.file_id, start := start, stop := stop } message label hint] }

/-- `lex_base`: consume an optional `0b`/`0o`/`0x` prefix, returning the
base. -/
def lex_base (src : List Nat) (lx : Lexer) : Lexer × Nat :=
  if peekc src lx.pos ≠ 48 then (lx, 10)
  else
    let c := peekc src (lx.pos + 1)
    if c = 98 ∨ c = 66 then ({ lx with pos := lx.pos + 2 }, 2)
    else if c = 111 ∨ c = 79 then ({ lx with pos := lx.pos + 2 }, 8)
    else if c = 120 ∨ c = 88 then ({ lx with pos := lx.pos + 2 }, 16)
    else (lx, 10)

/-- `handle_escape`: NOTE this function reads the escape from
`lexer->str` (`lx.pos`), which its callers leave pointing at the
*opening quote* of the literal, not at the backslash; the entry
`assert(*lexer->str == '\\')` therefore fails whenever a literal
actually contains an escape.  Returns the new scan position. -/
def handle_escape (src : List Nat) (lx : Lexer) : Except Err (Lexer × Nat) :=
  if peekc src lx.pos ≠ 92 then .error .assertFailed
  else
    let str := lx.pos + 1
    if peekc src str = 120 then
      let str := str + 1
      let digit := digit_decoder (peekc src str)
      if digit = 0 ∧ peekc src str ≠ 48 then
        .ok (push_error lx lx.pos str "invalid escape" "invalid hex character" none, str)
      else
        let str := str + 1
        let digit := digit_decoder (peekc src str)
        if digit ≠ 0 ∨ peekc src str = 48 then .ok (lx, str + 1)
        else .ok (lx, str)
    else if is_escapeable (peekc src str) then
      .ok (lx, str + 1)
    else
      .ok (push_error lx lx.pos str "invalid escape" "invalid character" none, str)

/-- `strncmp(lexer->str, keyword.str, length) == 0` when
`length = keyword.length`: the keyword bytes match the source at `pos`. -/
def match_bytes (src : List Nat) (pos : Nat) : List Nat → Bool
  | [] => true
  | b :: bs => peekc src pos = b && match_bytes src (pos + 1) bs

/-- The `OP` macro: a single-character token. -/
def OP (lx : Lexer) (kind : TokenKind) : Lexer :=
  { lx with tok_start := lx.pos, tok_kind := kind, pos := lx.pos + 1 }

/-- The `OP_EQ` macro: `_ch` or `_ch=`. -/
def OP_EQ (src : List Nat) (lx : Lexer) (kind kindEq : TokenKind) : Lexer :=
  if peekc src (lx.pos + 1) = 61 then
    { lx with tok_start := lx.pos, tok_kind := kindEq, pos := lx.pos + 2 }
  else
    { lx with tok_start := lx.pos, tok_kind := kind, pos := lx.pos + 1 }

/-- The `OP2` macro: `_ch1` or `_ch1 _ch2`. -/
def OP2 (src : List Nat) (lx : Lexer) (kind1 : TokenKind) (ch2 : Nat) (kind2 : TokenKind) : Lexer :=
  if peekc src (lx.pos + 1) = ch2 then
    { lx with tok_start := lx.pos, tok_kind := kind2, pos := lx.pos + 2 }
  else
    { lx with tok_start := lx.pos, tok_kind := kind1, pos := lx.pos + 1 }

/-- The `OP2_EQ` macro: `_ch1`, `_ch1 _ch2` or `_ch1=`. -/
def OP2_EQ (src : List Nat) (lx : Lexer) (kind1 : TokenKind) (ch2 : Nat) (kind2 : TokenKind)
    (kind1Eq : TokenKind) : Lexer :=
  if peekc src (lx.pos + 1) = ch2 then
    { lx with tok_start := lx.pos, tok_kind := kind2, pos := lx.pos + 2 }
  else if peekc src (lx.pos + 1) = 61 then
    { lx with tok_start := lx.pos, tok_kind := kind1Eq, pos := lx.pos + 2 }
  else
    { lx with tok_start := lx.pos, tok_kind := kind1, pos := lx.pos + 1 }

/-- The `OP3` macro: `_ch1`, `_ch1 _ch2` or `_ch1 _ch3`. -/
def OP3 (src : List Nat) (lx : Lexer) (kind1 : TokenKind) (ch2 : Nat) (kind2 : TokenKind)
    (ch3 : Nat) (kind3 : TokenKind) : Lexer :=
  if peekc src (lx.pos + 1) = ch2 then
    { lx with tok_start := lx.pos, tok_kind := kind2, pos := lx.pos + 2 }
  else if peekc src (lx.pos + 1) = ch3 then
    { lx with tok_start := lx.pos, tok_kind := kind3, pos := lx.pos + 2 }
  else
    { lx with tok_start := lx.pos, tok_kind := kind1, pos := lx.pos + 1 }

/-- The `OP3_EQ` macro: like `OP3` but `_ch1 _ch2` may further take `=`. -/
def OP3_EQ (src : List Nat) (lx : Lexer) (kind1 : TokenKind) (ch2 : Nat) (kind2 : TokenKind)
    (kind2Eq : TokenKind) (ch3 : Nat) (kind3 : TokenKind) : Lexer :=
  if peekc src (lx.pos + 1) = ch2 then
    if peekc src (lx.pos + 2) = 61 then
      { lx with tok_start := lx.pos, tok_kind := kind2Eq, pos := lx.pos + 3 }
    else
      { lx with tok_start := lx.pos, tok_kind := kind2, pos := lx.pos + 2 }
  else if peekc src (lx.pos + 1) = ch3 then
    { lx with tok_start := lx.pos, tok_kind := kind3, pos := lx.pos + 2 }
  else
    { lx with tok_start := lx.pos, tok_kind := kind1, pos := lx.pos + 1 }

/-- The `LexedSrc` result of `lex` (with the `diagnostics` field that
`parser.c` consumes; see the file comment). -/
structure LexedSrc where
  src : List Nat
  num_tokens : Nat
  kind : List TokenKind
  start : List Nat
  diagnostics : List Diagnostic
deriving DecidableEq

/-! ## AST data model (`ast.h`) -/

/-- Node kinds.  The first block follows this snapshot's `ast.h`
(`NODE_INVALID = -1`, `NODE_ROOT = 0`, so `NODE_ROOT` is the
zero-initialized value); the trailing block holds the kinds that
`parser.c` uses but that are missing from this `ast.h` revision. -/
inductive NodeKind
  | NODE_INVALID
  | NODE_ROOT
  | NODE_GENERIC
  | NODE_GENERIC_ONE
  | NODE_CONST
  | NODE_VAR
  | NODE_STRUCT_TWO
  | NODE_STRUCT
  | NODE_FIELD
  | NODE_ENUM_TWO
  | NODE_ENUM
  | NODE_VARIANT_SIMPLE
  | NODE_VARIANT_UNNAMED
  | NODE_VARIANT_NAMED
  | NODE_FUNC_PROTO
  | NODE_FUNC_PROTO_ONE
  | NODE_PARAM
  | NODE_VARARG
  | NODE_FUNC
  | NODE_FOREIGN
  | NODE_COMPTIME
  | NODE_IF_SIMPLE
  | NODE_IF
  | NODE_FOR
  | NODE_MATCH
  | NODE_MATCH_CASE
  | NODE_DEFER
  | NODE_RETURN
  | NODE_BREAK
  | NODE_CONTINUE
  | NODE_USING_SIMPLE
  | NODE_USING_TYPE
  | NODE_USING_EXPR
  | NODE_BLOCK
  | NODE_INT
  | NODE_FLOAT
  | NODE_CHAR
  | NODE_STRING
  | NODE_IDENTIFIER
  | NODE_UNDEF
  | NODE_ENUM_ACCESSOR
  | NODE_NEW_SIMPLE
  | NODE_NEW_ALLOCATOR
  | NODE_NEW_LENGTH
  | NODE_NEW_COMPLEX
  | NODE_ARRAY_TWO
  | NODE_ARRAY
  | NODE_ARRAY_INIT
  | NODE_MAP_TWO
  | NODE_MAP
  | NODE_MAP_ITEM
  | NODE_RANGE
  | NODE_IF_EXPR
  | NODE_MATCH_EXPR
  | NODE_OR
  | NODE_IN_EXPR
  | NODE_AS_EXPR
  | NODE_PIPE_EXPR
  | NODE_OR_EXPR
  | NODE_AND_EXPR
  | NODE_EQ_EXPR
  | NODE_NOTEQ_EXPR
  | NODE_LT_EXPR
  | NODE_GT_EXPR
  | NODE_LTEQ_EXPR
  | NODE_GTEQ_EXPR
  | NODE_MUL_EXPR
  | NODE_DIV_EXPR
  | NODE_MOD_EXPR
  | NODE_BITAND_EXPR
  | NODE_ADD_EXPR
  | NODE_SUB_EXPR
  | NODE_BITOR_EXPR
  | NODE_BITXOR_EXPR
  | NODE_LSHIFT_EXPR
  | NODE_RSHIFT_EXPR
  | NODE_UNARY_PLUS
  | NODE_UNARY_MINUS
  | NODE_BITNOT
  | NODE_UNARY_NOT
  | NODE_REF
  | NODE_MUT_REF
  | NODE_DEREF
  | NODE_TYPEOF
  | NODE_SIZEOF
  | NODE_ALIGNOF
  | NODE_OFFSETOF
  | NODE_CALL_TWO
  | NODE_CALL
  | NODE_CALL_GENERIC
  | NODE_ARG
  | NODE_FIELD_ACCESS
  | NODE_ARRAY_ACCESS
  | NODE_REF_TYPE
  | NODE_REF_MUT_TYPE
  | NODE_REF_OWN_TYPE
  | NODE_ARRAY_TYPE
  | NODE_MAP_TYPE
  -- kinds used by parser.c but absent from this snapshot's ast.h:
  | NODE_VARIANT_TWO
  | NODE_VARIANT
  | NODE_VARPARAM
  | NODE_IMPORT
  | NODE_IMPORT_COMPLEX
  | NODE_FOREIGN_IMPORT
  | NODE_FOREIGN_IMPORT_COMPLEX
  | NODE_ALL_SYMBOLS
deriving DecidableEq

open NodeKind

/-- The 64-bit `Data` union: every member used by `parser.c` is one or
two 32-bit `Index` fields, modelled as a pair (a single-field member
leaves the second component 0, matching the zero-filled compound
literals). -/
abbrev Data := Nat × Nat

/-- A scratch-stack `Node` (`kind`, anchor `token`, `data`). -/
structure Node where
  kind : NodeKind
  token : Nat
  data : Data
deriving DecidableEq

/-- The SoA node storage of `ast.h` (`extra` is the raw byte buffer,
modelled as a list of 32-bit words; `add_extra` offsets stay in bytes). -/
structure NodeList where
  kind : List NodeKind
  data : List Data
  token : List Nat
  extra : List Nat
deriving DecidableEq

/-- The result of `parse()` (`ast.h`). -/
structure Ast where
  src : List Nat
  token_kind : List TokenKind
  token_start : List Nat
  nodes : NodeList
  decls : List Nat
  diagnostics : List Diagnostic
deriving DecidableEq

/-! ## Parser state (`parser.c`) -/

/-- The `Parser` struct.  `str` is the source buffer (the C base
pointer), `token_index` the cursor into the token arrays. -/
structure Parser where
  nodes : NodeList
  decls : List Nat
  token_kind : List TokenKind
  token_start : List Nat
  num_tokens : Nat
  diagnostics : List Diagnostic
  str : List Nat
  token_index : Nat
  file_id : Nat
  scratch : List Node
  scratch_top : Nat
deriving DecidableEq

/-- The operator-precedence levels (`Precedence` enum), as their C
integer values. -/
def PREC_NONE : Nat := 0
def PREC_PIPE : Nat := 1
def PREC_OR : Nat := 2
def PREC_LOGICAL_OR : Nat := 3
def PREC_LOGICAL_AND : Nat := 4
def PREC_COMPARISON : Nat := 5
def PREC_TERM : Nat := 6
def PREC_FACTOR : Nat := 7
def PREC_AS : Nat := 8
def PREC_UNARY : Nat := 9
def PREC_CALL : Nat := 10
def PREC_PRIMARY : Nat := 11

/-- The `Op` struct of the expression parser.  A zero-initialized entry
of the C tables has `prec = PREC_NONE` and `kind = (NodeKind)0 =
NODE_ROOT`. -/
structure Op where
  prec : Nat
  kind : NodeKind
  token : Nat
deriving DecidableEq

inductive ImportKind
  | IMPORT_NORMAL
  | IMPORT_FOREIGN
deriving DecidableEq

/-- `enum { invalid = 0 }`: the reserved invalid/none node id. -/
def invalid : Nat := 0

/-- `add_node`: append a node and return its index. -/
def add_node (st : Parser) (kind : NodeKind) (token : Nat) (data : Data) : Parser × Nat :=
  ({ st with nodes :=
      { st.nodes with
        kind := st.nodes.kind ++ [kind]
        token := st.nodes.token ++ [token]
        data := st.nodes.data ++ [data] } },
   st.nodes.kind.length)

/-- `reserve_node`: append an `NODE_INVALID` placeholder. -/
def reserve_node (st : Parser) : Parser × Nat :=
  add_node st NODE_INVALID 0 (0, 0)

/-- `set_node`: overwrite a (reserved) node in place. -/
def set_node (st : Parser) (index : Nat) (kind : NodeKind) (token : Nat) (data : Data) : Parser :=
  { st with nodes :=
      { st.nodes with
        kind := st.nodes.kind.set index kind
        token := st.nodes.token.set index token
        data := st.nodes.data.set index data } }

/-- `pop_node`: remove the trailing node; panics when `index` is not the
last index. -/
def pop_node (st : Parser) (index : Nat) : Except Err Parser :=
  if index ≠ st.nodes.kind.length - 1 then .error .panicked
  else
    .ok { st with nodes :=
        { st.nodes with
          kind := st.nodes.kind.dropLast
          token := st.nodes.token.dropLast
          data := st.nodes.data.dropLast } }

/-- `add_scratch`: push a buffered child node. -/
def add_scratch (st : Parser) (scratch_node : Node) : Parser :=
  { st with scratch := st.scratch ++ [scratch_node], scratch_top := st.scratch_top + 1 }

/-- `push_scratch`: copy the scratch entries `[saved, scratch_top)` into
the main node array in order and reset the stack to `saved`.  (The C
macro pops from the array's tail while reading `scratch[i]` from the
still-intact buffer; with the `scratch_top = length(scratch)` invariant
the net effect is exactly this append-and-truncate.) -/
def push_scratch (st : Parser) (saved : Nat) : Parser :=
  let moved := (st.scratch.drop saved).take (st.scratch_top - saved)
  let st := moved.foldl (fun st nd => (add_node st nd.kind nd.token nd.data).1) st
  { st with scratch := st.scratch.take saved, scratch_top := saved }

/-- `add_extra` (the `extra(_data)` macro): append payload words to the
extra buffer, returning the byte offset of the payload. -/
def add_extra (st : Parser) (words : List Nat) : Parser × Nat :=
  ({ st with nodes := { st.nodes with extra := st.nodes.extra ++ words } },
   4 * st.nodes.extra.length)

/-- `peek(n)`: the token kind at `token_index + n` (reads past the token
array are modelled as `TOKEN_EOF`). -/
def peekt (st : Parser) (n : Nat) : TokenKind :=
  st.token_kind.getD (st.token_index + n) TOKEN_EOF

/-- `current()`. -/
def current (st : Parser) : TokenKind := peekt st 0

/-- `advance()`. -/
def advance (st : Parser) : Parser := { st with token_index := st.token_index + 1 }

/-- `__match`: consume the current token iff it has the given kind. -/
def __match (st : Parser) (kind : TokenKind) : Parser × Bool :=
  if current st = kind then (advance st, true) else (st, false)

/-- `error_span`: append an error diagnostic. -/
def error_span (st : Parser) (span : Span) (message label : String) (hint : Option String) :
    Parser :=
  { st with diagnostics := st.diagnostics ++ [error span message label hint] }

/-- `parse_stmt`: the stub in this snapshot - returns `(Node){0}`, i.e. a
zero node whose kind is `NODE_ROOT` (the zero `NodeKind` value). -/
def parse_stmt (st : Parser) : Parser × Node :=
  (st, { kind := NODE_ROOT, token := 0, data := (0, 0) })

/-- `current_unary`: the prefix-operator table; a missing entry is the
zero `Op` (kind `NODE_ROOT`).  Upgrades `&` to `&mut` by consuming the
`mut`. -/
def current_unary (st : Parser) : Parser × Op :=
  let kind :=
    match current st with
    | TOKEN_PLUS => NODE_UNARY_PLUS
    | TOKEN_MINUS => NODE_UNARY_MINUS
    | TOKEN_STAR => NODE_DEREF
    | TOKEN_EXCLAMATION => NODE_UNARY_NOT
    | TOKEN_TILDE => NODE_BITNOT
    | TOKEN_AND => NODE_REF
    | _ => NODE_ROOT
  let (st, kind) :=
    if kind = NODE_REF ∧ peekt st 1 = TOKEN_MUT then (advance st, NODE_MUT_REF)
    else (st, kind)
  (st, { prec := PREC_NONE, kind := kind, token := st.token_index })

/-- `current_op`: the binary-operator table; a missing entry is the zero
`Op` (`prec = PREC_NONE`, kind `NODE_ROOT`). -/
def current_op (st : Parser) : Op :=
  let (prec, kind) :=
    match current st with
    | TOKEN_PIPE_GT => (PREC_PIPE, NODE_PIPE_EXPR)
    | TOKEN_OR => (PREC_OR, NODE_OR)
    | TOKEN_PIPE_PIPE => (PREC_LOGICAL_OR, NODE_OR_EXPR)
    | TOKEN_AND_AND => (PREC_LOGICAL_AND, NODE_AND_EXPR)
    | TOKEN_EQ_EQ => (PREC_COMPARISON, NODE_EQ_EXPR)
    | TOKEN_EXCLAMATION_EQ => (PREC_COMPARISON, NODE_NOTEQ_EXPR)
    | TOKEN_LT => (PREC_COMPARISON, NODE_LT_EXPR)
    | TOKEN_GT => (PREC_COMPARISON, NODE_GT_EXPR)
    | TOKEN_LT_EQ => (PREC_COMPARISON, NODE_LTEQ_EXPR)
    | TOKEN_GT_EQ => (PREC_COMPARISON, NODE_GTEQ_EXPR)
    | TOKEN_PLUS => (PREC_TERM, NODE_ADD_EXPR)
    | TOKEN_MINUS => (PREC_TERM, NODE_SUB_EXPR)
    | TOKEN_CARET => (PREC_TERM, NODE_BITXOR_EXPR)
    | TOKEN_PIPE => (PREC_TERM, NODE_BITOR_EXPR)
    | TOKEN_STAR => (PREC_FACTOR, NODE_MUL_EXPR)
    | TOKEN_SLASH => (PREC_FACTOR, NODE_DIV_EXPR)
    | TOKEN_PERCENTAGE => (PREC_FACTOR, NODE_MOD_EXPR)
    | TOKEN_AND => (PREC_FACTOR, NODE_BITAND_EXPR)
    | TOKEN_LT_LT => (PREC_FACTOR, NODE_LSHIFT_EXPR)
    | TOKEN_GT_GT => (PREC_FACTOR, NODE_RSHIFT_EXPR)
    | TOKEN_AS => (PREC_AS, NODE_AS_EXPR)
    | _ => (PREC_NONE, NODE_ROOT)
  { prec := prec, kind := kind, token := st.token_index }

/-! ## The fueled functions

Every loop of the C code and every (mutually) recursive function is
collected in one structure of functions, built by one step of fuel at a
time (`parseFns`): a call from one function to another always uses the
functions of the previous fuel level (`prev`), so every call consumes
one unit of fuel and all definitions are plainly structural in the
fuel.  The named wrappers below (`skip_digits`, `next_token`,
`parse_struct`, ...) restore the per-function signatures; each wrapper
documents the C function it embeds. -/

structure Fns where
  skip_digits : List Nat → Nat → Lexer → Nat → Except Err (Lexer × Nat)
  lex_number : List Nat → Lexer → Except Err Lexer
  lex_char_skip : List Nat → Nat → Except Err Nat
  lex_char : List Nat → Lexer → Except Err (Lexer × Nat)
  lex_string_single : List Nat → Lexer → Nat → Except Err (Lexer × Nat)
  lex_string_multi : List Nat → Lexer → Nat → Except Err (Lexer × Nat)
  lex_string : List Nat → Lexer → Except Err (Lexer × Nat)
  lex_identifier_loop : List Nat → Nat → Except Err Nat
  lex_identifier : List Nat → Lexer → Except Err (Lexer × Nat)
  keyword_scan : List Nat → Nat → Nat → Nat → Nat → TokenKind
  comment_line_loop : List Nat → Nat → Except Err Nat
  comment_block_loop : List Nat → Nat → Nat → Except Err Nat
  skip_spaces_loop : List Nat → Nat → Except Err Nat
  utf8_ident_loop : List Nat → Nat → Except Err Nat
  next_token : List Nat → Lexer → Except Err (Lexer × Bool)
  lex_loop : List Nat → Lexer → List TokenKind → List Nat →
    Except Err (Lexer × List TokenKind × List Nat)
  token_length : List Nat → TokenKind → Nat → Except Err Nat
  error_at : Parser → Nat → String → String → Option String → Except Err Parser
  error_at_current : Parser → String → String → Option String → Except Err Parser
  span : Parser → Nat → Nat → Except Err Span
  __expect : Parser → TokenKind → Option String → Except Err (Parser × Bool)
  skip_newlines : Parser → Except Err Parser
  parse_name_list_loop : Parser → Except Err Parser
  parse_name_list : Parser → Except Err (Parser × (Nat × Nat))
  parse_import : Parser → ImportKind → Except Err (Parser × Nat)
  next_decl : Parser → Except Err Parser
  parse_type : Parser → Except Err (Parser × Nat)
  parse_block_loop : Parser → Nat → Except Err (Parser × Nat)
  parse_block : Parser → Except Err (Parser × Nat)
  parse_struct_loop : Parser → Nat → Except Err (Parser × Nat)
  parse_struct : Parser → Except Err (Parser × Nat)
  variant_fields_loop : Parser → Nat → Except Err (Parser × Nat)
  parse_enum_variant : Parser → Except Err (Parser × Node)
  parse_enum_loop : Parser → Nat → Except Err (Parser × Nat)
  parse_enum : Parser → Except Err (Parser × Nat)
  params_loop : Parser → Nat → Except Err (Parser × Int)
  parse_function_params : Parser → Except Err (Parser × Int × (Nat × Nat))
  parse_function : Parser → Except Err (Parser × Nat)
  parse_primary : Parser → Except Err (Parser × Nat)
  parse_lhs : Parser → Except Err (Parser × Nat)
  parse_expr_prec_loop : Nat → Parser → Nat → Except Err (Parser × Nat)
  parse_expr_prec : Nat → Parser → Except Err (Parser × Nat)
  parse_expr : Parser → Except Err (Parser × Nat)
  parse_init : Parser → Nat → Except Err (Parser × Nat)
  parse_decl : Parser → Except Err (Parser × Nat)
  parse_decls_loop : Parser → Except Err Parser
  parse_decls : Parser → Except Err Parser

/-- Fuel level 0: everything is out of fuel (except the keyword scan,
whose exhausted value is the `TOKEN_IDENTIFIER` fallback). -/
def fnsBot : Fns where
  skip_digits := fun _ _ _ _ => .error .outOfFuel
  lex_number := fun _ _ => .error .outOfFuel
  lex_char_skip := fun _ _ => .error .outOfFuel
  lex_char := fun _ _ => .error .outOfFuel
  lex_string_single := fun _ _ _ => .error .outOfFuel
  lex_string_multi := fun _ _ _ => .error .outOfFuel
  lex_string := fun _ _ => .error .outOfFuel
  lex_identifier_loop := fun _ _ => .error .outOfFuel
  lex_identifier := fun _ _ => .error .outOfFuel
  keyword_scan := fun _ _ _ _ _ => TOKEN_IDENTIFIER
  comment_line_loop := fun _ _ => .error .outOfFuel
  comment_block_loop := fun _ _ _ => .error .outOfFuel
  skip_spaces_loop := fun _ _ => .error .outOfFuel
  utf8_ident_loop := fun _ _ => .error .outOfFuel
  next_token := fun _ _ => .error .outOfFuel
  lex_loop := fun _ _ _ _ => .error .outOfFuel
  token_length := fun _ _ _ => .error .outOfFuel
  error_at := fun _ _ _ _ _ => .error .outOfFuel
  error_at_current := fun _ _ _ _ => .error .outOfFuel
  span := fun _ _ _ => .error .outOfFuel
  __expect := fun _ _ _ => .error .outOfFuel
  skip_newlines := fun _ => .error .outOfFuel
  parse_name_list_loop := fun _ => .error .outOfFuel
  parse_name_list := fun _ => .error .outOfFuel
  parse_import := fun _ _ => .error .outOfFuel
  next_decl := fun _ => .error .outOfFuel
  parse_type := fun _ => .error .outOfFuel
  parse_block_loop := fun _ _ => .error .outOfFuel
  parse_block := fun _ => .error .outOfFuel
  parse_struct_loop := fun _ _ => .error .outOfFuel
  parse_struct := fun _ => .error .outOfFuel
  variant_fields_loop := fun _ _ => .error .outOfFuel
  parse_enum_variant := fun _ => .error .outOfFuel
  parse_enum_loop := fun _ _ => .error .outOfFuel
  parse_enum := fun _ => .error .outOfFuel
  params_loop := fun _ _ => .error .outOfFuel
  parse_function_params := fun _ => .error .outOfFuel
  parse_function := fun _ => .error .outOfFuel
  parse_primary := fun _ => .error .outOfFuel
  parse_lhs := fun _ => .error .outOfFuel
  parse_expr_prec_loop := fun _ _ _ => .error .outOfFuel
  parse_expr_prec := fun _ _ => .error .outOfFuel
  parse_expr := fun _ => .error .outOfFuel
  parse_init := fun _ _ => .error .outOfFuel
  parse_decl := fun _ => .error .outOfFuel
  parse_decls_loop := fun _ => .error .outOfFuel
  parse_decls := fun _ => .error .outOfFuel

/-- The common exit of `next_token`: report whether the scanned token is
not `TOKEN_EOF`. -/
def next_token_done (lx : Lexer) : Except Err (Lexer × Bool) :=
  .ok (lx, lx.tok_kind ≠ TOKEN_EOF)

/-! Each step body as its own definition (`<name>F`), so that a
single field can be unfolded without materializing the whole function
structure. -/

def skip_digitsF (prev : Fns) : List Nat → Nat → Lexer → Nat → Except Err (Lexer × Nat) :=
  fun src base lx count =>
    let c := peekc src lx.pos
    if c = 95 then
      prev.skip_digits src base { lx with pos := lx.pos + 1 } count
    else
      let digit := digit_decoder c
      if digit = 0 ∧ c ≠ 48 then .ok (lx, count)
      else if base ≤ digit then
        if c = 101 ∨ c = 69 then .ok (lx, count)
        else
          let lx := push_error lx lx.pos lx.pos "invalid digit in numeric literal"
            "digit not allowed in this base" none
          prev.skip_digits src base { lx with pos := lx.pos + 1 } (count + 1)
      else
        prev.skip_digits src base { lx with pos := lx.pos + 1 } (count + 1)

def lex_numberF (prev : Fns) : List Nat → Lexer → Except Err Lexer :=
  fun src lx =>
    if ¬ isdigit (peekc src lx.pos) then .error .assertFailed
    else
      let tokStart := lx.pos
      let (lx, base) := lex_base src lx
      match prev.skip_digits src base lx 0 with
      | .error e => .error e
      | .ok (lx, count) =>
        let step2 : Except Err (Lexer × TokenKind) :=
          if peekc src lx.pos = 46 then
            let lx := { lx with pos := lx.pos + 1 }
            match prev.skip_digits src base lx 0 with
            | .error e => .error e
            | .ok (lx, _) =>
              let lx :=
                if base ≠ 10 ∧ base ≠ 16 then
                  push_error lx tokStart lx.pos "invalid base in floating point literal"
                    "base not supported for floats" (some "float bases are 10 and 16")
                else lx
              if base = 16 then
                let lx :=
                  if count ≠ 1 then
                    push_error lx tokStart lx.pos "invalid hexadecimal floating point literal"
                      "wrong digit count before the point" (some "one digit expected after the x")
                  else lx
                let lx :=
                  if peekc src (lx.pos + 1) ≠ 112 then
                    push_error lx tokStart lx.pos "invalid hexadecimal point literal"
                      "this number misses the exponent"
                      (some "a hexadecimal float needs an exponent")
                  else lx
                .ok (lx, TOKEN_FLOAT)
              else .ok (lx, TOKEN_FLOAT)
          else .ok (lx, TOKEN_INT)
        match step2 with
        | .error e => .error e
        | .ok (lx, kind) =>
          let c := peekc src lx.pos
          if c = 101 ∨ c = 69 then
            let lx := { lx with pos := lx.pos + 1 }
            let op := if peekc src lx.pos = 43 ∨ peekc src lx.pos = 45 then 1 else 0
            let lx := { lx with pos := lx.pos + op }
            match prev.skip_digits src 10 lx 0 with
            | .error e => .error e
            | .ok (lx, _) =>
              .ok { lx with tok_kind := TOKEN_FLOAT, tok_start := tokStart }
          else if c = 112 ∨ c = 80 then
            let lx :=
              if base ≠ 16 then
                push_error lx tokStart lx.pos "invalid suffix"
                  "p suffix outside base 16" (some "the suffix p is only used in base 16")
              else lx
            let lx := { lx with pos := lx.pos + 1 }
            let op := if peekc src lx.pos = 43 ∨ peekc src lx.pos = 45 then 1 else 0
            let lx := { lx with pos := lx.pos + op }
            match prev.skip_digits src 10 lx 0 with
            | .error e => .error e
            | .ok (lx, _) =>
              .ok { lx with tok_kind := TOKEN_FLOAT, tok_start := tokStart }
          else
            .ok { lx with tok_kind := kind, tok_start := tokStart }

def lex_char_skipF (prev : Fns) : List Nat → Nat → Except Err Nat :=
  fun src str =>
    if peekc src str ≠ 0 ∧ peekc src str ≠ 10 then prev.lex_char_skip src (str + 1)
    else .ok str

def lex_charF (prev : Fns) : List Nat → Lexer → Except Err (Lexer × Nat) :=
  fun src lx =>
    if peekc src lx.pos ≠ 39 then .error .assertFailed
    else
      let lx := { lx with tok_kind := TOKEN_CHAR, tok_start := lx.pos }
      let str := lx.pos + 1
      let step : Except Err (Lexer × Nat) :=
        if peekc src str = 92 then handle_escape src lx
        else .ok (lx, str + 1)
      match step with
      | .error e => .error e
      | .ok (lx, str) =>
        if peekc src str = 39 then .ok (lx, str + 1)
        else
          let lx := push_error lx str str "unterminated character literal" "add a quote here" none
          match prev.lex_char_skip src str with
          | .error e => .error e
          | .ok str => .ok (lx, str)

def lex_string_singleF (prev : Fns) : List Nat → Lexer → Nat → Except Err (Lexer × Nat) :=
  fun src lx str =>
    let c := peekc src str
    if c = 0 then .ok (lx, str)
    else if c = 34 ∨ c = 10 then .ok (lx, str + 1)
    else if c = 92 then
      match handle_escape src lx with
      | .error e => .error e
      | .ok (lx, str) => prev.lex_string_single src lx str
    else prev.lex_string_single src lx (str + 1)

def lex_string_multiF (prev : Fns) : List Nat → Lexer → Nat → Except Err (Lexer × Nat) :=
  fun src lx str =>
    if peekc src str = 0 then .ok (lx, str)
    else if peekc src str = 34 ∧ peekc src (str + 1) = 34 ∧ peekc src (str + 2) = 34 then
      .ok (lx, str + 3)
    else if peekc src str = 92 then
      match handle_escape src lx with
      | .error e => .error e
      | .ok (lx, str) => prev.lex_string_multi src lx str
    else prev.lex_string_multi src lx (str + 1)

def lex_stringF (prev : Fns) : List Nat → Lexer → Except Err (Lexer × Nat) :=
  fun src lx =>
    if peekc src lx.pos ≠ 34 then .error .assertFailed
    else
      let tokStart := lx.pos
      let triple :=
        peekc src lx.pos = 34 ∧ peekc src (lx.pos + 1) = 34 ∧ peekc src (lx.pos + 2) = 34
      let run : Except Err (Lexer × Nat × TokenKind) :=
        if triple then
          match prev.lex_string_multi src lx (lx.pos + 3) with
          | .error e => .error e
          | .ok (lx, str) => .ok (lx, str, TOKEN_MULTILINE_STRING)
        else
          match prev.lex_string_single src lx (lx.pos + 1) with
          | .error e => .error e
          | .ok (lx, str) => .ok (lx, str, TOKEN_STRING)
      match run with
      | .error e => .error e
      | .ok (lx, str, kind) =>
        let quotes := str - 1
        let lx :=
          if peekc src quotes ≠ 34 then
            if kind = TOKEN_STRING then
              push_error lx tokStart quotes "unterminated string" "missing quote"
                (some "probably you forgot a quote")
            else
              push_error lx tokStart quotes "unterminated multiline string" "missing quote"
                (some "probably you forgot three quotes")
          else lx
        .ok ({ lx with tok_kind := kind, tok_start := tokStart }, str)

def lex_identifier_loopF (prev : Fns) : List Nat → Nat → Except Err Nat :=
  fun src str =>
    if utf8_isalnum (peekc src str) ∨ peekc src str = 95 then
      prev.lex_identifier_loop src (str + utf8_bytes (peekc src str))
    else .ok str

def lex_identifierF (prev : Fns) : List Nat → Lexer → Except Err (Lexer × Nat) :=
  fun src lx =>
    let lx := { lx with tok_kind := TOKEN_IDENTIFIER, tok_start := lx.pos }
    match prev.lex_identifier_loop src lx.pos with
    | .error e => .error e
    | .ok str => .ok (lx, str)

def keyword_scanF (prev : Fns) : List Nat → Nat → Nat → Nat → Nat → TokenKind :=
  fun src pos length i stop =>
    if i ≤ stop then
      let kw := keywords.getD i ([], TOKEN_FIRST_KEYWORD)
      if length = kw.1.length ∧ match_bytes src pos kw.1 then kw.2
      else prev.keyword_scan src pos length (i + 1) stop
    else TOKEN_IDENTIFIER

def comment_line_loopF (prev : Fns) : List Nat → Nat → Except Err Nat :=
  fun src str =>
    if peekc src str ≠ 13 ∧ peekc src str ≠ 10 then prev.comment_line_loop src (str + 1)
    else .ok str

def comment_block_loopF (prev : Fns) : List Nat → Nat → Nat → Except Err Nat :=
  fun src str depth =>
    if peekc src str ≠ 0 ∧ 0 < depth then
      if peekc src str = 47 ∧ peekc src (str + 1) = 42 then
        prev.comment_block_loop src (str + 2) (depth + 1)
      else if peekc src str = 42 ∧ peekc src (str + 1) = 47 then
        prev.comment_block_loop src (str + 2) (depth - 1)
      else prev.comment_block_loop src (str + 1) depth
    else .ok str

def skip_spaces_loopF (prev : Fns) : List Nat → Nat → Except Err Nat :=
  fun src pos =>
    if is_space (peekc src pos) then prev.skip_spaces_loop src (pos + 1)
    else .ok pos

def utf8_ident_loopF (prev : Fns) : List Nat → Nat → Except Err Nat :=
  fun src str =>
    if utf8_isalnum (peekc src str) then
      prev.utf8_ident_loop src (str + utf8_bytes (peekc src str))
    else .ok str

/-- The hand-written `|` case of `next_token`: `||`, `|=`, `|>`, `|`. -/
def next_token_pipe (src : List Nat) (lx : Lexer) : Except Err (Lexer × Bool) :=
  let lx :=
    if peekc src (lx.pos + 1) = 124 then
      { lx with tok_start := lx.pos, tok_kind := TOKEN_PIPE_PIPE, pos := lx.pos + 2 }
    else if peekc src (lx.pos + 1) = 61 then
      { lx with tok_start := lx.pos, tok_kind := TOKEN_PIPE_EQ, pos := lx.pos + 2 }
    else if peekc src (lx.pos + 1) = 62 then
      { lx with tok_start := lx.pos, tok_kind := TOKEN_PIPE_GT, pos := lx.pos + 2 }
    else
      { lx with tok_start := lx.pos, tok_kind := TOKEN_PIPE, pos := lx.pos + 1 }
  next_token_done lx

/-- The hand-written `.` case of `next_token`: `.`, `..`, `...`. -/
def next_token_dot (src : List Nat) (lx : Lexer) : Except Err (Lexer × Bool) :=
  let lx :=
    if peekc src (lx.pos + 1) ≠ 46 then
      { lx with tok_start := lx.pos, tok_kind := TOKEN_DOT, pos := lx.pos + 1 }
    else if peekc src (lx.pos + 2) ≠ 46 then
      { lx with tok_start := lx.pos, tok_kind := TOKEN_DOT_DOT, pos := lx.pos + 2 }
    else
      { lx with tok_start := lx.pos, tok_kind := TOKEN_ELLIPSIS, pos := lx.pos + 3 }
  next_token_done lx

/-- The `/` case of `next_token`: line/doc comments, nested block
comments, `/=`, `/`. -/
def next_token_slash (prev : Fns) (src : List Nat) (lx : Lexer) : Except Err (Lexer × Bool) :=
  if peekc src (lx.pos + 1) = 47 then
    let (str, kind) :=
      if peekc src (lx.pos + 2) = 47 then (lx.pos + 3, TOKEN_DOC_COMMENT)
      else (lx.pos + 2, TOKEN_COMMENT)
    match prev.comment_line_loop src str with
    | .error e => .error e
    | .ok str =>
      let str := str + (if peekc src str = 13 then 1 else 0)
      next_token_done { lx with tok_start := lx.pos, tok_kind := kind, pos := str }
  else if peekc src (lx.pos + 1) = 42 then
    match prev.comment_block_loop src (lx.pos + 2) 1 with
    | .error e => .error e
    | .ok str =>
      next_token_done { lx with tok_start := lx.pos, tok_kind := TOKEN_MULTILINE_COMMENT, pos := str }
  else if peekc src (lx.pos + 1) = 61 then
    next_token_done { lx with tok_start := lx.pos, tok_kind := TOKEN_SLASH_EQ, pos := lx.pos + 2 }
  else
    next_token_done { lx with tok_start := lx.pos, tok_kind := TOKEN_SLASH, pos := lx.pos + 1 }

/-- The digit case of `next_token`. -/
def next_token_number (prev : Fns) (src : List Nat) (lx : Lexer) : Except Err (Lexer × Bool) :=
  match prev.lex_number src lx with
  | .error e => .error e
  | .ok lx => next_token_done lx

/-- The `'` case of `next_token`. -/
def next_token_charlit (prev : Fns) (src : List Nat) (lx : Lexer) : Except Err (Lexer × Bool) :=
  match prev.lex_char src lx with
  | .error e => .error e
  | .ok (lx, str) => next_token_done { lx with pos := str }

/-- The `"` case of `next_token`. -/
def next_token_strlit (prev : Fns) (src : List Nat) (lx : Lexer) : Except Err (Lexer × Bool) :=
  match prev.lex_string src lx with
  | .error e => .error e
  | .ok (lx, str) => next_token_done { lx with pos := str }

/-- The ASCII identifier/keyword case of `next_token`. -/
def next_token_ident (prev : Fns) (src : List Nat) (lx : Lexer) : Except Err (Lexer × Bool) :=
  match prev.lex_identifier src lx with
  | .error e => .error e
  | .ok (lx, str) =>
    let length := str - lx.pos
    let kind :=
      if length ≤ max_keyword_length then
        match keyword_info (peekc src lx.pos) with
        | some (first, last) => prev.keyword_scan src lx.pos length first last
        | none => TOKEN_IDENTIFIER
      else TOKEN_IDENTIFIER
    next_token_done { lx with tok_kind := kind, pos := str }

/-- The space/tab case of `next_token`: skip and `goto repeat`. -/
def next_token_spaces (prev : Fns) (src : List Nat) (lx : Lexer) : Except Err (Lexer × Bool) :=
  match prev.skip_spaces_loop src lx.pos with
  | .error e => .error e
  | .ok pos => prev.next_token src { lx with pos := pos }

/-- The default case of `next_token`: a UTF-8 identifier (no `_` in this
loop) or a `TOKEN_BAD` with an unknown-character diagnostic. -/
def next_token_other (prev : Fns) (src : List Nat) (lx : Lexer) : Except Err (Lexer × Bool) :=
  if utf8_isalpha (peekc src lx.pos) then
    match prev.utf8_ident_loop src lx.pos with
    | .error e => .error e
    | .ok str =>
      next_token_done { lx with tok_start := lx.pos, tok_kind := TOKEN_IDENTIFIER, pos := str }
  else
    let lx2 := push_error lx lx.pos lx.pos "unknown character" "" none
    next_token_done { lx2 with tok_start := lx.pos, tok_kind := TOKEN_BAD, pos := lx.pos + 1 }

def next_tokenF (prev : Fns) (src : List Nat) (lx : Lexer) : Except Err (Lexer × Bool) :=
  let c := peekc src lx.pos
  if c = 43 then next_token_done (OP_EQ src lx TOKEN_PLUS TOKEN_PLUS_EQ)
  else if c = 45 then next_token_done (OP2_EQ src lx TOKEN_MINUS 62 TOKEN_ARROW TOKEN_MINUS_EQ)
  else if c = 42 then next_token_done (OP_EQ src lx TOKEN_STAR TOKEN_STAR_EQ)
  else if c = 37 then next_token_done (OP_EQ src lx TOKEN_PERCENTAGE TOKEN_PERCENTAGE_EQ)
  else if c = 38 then next_token_done (OP2_EQ src lx TOKEN_AND 38 TOKEN_AND_AND TOKEN_AND_EQ)
  else if c = 94 then next_token_done (OP_EQ src lx TOKEN_CARET TOKEN_CARET_EQ)
  else if c = 60 then
    next_token_done (OP3_EQ src lx TOKEN_LT 60 TOKEN_LT_LT TOKEN_LT_LT_EQ 61 TOKEN_LT_EQ)
  else if c = 62 then
    next_token_done (OP3_EQ src lx TOKEN_GT 62 TOKEN_GT_GT TOKEN_GT_GT_EQ 61 TOKEN_GT_EQ)
  else if c = 61 then next_token_done (OP3 src lx TOKEN_EQ 61 TOKEN_EQ_EQ 62 TOKEN_FAT_ARROW)
  else if c = 33 then next_token_done (OP2 src lx TOKEN_EXCLAMATION 61 TOKEN_EXCLAMATION_EQ)
  else if c = 63 then next_token_done (OP lx TOKEN_QUESTION)
  else if c = 44 then next_token_done (OP lx TOKEN_COMMA)
  else if c = 59 then next_token_done (OP lx TOKEN_SEMICOLON)
  else if c = 58 then next_token_done (OP lx TOKEN_COLON)
  else if c = 64 then next_token_done (OP lx TOKEN_AT)
  else if c = 126 then next_token_done (OP lx TOKEN_TILDE)
  else if c = 40 then next_token_done (OP lx TOKEN_LPAREN)
  else if c = 41 then next_token_done (OP lx TOKEN_RPAREN)
  else if c = 91 then next_token_done (OP lx TOKEN_LBRACKET)
  else if c = 93 then next_token_done (OP lx TOKEN_RBRACKET)
  else if c = 123 then next_token_done (OP lx TOKEN_LBRACE)
  else if c = 125 then next_token_done (OP lx TOKEN_RBRACE)
  else if c = 124 then next_token_pipe src lx
  else if c = 46 then next_token_dot src lx
  else if c = 47 then next_token_slash prev src lx
  else if isdigit c then next_token_number prev src lx
  else if c = 39 then next_token_charlit prev src lx
  else if c = 34 then next_token_strlit prev src lx
  else if isalpha c ∨ c = 95 then next_token_ident prev src lx
  else if c = 13 then
    -- carriage return falls through into the newline case after one increment
    next_token_done { lx with tok_start := lx.pos + 1, tok_kind := TOKEN_NEWLINE, pos := lx.pos + 2 }
  else if c = 10 then
    next_token_done { lx with tok_start := lx.pos, tok_kind := TOKEN_NEWLINE, pos := lx.pos + 1 }
  else if c = 32 ∨ c = 9 then next_token_spaces prev src lx
  else if c = 0 then next_token_done { lx with tok_kind := TOKEN_EOF }
  else next_token_other prev src lx

def lex_loopF (prev : Fns) : List Nat → Lexer → List TokenKind → List Nat → Except Err (Lexer × List TokenKind × List Nat) :=
  fun src lx kinds starts =>
    match prev.next_token src lx with
    | .error e => .error e
    | .ok (lx, more) =>
      if more then prev.lex_loop src lx (kinds ++ [lx.tok_kind]) (starts ++ [lx.tok_start])
      else .ok (lx, kinds, starts)

def token_lengthF (prev : Fns) : List Nat → TokenKind → Nat → Except Err Nat :=
  fun src kind start =>
    let fresh : Lexer :=
      { file_id := 0, tok_kind := TOKEN_EOF, tok_start := 0, pos := start, diagnostics := [] }
    if kind = TOKEN_INT ∨ kind = TOKEN_FLOAT then
      match prev.lex_number src fresh with
      | .error e => .error e
      | .ok lx => .ok (lx.pos - start)
    else if kind = TOKEN_CHAR then
      match prev.lex_char src fresh with
      | .error e => .error e
      | .ok (_, stop) => .ok (stop - start)
    else if kind = TOKEN_STRING ∨ kind = TOKEN_MULTILINE_STRING then
      match prev.lex_string src fresh with
      | .error e => .error e
      | .ok (_, stop) => .ok (stop - start)
    else if kind = TOKEN_IDENTIFIER then
      match prev.lex_identifier src fresh with
      | .error e => .error e
      | .ok (_, stop) => .ok (stop - start)
    else
      .ok ((token_to_string kind).length + 1)

def error_atF (prev : Fns) : Parser → Nat → String → String → Option String → Except Err Parser :=
  fun st index message label hint =>
    let start := st.token_start.getD index 0
    let kind := st.token_kind.getD index TOKEN_EOF
    match prev.token_length st.str kind start with
    | .error e => .error e
    | .ok len =>
      .ok (error_span st { file_id := st.file_id, start := start, stop := start + len }
            message label hint)

def error_at_currentF (prev : Fns) : Parser → String → String → Option String → Except Err Parser :=
  fun st message label hint =>
    prev.error_at st st.token_index message label hint

def spanF (prev : Fns) : Parser → Nat → Nat → Except Err Span :=
  fun st first last =>
    let start := st.token_start.getD last 0
    let kind := st.token_kind.getD last TOKEN_EOF
    match prev.token_length st.str kind start with
    | .error e => .error e
    | .ok len =>
      .ok { file_id := st.file_id
            start := st.token_start.getD first 0
            stop := st.token_start.getD last 0 + len - 1 }

def __expectF (prev : Fns) : Parser → TokenKind → Option String → Except Err (Parser × Bool) :=
  fun st kind hint =>
    if current st = kind then .ok (advance st, true)
    else
      match prev.error_at_current st "expected token" "found other token" hint with
      | .error e => .error e
      | .ok st => .ok (st, false)

def skip_newlinesF (prev : Fns) : Parser → Except Err Parser :=
  fun st =>
    if current st = TOKEN_NEWLINE then prev.skip_newlines (advance st)
    else .ok st

def parse_name_list_loopF (prev : Fns) : Parser → Except Err Parser :=
  fun st =>
    if current st = TOKEN_EOF then .ok st
    else
      let (st, matched) := __match st TOKEN_IDENTIFIER
      if matched then
        let (st, _) := add_node st NODE_IDENTIFIER (st.token_index - 1) (0, 0)
        if current st = TOKEN_COMMA then prev.parse_name_list_loop (advance st)
        else .ok st
      else .ok st

def parse_name_listF (prev : Fns) : Parser → Except Err (Parser × (Nat × Nat)) :=
  fun st =>
    let start := st.nodes.kind.length
    match prev.parse_name_list_loop st with
    | .error e => .error e
    | .ok st =>
      let stop := st.nodes.kind.length - 1
      if stop < start then .ok (st, (0, 0))
      else .ok (st, (start, stop))

def parse_importF (prev : Fns) : Parser → ImportKind → Except Err (Parser × Nat) :=
  fun st import_kind =>
    if current st ≠ TOKEN_IMPORT then .error .assertFailed
    else
      let st := advance st
      let (st, result) := reserve_node st
      let module := st.token_index
      let st := advance st
      let step : Except Err (Parser × Nat) :=
        let (st, matched) := __match st TOKEN_LBRACE
        if matched then
          let (st, list) := reserve_node st
          match prev.parse_name_list st with
          | .error e => .error e
          | .ok (st, list_range) =>
            let step2 : Except Err Parser :=
              if list_range.1 ≠ 0 ∧ list_range.2 ≠ 0 then
                .ok (set_node st list NODE_RANGE invalid list_range)
              else
                let (st, matched) := __match st TOKEN_ELLIPSIS
                if matched then
                  .ok (set_node st list NODE_ALL_SYMBOLS (st.token_index - 1) (0, 0))
                else
                  prev.error_at_current st "expected either an identifier or an ellipsis"
                    "found other token" (some "complex import forms")
            match step2 with
            | .error e => .error e
            | .ok st =>
              match prev.__expect st TOKEN_RBRACE (some "closing brace of a symbol list") with
              | .error e => .error e
              | .ok (st, _) => .ok (st, list)
        else .ok (st, invalid)
      match step with
      | .error e => .error e
      | .ok (st, list) =>
        let (st, as_name) :=
          let (st, matched) := __match st TOKEN_AS
          if matched then (advance st, st.token_index)
          else (st, invalid)
        if list ≠ invalid then
          let kind :=
            match import_kind with
            | .IMPORT_FOREIGN => NODE_FOREIGN_IMPORT_COMPLEX
            | .IMPORT_NORMAL => NODE_IMPORT_COMPLEX
          .ok (set_node st result kind module (as_name, list), result)
        else
          let kind :=
            match import_kind with
            | .IMPORT_FOREIGN => NODE_FOREIGN_IMPORT
            | .IMPORT_NORMAL => NODE_IMPORT
          .ok (set_node st result kind module (as_name, invalid), result)

def next_declF (prev : Fns) : Parser → Except Err Parser :=
  fun st =>
    match current st with
    | TOKEN_EOF => .ok st
    | TOKEN_FOREIGN => .ok st
    | TOKEN_IMPORT => .ok st
    | TOKEN_WHEN => .ok st
    | TOKEN_USING => .ok st
    | TOKEN_AT => .ok st
    | TOKEN_IDENTIFIER =>
      if peekt st 1 = TOKEN_COLON ∨ peekt st 1 = TOKEN_COLON_COLON ∨
          peekt st 1 = TOKEN_COLON_EQ then .ok st
      else prev.next_decl (advance st)
    | _ => prev.next_decl (advance st)

def parse_typeF (prev : Fns) : Parser → Except Err (Parser × Nat) :=
  fun st =>
    let (st, matched) := __match st TOKEN_AND
    if matched then
      let (st, matchedMut) := __match st TOKEN_MUT
      if matchedMut then
        let token := st.token_index - 2
        match prev.parse_type st with
        | .error e => .error e
        | .ok (st, expr) => .ok (add_node st NODE_REF_MUT_TYPE token (expr, 0))
      else
        let (st, matchedOwn) := __match st TOKEN_OWN
        if matchedOwn then
          let token := st.token_index - 2
          match prev.parse_type st with
          | .error e => .error e
          | .ok (st, expr) => .ok (add_node st NODE_REF_OWN_TYPE token (expr, 0))
        else
          let token := st.token_index - 1
          match prev.parse_type st with
          | .error e => .error e
          | .ok (st, expr) => .ok (add_node st NODE_REF_TYPE token (expr, 0))
    else
      let (st, matchedBracket) := __match st TOKEN_LBRACKET
      if matchedBracket then
        let lbracket := st.token_index - 1
        match prev.parse_expr st with
        | .error e => .error e
        | .ok (st, expr) =>
          match prev.__expect st TOKEN_RBRACKET (some "array type example") with
          | .error e => .error e
          | .ok (st, _) =>
            match prev.parse_type st with
            | .error e => .error e
            | .ok (st, rhs) => .ok (add_node st NODE_ARRAY_TYPE lbracket (expr, rhs))
      else prev.parse_expr st

def parse_block_loopF (prev : Fns) : Parser → Nat → Except Err (Parser × Nat) :=
  fun st count =>
    if current st ≠ TOKEN_EOF ∧ current st ≠ TOKEN_RBRACE then
      match prev.skip_newlines st with
      | .error e => .error e
      | .ok st =>
        let (st, stmt) := parse_stmt st
        let st := add_scratch st stmt
        prev.parse_block_loop st (count + 1)
    else .ok (st, count)

def parse_blockF (prev : Fns) : Parser → Except Err (Parser × Nat) :=
  fun st =>
    if current st ≠ TOKEN_LBRACE then .ok (st, invalid)
    else
      let token := st.token_index
      let st := advance st
      let (st, result) := reserve_node st
      let scratch_top := st.scratch_top
      match prev.skip_newlines st with
      | .error e => .error e
      | .ok st =>
        match prev.parse_block_loop st 0 with
        | .error e => .error e
        | .ok (st, count) =>
          match prev.__expect st TOKEN_RBRACE none with
          | .error e => .error e
          | .ok (st, _) =>
            if count = 0 then
              .ok (set_node st result NODE_BLOCK token (0, 0), result)
            else
              let start := st.nodes.kind.length
              let st := push_scratch st scratch_top
              let stop := st.nodes.kind.length - 1
              .ok (set_node st result NODE_BLOCK token (start, stop), result)

def parse_struct_loopF (prev : Fns) : Parser → Nat → Except Err (Parser × Nat) :=
  fun st count =>
    if current st ≠ TOKEN_EOF ∧ current st ≠ TOKEN_RBRACE then
      let name_token := st.token_index
      match prev.__expect st TOKEN_IDENTIFIER (some "struct field example") with
      | .error e => .error e
      | .ok (st, _) =>
        let (st, name) := add_node st NODE_IDENTIFIER name_token (0, 0)
        let fieldTypeExpr : Except Err (Parser × Nat × Nat) :=
          let (st, matchedColon) := __match st TOKEN_COLON
          if matchedColon then
            match prev.parse_type st with
            | .error e => .error e
            | .ok (st, type) =>
              let (st, matchedEq) := __match st TOKEN_EQ
              if matchedEq then
                match prev.parse_expr st with
                | .error e => .error e
                | .ok (st, expr) => .ok (st, type, expr)
              else .ok (st, type, invalid)
          else
            let (st, matchedColonEq) := __match st TOKEN_COLON_EQ
            if matchedColonEq then
              match prev.parse_expr st with
              | .error e => .error e
              | .ok (st, expr) => .ok (st, invalid, expr)
            else
              match prev.error_at_current st "expected a colon or colon-equals"
                  "found other token" (some "struct field forms") with
              | .error e => .error e
              | .ok st => .ok (st, invalid, invalid)
        match fieldTypeExpr with
        | .error e => .error e
        | .ok (st, type, expr) =>
          let field : Node := { kind := NODE_FIELD, token := name, data := (type, expr) }
          let st := add_scratch st field
          let count := count + 1
          match prev.skip_newlines st with
          | .error e => .error e
          | .ok st =>
            if current st = TOKEN_RBRACE ∨ current st = TOKEN_EOF then .ok (st, count)
            else
              match prev.__expect st TOKEN_COMMA (some "struct fields end with a comma") with
              | .error e => .error e
              | .ok (st, _) =>
                match prev.skip_newlines st with
                | .error e => .error e
                | .ok st => prev.parse_struct_loop st count
    else .ok (st, count)

def parse_structF (prev : Fns) : Parser → Except Err (Parser × Nat) :=
  fun st =>
    let token := st.token_index
    if current st ≠ TOKEN_STRUCT then .error .assertFailed
    else
      let st := advance st
      match prev.__expect st TOKEN_LBRACE (some "opening brace after the struct keyword") with
      | .error e => .error e
      | .ok (st, found) =>
        if ¬ found then .ok (st, invalid)
        else
          let scratch_top := st.scratch_top
          let (st, result) := reserve_node st
          match prev.skip_newlines st with
          | .error e => .error e
          | .ok st =>
            match prev.parse_struct_loop st 0 with
            | .error e => .error e
            | .ok (st, count) =>
              match prev.__expect st TOKEN_RBRACE
                  (some "closing brace at the end of a struct declaration") with
              | .error e => .error e
              | .ok (st, _) =>
                let start := st.nodes.kind.length
                let st := push_scratch st scratch_top
                let stop := st.nodes.kind.length - 1
                if count = 0 then
                  .ok (set_node st result NODE_STRUCT_TWO token (0, 0), result)
                else if count ≤ 2 then
                  .ok (set_node st result NODE_STRUCT_TWO token (start, stop), result)
                else
                  .ok (set_node st result NODE_STRUCT token (start, stop), result)

def variant_fields_loopF (prev : Fns) : Parser → Nat → Except Err (Parser × Nat) :=
  fun st count =>
    if current st ≠ TOKEN_EOF ∧ current st ≠ TOKEN_RPAREN then
      match prev.parse_type st with
      | .error e => .error e
      | .ok (st, lhs) =>
        let rhsStep : Except Err (Parser × Nat) :=
          let (st, matchedColon) := __match st TOKEN_COLON
          if matchedColon then
            let step : Except Err Parser :=
              if st.nodes.kind.getD lhs NODE_INVALID ≠ NODE_IDENTIFIER then
                prev.error_at st (st.nodes.token.getD lhs 0) "expected an identifier"
                  "found other token" (some "named variant field example")
              else .ok st
            match step with
            | .error e => .error e
            | .ok st =>
              match prev.parse_type st with
              | .error e => .error e
              | .ok (st, rhs) => .ok (st, rhs)
          else .ok (st, invalid)
        match rhsStep with
        | .error e => .error e
        | .ok (st, rhs) =>
          let field : Node := { kind := NODE_FIELD, token := lhs, data := (lhs, rhs) }
          let st := add_scratch st field
          let count := count + 1
          if current st = TOKEN_RPAREN then .ok (st, count)
          else
            match prev.skip_newlines st with
            | .error e => .error e
            | .ok st =>
              match prev.__expect st TOKEN_COMMA (some "enum variant forms") with
              | .error e => .error e
              | .ok (st, _) =>
                match prev.skip_newlines st with
                | .error e => .error e
                | .ok st => prev.variant_fields_loop st count
    else .ok (st, count)

def parse_enum_variantF (prev : Fns) : Parser → Except Err (Parser × Node) :=
  fun st =>
    let name_token := st.token_index
    match prev.__expect st TOKEN_IDENTIFIER (some "variant name") with
    | .error e => .error e
    | .ok (st, _) =>
      let (st, name) := add_node st NODE_IDENTIFIER name_token (0, 0)
      let scratch_top := st.scratch_top
      let step : Except Err (Parser × Int × Nat) :=
        let (st, matchedParen) := __match st TOKEN_LPAREN
        if matchedParen then
          match prev.variant_fields_loop st 0 with
          | .error e => .error e
          | .ok (st, count) =>
            match prev.__expect st TOKEN_RPAREN
                (some "closing parenthesis of a complex variant") with
            | .error e => .error e
            | .ok (st, _) => .ok (st, (count : Int), invalid)
        else
          let (st, matchedEq) := __match st TOKEN_EQ
          if matchedEq then
            match prev.parse_expr st with
            | .error e => .error e
            | .ok (st, expr) => .ok (st, (-1 : Int), expr)
          else .ok (st, (-1 : Int), invalid)
      match step with
      | .error e => .error e
      | .ok (st, count, expr) =>
        if count = -1 then
          .ok (st, { kind := NODE_VARIANT_SIMPLE, token := name, data := (expr, 0) })
        else
          let diagStep : Except Err Parser :=
            if count = 0 then
              let rparen := st.token_index - 1
              match prev.span st name rparen with
              | .error e => .error e
              | .ok sp =>
                .ok (error_span st sp "invalid enum variant"
                      "there are not any fields between the parenthesis"
                      (some "empty variant parenthesis"))
            else .ok st
          match diagStep with
          | .error e => .error e
          | .ok st =>
            let start := st.nodes.kind.length
            let st := push_scratch st scratch_top
            let stop := st.nodes.kind.length - 1
            let kind := if count ≤ 2 then NODE_VARIANT_TWO else NODE_VARIANT
            .ok (st, { kind := kind, token := name, data := (start, stop) })

def parse_enum_loopF (prev : Fns) : Parser → Nat → Except Err (Parser × Nat) :=
  fun st count =>
    if current st ≠ TOKEN_EOF ∧ current st ≠ TOKEN_RBRACE then
      match prev.parse_enum_variant st with
      | .error e => .error e
      | .ok (st, variant) =>
        let st := add_scratch st variant
        let count := count + 1
        let (st, _) := __match st TOKEN_COMMA
        if current st = TOKEN_RBRACE ∨ current st = TOKEN_EOF then .ok (st, count)
        else
          match prev.__expect st TOKEN_NEWLINE (some "variants end with a newline") with
          | .error e => .error e
          | .ok (st, _) =>
            match prev.skip_newlines st with
            | .error e => .error e
            | .ok st => prev.parse_enum_loop st count
    else .ok (st, count)

def parse_enumF (prev : Fns) : Parser → Except Err (Parser × Nat) :=
  fun st =>
    if current st ≠ TOKEN_ENUM then .error .assertFailed
    else
      let st := advance st
      let tokenStep : Except Err (Parser × Nat) :=
        let (st, matched) := __match st TOKEN_IDENTIFIER
        if matched then
          match prev.parse_type st with
          | .error e => .error e
          | .ok (st, token) => .ok (st, token)
        else .ok (st, invalid)
      match tokenStep with
      | .error e => .error e
      | .ok (st, token) =>
        match prev.__expect st TOKEN_LBRACE (some "opening brace after the enum keyword") with
        | .error e => .error e
        | .ok (st, found) =>
          if ¬ found then .ok (st, invalid)
          else
            let (st, result) := reserve_node st
            let scratch_top := st.scratch_top
            match prev.parse_enum_loop st 0 with
            | .error e => .error e
            | .ok (st, count) =>
              match prev.__expect st TOKEN_RBRACE
                  (some "closing brace at the end of an enum declaration") with
              | .error e => .error e
              | .ok (st, _) =>
                let start := st.nodes.kind.length
                let st := push_scratch st scratch_top
                let stop := st.nodes.kind.length - 1
                if count = 0 then
                  .ok (set_node st result NODE_ENUM_TWO token (0, 0), result)
                else if count ≤ 2 then
                  .ok (set_node st result NODE_ENUM_TWO token (start, stop), result)
                else
                  .ok (set_node st result NODE_ENUM token (start, stop), result)

def params_loopF (prev : Fns) : Parser → Nat → Except Err (Parser × Int) :=
  fun st count =>
    if current st = TOKEN_IDENTIFIER then
      let name_token := st.token_index
      let st := advance st
      let (st, name) := add_node st NODE_IDENTIFIER name_token (0, 0)
      let paramStep : Except Err (Parser × Nat × Bool) :=
        let (st, matchedColon) := __match st TOKEN_COLON
        if matchedColon then
          let (st, vararg) := __match st TOKEN_ELLIPSIS
          match prev.parse_type st with
          | .error e => .error e
          | .ok (st, type) =>
            let (st, matchedEq) := __match st TOKEN_EQ
            if matchedEq then
              match prev.parse_expr st with
              | .error e => .error e
              | .ok (st, expr) =>
                let param : Node :=
                  { kind := if vararg then NODE_VARPARAM else NODE_PARAM,
                    token := name, data := (type, expr) }
                .ok (add_scratch st param, count + 1, true)
            else
              let param : Node :=
                { kind := if vararg then NODE_VARPARAM else NODE_PARAM,
                  token := name, data := (type, invalid) }
              .ok (add_scratch st param, count + 1, true)
        else
          if current st ≠ TOKEN_COMMA then .ok (st, count, false)
          else
            match prev.error_at_current st "expected a type" "found other token"
                (some "parameter with a type") with
            | .error e => .error e
            | .ok st => .ok (st, count, true)
      match paramStep with
      | .error e => .error e
      | .ok (st, count, ok) =>
        if ¬ ok then .ok (st, (-1 : Int))
        else
          if current st = TOKEN_RPAREN ∨ current st = TOKEN_EOF then .ok (st, (count : Int))
          else
            match prev.__expect st TOKEN_COMMA (some "comma after the parameter") with
            | .error e => .error e
            | .ok (st, _) =>
              match prev.skip_newlines st with
              | .error e => .error e
              | .ok st => prev.params_loop st count
    else .ok (st, (count : Int))

def parse_function_paramsF (prev : Fns) : Parser → Except Err (Parser × Int × (Nat × Nat)) :=
  fun st =>
    if current st ≠ TOKEN_LPAREN then .error .assertFailed
    else
      let st := advance st
      let (st, matchedRParen) := __match st TOKEN_RPAREN
      if matchedRParen then .ok (st, (0 : Int), (0, 0))
      else
        let scratch_top := st.scratch_top
        match prev.params_loop st 0 with
        | .error e => .error e
        | .ok (st, count) =>
          if count = -1 then .ok (st, (-1 : Int), (0, 0))
          else
            match prev.__expect st TOKEN_RPAREN
                (some "closing parenthesis after the function parameters") with
            | .error e => .error e
            | .ok (st, _) =>
              let start := st.nodes.kind.length
              let st := push_scratch st scratch_top
              let stop := st.nodes.kind.length - 1
              .ok (st, count, (start, stop))

def parse_functionF (prev : Fns) : Parser → Except Err (Parser × Nat) :=
  fun st =>
    let (st, result) := reserve_node st
    let (st, func_proto) := reserve_node st
    let start := st.token_index
    match prev.parse_function_params st with
    | .error e => .error e
    | .ok (st, count, args) =>
      if count = -1 then
        match pop_node st func_proto with
        | .error e => .error e
        | .ok st =>
          match pop_node st result with
          | .error e => .error e
          | .ok st => .ok ({ st with token_index := start }, invalid)
      else
        let returnStep : Except Err (Parser × Nat) :=
          let (st, matchedArrow) := __match st TOKEN_ARROW
          if matchedArrow then
            match prev.parse_type st with
            | .error e => .error e
            | .ok (st, rt) => .ok (st, rt)
          else .ok (st, invalid)
        match returnStep with
        | .error e => .error e
        | .ok (st, return_type) =>
          let (st, calling_convention) :=
            let (st, matchedStr) := __match st TOKEN_STRING
            if matchedStr then add_node st NODE_STRING (st.token_index - 1) (0, 0)
            else (st, invalid)
          match prev.skip_newlines st with
          | .error e => .error e
          | .ok st =>
            let bodyStep : Except Err (Parser × Nat) :=
              let (st, matchedFatArrow) := __match st TOKEN_FAT_ARROW
              if matchedFatArrow then prev.parse_expr st
              else prev.parse_block st
            match bodyStep with
            | .error e => .error e
            | .ok (st, body) =>
              let st :=
                if count = 0 then
                  let (st, proto) := add_extra st [invalid, calling_convention]
                  set_node st func_proto NODE_FUNC_PROTO_ONE invalid (proto, return_type)
                else if count = 1 then
                  let (st, proto) := add_extra st [args.1, calling_convention]
                  set_node st func_proto NODE_FUNC_PROTO_ONE invalid (proto, return_type)
                else
                  let (st, proto) := add_extra st [args.1, args.2, calling_convention]
                  set_node st func_proto NODE_FUNC_PROTO invalid (proto, return_type)
              .ok (set_node st result NODE_FUNC start (func_proto, body), result)

def parse_primaryF (prev : Fns) : Parser → Except Err (Parser × Nat) :=
  fun st =>
    match current st with
    | TOKEN_IDENTIFIER =>
      let st := advance st
      .ok (add_node st NODE_IDENTIFIER (st.token_index - 1) (0, 0))
    | TOKEN_INT =>
      let st := advance st
      .ok (add_node st NODE_INT (st.token_index - 1) (0, 0))
    | TOKEN_LPAREN =>
      match prev.parse_function st with
      | .error e => .error e
      | .ok (st, expr) =>
        if expr ≠ invalid then .ok (st, expr)
        else
          let st := advance st
          match prev.parse_expr st with
          | .error e => .error e
          | .ok (st, expr) =>
            match prev.__expect st TOKEN_RPAREN (some "closing parenthesis") with
            | .error e => .error e
            | .ok (st, _) => .ok (st, expr)
    | TOKEN_STRUCT => prev.parse_struct st
    | TOKEN_ENUM => prev.parse_enum st
    | TOKEN_RBRACKET => .ok (st, invalid)
    | _ => .error .todoHit

def parse_lhsF (prev : Fns) : Parser → Except Err (Parser × Nat) :=
  fun st =>
    let (st, op) := current_unary st
    if op.kind ≠ NODE_ROOT then
      let st := advance st
      match prev.parse_lhs st with
      | .error e => .error e
      | .ok (st, expr) => .ok (add_node st op.kind op.token (expr, 0))
    else prev.parse_primary st

def parse_expr_prec_loopF (prev : Fns) : Nat → Parser → Nat → Except Err (Parser × Nat) :=
  fun prec st lhs =>
    let op := current_op st
    if prec ≤ op.prec then
      let st := advance st
      match prev.parse_expr_prec (op.prec + 1) st with
      | .error e => .error e
      | .ok (st, rhs) =>
        let (st, lhs) := add_node st op.kind op.token (lhs, rhs)
        prev.parse_expr_prec_loop prec st lhs
    else .ok (st, lhs)

def parse_expr_precF (prev : Fns) : Nat → Parser → Except Err (Parser × Nat) :=
  fun prec st =>
    match prev.parse_lhs st with
    | .error e => .error e
    | .ok (st, lhs) =>
      if lhs = invalid then .ok (st, invalid)
      else prev.parse_expr_prec_loop prec st lhs

def parse_exprF (prev : Fns) : Parser → Except Err (Parser × Nat) :=
  fun st => prev.parse_expr_prec PREC_OR st

def parse_initF (prev : Fns) : Parser → Nat → Except Err (Parser × Nat) :=
  fun st identifier =>
    let (st, matchedColon) := __match st TOKEN_COLON
    if matchedColon then
      let (st, init) := reserve_node st
      match prev.parse_type st with
      | .error e => .error e
      | .ok (st, type) =>
        let (st, matchedColon2) := __match st TOKEN_COLON
        if matchedColon2 then
          match prev.parse_expr st with
          | .error e => .error e
          | .ok (st, expr) =>
            .ok (set_node st init NODE_CONST identifier (type, expr), init)
        else
          let (st, matchedEq) := __match st TOKEN_EQ
          if matchedEq then
            match prev.parse_expr st with
            | .error e => .error e
            | .ok (st, expr) =>
              .ok (set_node st init NODE_VAR identifier (type, expr), init)
          else
            match prev.error_at_current st "expected one of colon or equals"
                "found other token" (some "initialization forms") with
            | .error e => .error e
            | .ok st => .ok (st, invalid)
    else
      let (st, matchedColonEq) := __match st TOKEN_COLON_EQ
      if matchedColonEq then
        let (st, init) := reserve_node st
        match prev.parse_expr st with
        | .error e => .error e
        | .ok (st, expr) =>
          .ok (set_node st init NODE_VAR identifier (invalid, expr), init)
      else
        match prev.__expect st TOKEN_COLON_COLON (some "initialization forms") with
        | .error e => .error e
        | .ok (st, found) =>
          if ¬ found then .ok (st, invalid)
          else
            let (st, init) := reserve_node st
            match prev.parse_expr st with
            | .error e => .error e
            | .ok (st, expr) =>
              .ok (set_node st init NODE_CONST identifier (invalid, expr), init)

def parse_declF (prev : Fns) : Parser → Except Err (Parser × Nat) :=
  fun st =>
    match prev.skip_newlines st with
    | .error e => .error e
    | .ok st =>
      match current st with
      | TOKEN_IDENTIFIER =>
        -- note: the node is added before advance(), so its anchor token is
        -- index() - 1 with uint32 wrap-around
        let (st, identifier) :=
          add_node st NODE_IDENTIFIER (u32sub st.token_index 1) (0, 0)
        let st := advance st
        prev.parse_init st identifier
      | TOKEN_AT => .ok (st, invalid)
      | TOKEN_WHEN => .ok (st, invalid)
      | TOKEN_USING => .ok (st, invalid)
      | TOKEN_IMPORT => prev.parse_import st ImportKind.IMPORT_NORMAL
      | TOKEN_FOREIGN =>
        let foreign := st.token_index
        let st := advance st
        if current st = TOKEN_IMPORT then prev.parse_import st ImportKind.IMPORT_FOREIGN
        else
          match prev.__expect st TOKEN_LBRACE (some "foreign declaration forms") with
          | .error e => .error e
          | .ok (st, found) =>
            if ¬ found then .ok (st, invalid)
            else
              let (st, result) := reserve_node st
              let (st, matchedRBrace) := __match st TOKEN_RBRACE
              if matchedRBrace then
                .ok (set_node st result NODE_FOREIGN foreign (0, 0), result)
              else
                let start := st.nodes.kind.length
                match prev.parse_decls st with
                | .error e => .error e
                | .ok st =>
                  let stop := st.nodes.kind.length - 1
                  match prev.__expect st TOKEN_RBRACE
                      (some "closing brace at the end of a foreign block") with
                  | .error e => .error e
                  | .ok (st, _) =>
                    .ok (set_node st result NODE_FOREIGN foreign (start, stop), result)
      | TOKEN_BAD => .ok (advance st, invalid)
      | _ =>
        match prev.error_at_current st "invalid declaration" ""
            (some "declaration examples") with
        | .error e => .error e
        | .ok st => .ok (st, invalid)

def parse_decls_loopF (prev : Fns) : Parser → Except Err Parser :=
  fun st =>
    if current st = TOKEN_EOF then .ok st
    else
      match prev.parse_decl st with
      | .error e => .error e
      | .ok (st, decl) =>
        let retry : Except Err (Parser × Nat) :=
          if decl = invalid then
            match prev.next_decl st with
            | .error e => .error e
            | .ok st => prev.parse_decl st
          else .ok (st, decl)
        match retry with
        | .error e => .error e
        | .ok (st, decl) =>
          let st := { st with decls := st.decls ++ [decl] }
          match prev.skip_newlines st with
          | .error e => .error e
          | .ok st => prev.parse_decls_loop st

def parse_declsF (prev : Fns) : Parser → Except Err Parser :=
  fun st =>
    match prev.skip_newlines st with
    | .error e => .error e
    | .ok st => prev.parse_decls_loop st

/-- One step of fuel: each function body, with every call (loop
iterations included) going through the previous level `prev`. -/
def fnsStep (prev : Fns) : Fns where
  skip_digits := skip_digitsF prev
  lex_number := lex_numberF prev
  lex_char_skip := lex_char_skipF prev
  lex_char := lex_charF prev
  lex_string_single := lex_string_singleF prev
  lex_string_multi := lex_string_multiF prev
  lex_string := lex_stringF prev
  lex_identifier_loop := lex_identifier_loopF prev
  lex_identifier := lex_identifierF prev
  keyword_scan := keyword_scanF prev
  comment_line_loop := comment_line_loopF prev
  comment_block_loop := comment_block_loopF prev
  skip_spaces_loop := skip_spaces_loopF prev
  utf8_ident_loop := utf8_ident_loopF prev
  next_token := next_tokenF prev
  lex_loop := lex_loopF prev
  token_length := token_lengthF prev
  error_at := error_atF prev
  error_at_current := error_at_currentF prev
  span := spanF prev
  __expect := __expectF prev
  skip_newlines := skip_newlinesF prev
  parse_name_list_loop := parse_name_list_loopF prev
  parse_name_list := parse_name_listF prev
  parse_import := parse_importF prev
  next_decl := next_declF prev
  parse_type := parse_typeF prev
  parse_block_loop := parse_block_loopF prev
  parse_block := parse_blockF prev
  parse_struct_loop := parse_struct_loopF prev
  parse_struct := parse_structF prev
  variant_fields_loop := variant_fields_loopF prev
  parse_enum_variant := parse_enum_variantF prev
  parse_enum_loop := parse_enum_loopF prev
  parse_enum := parse_enumF prev
  params_loop := params_loopF prev
  parse_function_params := parse_function_paramsF prev
  parse_function := parse_functionF prev
  parse_primary := parse_primaryF prev
  parse_lhs := parse_lhsF prev
  parse_expr_prec_loop := parse_expr_prec_loopF prev
  parse_expr_prec := parse_expr_precF prev
  parse_expr := parse_exprF prev
  parse_init := parse_initF prev
  parse_decl := parse_declF prev
  parse_decls_loop := parse_decls_loopF prev
  parse_decls := parse_declsF prev

/-- The fuel-indexed family of all lexing/parsing functions. -/
def parseFns : Nat → Fns
  | 0 => fnsBot
  | fuel + 1 => fnsStep (parseFns fuel)

/-! ## The named functions (wrappers over `parseFns`) -/

/-- `skip_digits`: scan a digit run in the given base, emitting one
diagnostic per digit whose value is out of range for the base (except
that `e`/`E` terminates the run instead when out of range); returns the
count of consumed digit characters (underscores are skipped and not
counted). -/
def skip_digits (src : List Nat) (fuel base : Nat) (lx : Lexer) (count : Nat) :
    Except Err (Lexer × Nat) :=
  (parseFns fuel).skip_digits src base lx count

/-- `lex_number`: scan a whole numeric literal (integer or float),
setting the embedded token; returns the lexer with `pos` at the end of
the literal. -/
def lex_number (src : List Nat) (fuel : Nat) (lx : Lexer) : Except Err Lexer :=
  (parseFns fuel).lex_number src lx

/-- `lex_char`: scan a character literal; returns the lexer (token
fields set, `pos` untouched as in C where only the local `str` moves)
and the end position. -/
def lex_char (src : List Nat) (fuel : Nat) (lx : Lexer) : Except Err (Lexer × Nat) :=
  (parseFns fuel).lex_char src lx

/-- `lex_string`: scan a single-line or multiline string literal.  The
unterminated check inspects the byte *before* the final position
(`quotes = str - 1`). -/
def lex_string (src : List Nat) (fuel : Nat) (lx : Lexer) : Except Err (Lexer × Nat) :=
  (parseFns fuel).lex_string src lx

/-- `lex_identifier`: set the token fields and return the end
position. -/
def lex_identifier (src : List Nat) (fuel : Nat) (lx : Lexer) : Except Err (Lexer × Nat) :=
  (parseFns fuel).lex_identifier src lx

/-- `next_token`: scan one token; returns `true` iff the token is not
`TOKEN_EOF`.  Note this snapshot's `lexer.c` lexes `:` with the plain
`OP` macro, so `::` and `:=` are emitted as separate `TOKEN_COLON`s
(never `TOKEN_COLON_COLON`/`TOKEN_COLON_EQ`). -/
def next_token (src : List Nat) (fuel : Nat) (lx : Lexer) : Except Err (Lexer × Bool) :=
  (parseFns fuel).next_token src lx

/-- The token-collecting loop of `lex`. -/
def lex_loop (src : List Nat) (fuel : Nat) (lx : Lexer) (kinds : List TokenKind)
    (starts : List Nat) : Except Err (Lexer × List TokenKind × List Nat) :=
  (parseFns fuel).lex_loop src lx kinds starts

/-- `lex`: scan the whole source, appending the final `TOKEN_EOF` whose
start is the source length. -/
def lex (fuel : Nat) (file_id : Nat) (src : List Nat) : Except Err LexedSrc :=
  let lx : Lexer :=
    { file_id := file_id, tok_kind := TOKEN_EOF, tok_start := 0, pos := 0, diagnostics := [] }
  match lex_loop src fuel lx [] [] with
  | .error e => .error e
  | .ok (lx, kinds, starts) =>
    .ok { src := src
          num_tokens := kinds.length + 1
          kind := kinds ++ [TOKEN_EOF]
          start := starts ++ [src.length]
          diagnostics := lx.diagnostics }

/-- `token_length`: recompute a token's length by re-lexing it
(`INT`/`FLOAT`/`CHAR`/`STRING`/`MULTILINE_STRING`/`IDENTIFIER`), or by
taking `sizeof` of the `TOKENS` table string for every other kind (note:
`sizeof` of a string literal counts the NUL terminator, so this is the
printable name's length plus one). -/
def token_length (src : List Nat) (fuel : Nat) (kind : TokenKind) (start : Nat) :
    Except Err Nat :=
  (parseFns fuel).token_length src kind start

/-- `skip_newlines`. -/
def skip_newlines (fuel : Nat) (st : Parser) : Except Err Parser :=
  (parseFns fuel).skip_newlines st

/-- `parse_type`: `&T`, `&mut T`, `&own T`, `[N]T`, or an expression. -/
def parse_type (fuel : Nat) (st : Parser) : Except Err (Parser × Nat) :=
  (parseFns fuel).parse_type st

/-- `parse_block`: `{ stmts }` into a `NODE_BLOCK` with a child range
(`parse_stmt` is a stub that consumes nothing, so a block with any
statement token spins forever). -/
def parse_block (fuel : Nat) (st : Parser) : Except Err (Parser × Nat) :=
  (parseFns fuel).parse_block st

/-- `parse_struct`: `struct { fields }` into `NODE_STRUCT_TWO` (at most
two fields; `(0,0)` when empty) or `NODE_STRUCT`. -/
def parse_struct (fuel : Nat) (st : Parser) : Except Err (Parser × Nat) :=
  (parseFns fuel).parse_struct st

/-- `parse_enum_variant`: `name`, `name = E`, or `name(fields)`; the
latter builds `NODE_VARIANT_TWO` (at most two fields) or
`NODE_VARIANT`. -/
def parse_enum_variant (fuel : Nat) (st : Parser) : Except Err (Parser × Node) :=
  (parseFns fuel).parse_enum_variant st

/-- `parse_enum`: `enum [T] { variants }` into `NODE_ENUM_TWO` (at most
two variants; `(0,0)` when empty) or `NODE_ENUM`. -/
def parse_enum (fuel : Nat) (st : Parser) : Except Err (Parser × Nat) :=
  (parseFns fuel).parse_enum st

/-- `parse_function_params`: parse `(params)`; returns the count (or
`-1` on speculative failure, leaving the scratch entries in place as the
C code does) and the copied child range. -/
def parse_function_params (fuel : Nat) (st : Parser) : Except Err (Parser × Int × (Nat × Nat)) :=
  (parseFns fuel).parse_function_params st

/-- `parse_function`: speculative function literal; on `-1` from the
parameter list the two reserved nodes are popped (`pop_node` panics when
they are no longer the trailing nodes) and the cursor is reset. -/
def parse_function (fuel : Nat) (st : Parser) : Except Err (Parser × Nat) :=
  (parseFns fuel).parse_function st

/-- `parse_primary`: identifier, integer, parenthesized expression or
function, struct, enum; everything else is `todo()`. -/
def parse_primary (fuel : Nat) (st : Parser) : Except Err (Parser × Nat) :=
  (parseFns fuel).parse_primary st

/-- `parse_lhs`: prefix unary operators, then a primary. -/
def parse_lhs (fuel : Nat) (st : Parser) : Except Err (Parser × Nat) :=
  (parseFns fuel).parse_lhs st

/-- `parse_expr_prec`: parse a left-hand side, then climb while the
current operator's precedence is at least `prec`. -/
def parse_expr_prec (fuel prec : Nat) (st : Parser) : Except Err (Parser × Nat) :=
  (parseFns fuel).parse_expr_prec prec st

/-- `parse_expr`: expression entry point - note it climbs from
`PREC_OR`, not from the lowest level `PREC_PIPE`. -/
def parse_expr (fuel : Nat) (st : Parser) : Except Err (Parser × Nat) :=
  (parseFns fuel).parse_expr st

/-- `parse_name_list`: collect `a, b, c` identifiers, returning the node
index range (or `(0, 0)` when empty). -/
def parse_name_list (fuel : Nat) (st : Parser) : Except Err (Parser × (Nat × Nat)) :=
  (parseFns fuel).parse_name_list st

/-- `parse_import`: `import name [{ list | ... }] [as alias]`, normal or
foreign flavoured. -/
def parse_import (fuel : Nat) (st : Parser) (import_kind : ImportKind) :
    Except Err (Parser × Nat) :=
  (parseFns fuel).parse_import st import_kind

/-- `parse_init`: `name : T : E`, `name : T = E`, `name := E`,
`name :: E`. -/
def parse_init (fuel : Nat) (st : Parser) (identifier : Nat) : Except Err (Parser × Nat) :=
  (parseFns fuel).parse_init st identifier

/-- `next_decl`: panic-mode recovery - skip tokens until a plausible
declaration starter or EOF. -/
def next_decl (fuel : Nat) (st : Parser) : Except Err Parser :=
  (parseFns fuel).next_decl st

/-- `parse_decl`: one top-level declaration (or `invalid`). -/
def parse_decl (fuel : Nat) (st : Parser) : Except Err (Parser × Nat) :=
  (parseFns fuel).parse_decl st

/-- `parse_decls`: skip leading newlines, then the declaration loop. -/
def parse_decls (fuel : Nat) (st : Parser) : Except Err Parser :=
  (parseFns fuel).parse_decls st

/-- `parse`: lex the source, seed the parser with the token arrays and
the lexer's diagnostics, add the `NODE_ROOT` node (the *first* node,
index 0), parse the declarations and assemble the `Ast`. -/
def parse (fuel : Nat) (file_id : Nat) (src : List Nat) : Except Err Ast :=
  match lex fuel file_id src with
  | .error e => .error e
  | .ok lexed_src =>
    let st : Parser :=
      { nodes := { kind := [], data := [], token := [], extra := [] }
        decls := []
        token_kind := lexed_src.kind
        token_start := lexed_src.start
        num_tokens := lexed_src.num_tokens
        diagnostics := lexed_src.diagnostics
        str := src
        token_index := 0
        file_id := file_id
        scratch := []
        scratch_top := 0 }
    let (st, _) := add_node st NODE_ROOT 0 (0, 0)
    match parse_decls fuel st with
    | .error e => .error e
    | .ok st =>
      .ok { src := src
            token_kind := st.token_kind
            token_start := st.token_start
            nodes := st.nodes
            decls := st.decls
            diagnostics := st.diagnostics }

/-! ## Claim-side definitions

These follow the specification's words (round-trip law of §8), for
comparison against the code-side definitions above. -/

/-- Spec side: concatenate the substrings
`[token.start, token.start + token_length(token))` of the token stream,
in token order. -/
def concat_tokens (src : List Nat) (fuel : Nat) : List (TokenKind × Nat) → Except Err (List Nat)
  | [] => .ok []
  | (k, s) :: rest =>
    match token_length src fuel k s with
    | .error e => .error e
    | .ok len =>
      match concat_tokens src fuel rest with
      | .error e => .error e
      | .ok tail => .ok ((src.drop s).take len ++ tail)

/-- Spec side: the source minus the skipped spaces and tabs. -/
def strip_spaces_tabs (src : List Nat) : List Nat :=
  src.filter (fun c => ¬ is_space c)

/-- Spec side (claim C8): the digit run that `skip_digits` consumes -
continue on `_`, stop at a non-digit, stop at an out-of-base `e`/`E`. -/
def digit_run_cont (base c : Nat) : Bool :=
  if c = 95 then true
  else if digit_decoder c = 0 ∧ c ≠ 48 then false
  else if base ≤ digit_decoder c ∧ (c = 101 ∨ c = 69) then false
  else true

/-- Spec side (claim C8): a consumed character is an offending digit
when its value is out of range for the base. -/
def offending_digit (base c : Nat) : Bool :=
  base ≤ digit_decoder c

/-! ## Concrete sources used by the claims -/

/-- `"x:y:a|>b"` - a declaration whose initializer source is `a |> b`
(this snapshot's lexer emits single `TOKEN_COLON`s, so declarations use
single-colon forms). -/
def pipe_decl_src : List Nat := [120, 58, 121, 58, 97, 124, 62, 98]

/-- `"x:enum{y()}:1"` - a declaration containing an enum whose single
variant is the empty-parenthesis error form `y()`. -/
def empty_variant_src : List Nat := [120, 58, 101, 110, 117, 109, 123, 121, 40, 41, 125, 58, 49]

instance : Inhabited LexedSrc :=
  ⟨{ src := [], num_tokens := 0, kind := [], start := [], diagnostics := [] }⟩

instance : Inhabited Parser :=
  ⟨{ nodes := { kind := [], data := [], token := [], extra := [] }
     decls := [], token_kind := [], token_start := [], num_tokens := 0
     diagnostics := [], str := [], token_index := 0, file_id := 0
     scratch := [], scratch_top := 0 }⟩

instance : Inhabited Ast :=
  ⟨{ src := [], token_kind := [], token_start := []
     nodes := { kind := [], data := [], token := [], extra := [] }
     decls := [], diagnostics := [] }⟩

/-- The parser-state invariant maintained by every parsing function:
the node array is non-empty and starts with the `NODE_ROOT` node, every
accumulated diagnostic is an error, no pipe node exists (in the node
array or buffered on the scratch stack), and the scratch top mirrors
the scratch length. -/
def Inv (st : Parser) : Prop :=
  st.nodes.kind.head? = some NODE_ROOT ∧
  (∀ d ∈ st.diagnostics, d.is_error = true) ∧
  NODE_PIPE_EXPR ∉ st.nodes.kind ∧
  (∀ nd ∈ st.scratch, nd.kind ≠ NODE_PIPE_EXPR) ∧
  st.scratch_top = st.scratch.length ∧
  st.nodes.data.length = st.nodes.kind.length

/-- What an aggregate parse (`parse_struct`/`parse_enum`) guarantees
about its result node: either `invalid`, or the children were appended
as the final `c` consecutive nodes `s, s+1, ..., s+c-1` and the node's
kind/data follow the `_TWO` selection rule - for zero children the
`_TWO` variant stores `(0, 0)`. -/
def aggregate_fact (two many : NodeKind) (st' : Parser) (ret : Nat) : Prop :=
  ret = invalid ∨
  ∃ s c, st'.nodes.kind.length = s + c ∧
    ((c = 0 ∧ st'.nodes.kind.getD ret NODE_INVALID = two ∧
        st'.nodes.data.getD ret (0, 0) = (0, 0)) ∨
     (1 ≤ c ∧ c ≤ 2 ∧ st'.nodes.kind.getD ret NODE_INVALID = two ∧
        st'.nodes.data.getD ret (0, 0) = (s, s + c - 1)) ∨
     (3 ≤ c ∧ st'.nodes.kind.getD ret NODE_INVALID = many ∧
        st'.nodes.data.getD ret (0, 0) = (s, s + c - 1)))

/-- What `parse_enum_variant` guarantees about the variant node it
returns: a simple variant, or a `VARIANT_TWO`/`VARIANT` whose data is
`(s, s + c - 1)` for the `c` children appended as the final `c`
consecutive nodes - in particular a `VARIANT_TWO` with zero children
stores `(s, s - 1)`, not `(0, 0)`. -/
def variant_fact (st' : Parser) (nd : Node) : Prop :=
  nd.kind = NODE_VARIANT_SIMPLE ∨
  ∃ s c, st'.nodes.kind.length = s + c ∧ nd.data = (s, s + c - 1) ∧
    ((c ≤ 2 ∧ nd.kind = NODE_VARIANT_TWO) ∨ (3 ≤ c ∧ nd.kind = NODE_VARIANT))

/-- A ready-made parser state whose token stream is the lexing of
`"struct{a:b,c:d}"` (a struct with exactly two fields), used to witness
the aggregate invariant at a concrete input. -/
def struct_demo_state : Parser :=
  { nodes := { kind := [NODE_ROOT], data := [(0, 0)], token := [0], extra := [] }
    decls := []
    token_kind := [TOKEN_STRUCT, TOKEN_LBRACE, TOKEN_IDENTIFIER, TOKEN_COLON, TOKEN_IDENTIFIER,
                   TOKEN_COMMA, TOKEN_IDENTIFIER, TOKEN_COLON, TOKEN_IDENTIFIER, TOKEN_RBRACE,
                   TOKEN_EOF]
    token_start := [0, 6, 7, 8, 9, 10, 11, 12, 13, 14, 15]
    num_tokens := 11
    diagnostics := []
    str := [115, 116, 114, 117, 99, 116, 123, 97, 58, 98, 44, 99, 58, 100, 125]
    token_index := 0
    file_id := 0
    scratch := []
    scratch_top := 0 }

/-- The concrete result of running `parse_struct` on
`struct_demo_state`. -/
def struct_demo_out : Parser × Nat :=
  (parse_struct 40 struct_demo_state).toOption.getD default

/-- The concrete result of lexing `"x"`. -/
def lex_demo_out : LexedSrc := (lex 20 0 [120]).toOption.getD default

/-- The concrete result of lexing `"0o891"`. -/
def lex_0o891_out : LexedSrc := (lex 30 0 [48, 111, 56, 57, 49]).toOption.getD default

/-- The concrete result of parsing `"x:y:a|>b"`. -/
def parse_pipe_out : Ast := (parse 60 0 pipe_decl_src).toOption.getD default

/-- Every diagnostic in the list is an error. -/
def DiagsOK (l : List Diagnostic) : Prop := ∀ d ∈ l, d.is_error = true

/-- The uniform conclusion of the lexer functions: accumulated
diagnostics stay all-errors. -/
def LexOK (fns : Fns) : Prop :=
  (∀ src base lx count out, fns.skip_digits src base lx count = .ok out →
    DiagsOK lx.diagnostics → DiagsOK out.1.diagnostics) ∧
  (∀ src lx out, fns.lex_number src lx = .ok out →
    DiagsOK lx.diagnostics → DiagsOK out.diagnostics) ∧
  (∀ src lx out, fns.lex_char src lx = .ok out →
    DiagsOK lx.diagnostics → DiagsOK out.1.diagnostics) ∧
  (∀ src lx str out, fns.lex_string_single src lx str = .ok out →
    DiagsOK lx.diagnostics → DiagsOK out.1.diagnostics) ∧
  (∀ src lx str out, fns.lex_string_multi src lx str = .ok out →
    DiagsOK lx.diagnostics → DiagsOK out.1.diagnostics) ∧
  (∀ src lx out, fns.lex_string src lx = .ok out →
    DiagsOK lx.diagnostics → DiagsOK out.1.diagnostics) ∧
  (∀ src lx out, fns.lex_identifier src lx = .ok out →
    out.1.diagnostics = lx.diagnostics) ∧
  (∀ src lx out, fns.next_token src lx = .ok out →
    (DiagsOK lx.diagnostics → DiagsOK out.1.diagnostics) ∧
    (out.2 = true → out.1.tok_kind ≠ TOKEN_EOF)) ∧
  (∀ src lx kinds starts out, fns.lex_loop src lx kinds starts = .ok out →
    DiagsOK lx.diagnostics →
    DiagsOK out.1.diagnostics ∧
    ∃ ks ss, out.2.1 = kinds ++ ks ∧ out.2.2 = starts ++ ss ∧ ∀ k ∈ ks, k ≠ TOKEN_EOF)

/-- The `LexedSrc` produced for the empty source. -/
def empty_src_lexed : LexedSrc :=
  { src := [], num_tokens := 1, kind := [TOKEN_EOF], start := [0], diagnostics := [] }

/-- The digit run scanned by `skip_digits` starting at `pos`. -/
def skip_digits_run (src : List Nat) (base pos : Nat) : List Nat :=
  (src.drop pos).takeWhile (digit_run_cont base)

/-- `"0o891"` - an octal literal with two out-of-base digits. -/
def numeric_demo_src : List Nat := [48, 111, 56, 57, 49]

/-- The initial lexer state for file id 0. -/
def lexer_start : Lexer :=
  { file_id := 0, tok_kind := TOKEN_EOF, tok_start := 0, pos := 0, diagnostics := [] }

/-- The lexer state after scanning the numeric literal of `numeric_demo_src`. -/
def numeric_demo_lexed : Lexer :=
  (lex_number numeric_demo_src 30 lexer_start).toOption.getD lexer_start

/-- Conclusion for parser helpers that at most add error diagnostics and
move the token cursor: nodes and scratch are untouched. -/
def StExact (st out : Parser) : Prop :=
  Inv out ∧ out.nodes = st.nodes ∧ out.scratch = st.scratch

/-- Conclusion for general parsing functions: the invariant is kept, the
node array only grows, and the scratch stack is restored exactly. -/
def StFrame (st out : Parser) : Prop :=
  Inv out ∧ st.nodes.kind.length ≤ out.nodes.kind.length ∧ out.scratch = st.scratch

/-- Conclusion for the scratch-accumulating loops: like `StFrame` but the
scratch stack is extended by exactly one buffered node per counted child. -/
def StLoop (st out : Parser) (cin cout : Nat) : Prop :=
  Inv out ∧ st.nodes.kind.length ≤ out.nodes.kind.length ∧
  ∃ new, out.scratch = st.scratch ++ new ∧ cout = cin + new.length

structure ParserOK (fns : Fns) : Prop where
  error_at_ok : ∀ st idx m l hnt out, fns.error_at st idx m l hnt = .ok out → Inv st →
    StExact st out
  error_at_current_ok : ∀ st m l hnt out, fns.error_at_current st m l hnt = .ok out → Inv st →
    StExact st out
  expect_ok : ∀ st k hnt out, fns.__expect st k hnt = .ok out → Inv st → StExact st out.1
  skip_newlines_ok : ∀ st out, fns.skip_newlines st = .ok out → Inv st → StExact st out
  name_list_loop_ok : ∀ st out, fns.parse_name_list_loop st = .ok out → Inv st → StFrame st out
  name_list_ok : ∀ st out, fns.parse_name_list st = .ok out → Inv st → StFrame st out.1
  import_ok : ∀ st ik out, fns.parse_import st ik = .ok out → Inv st → StFrame st out.1
  next_decl_ok : ∀ st out, fns.next_decl st = .ok out → Inv st → StExact st out
  type_ok : ∀ st out, fns.parse_type st = .ok out → Inv st → StFrame st out.1
  block_loop_ok : ∀ st c out, fns.parse_block_loop st c = .ok out → Inv st →
    StLoop st out.1 c out.2
  block_ok : ∀ st out, fns.parse_block st = .ok out → Inv st → StFrame st out.1
  struct_loop_ok : ∀ st c out, fns.parse_struct_loop st c = .ok out → Inv st →
    StLoop st out.1 c out.2
  struct_ok : ∀ st out, fns.parse_struct st = .ok out → Inv st →
    StFrame st out.1 ∧ aggregate_fact NODE_STRUCT_TWO NODE_STRUCT out.1 out.2
  variant_fields_ok : ∀ st c out, fns.variant_fields_loop st c = .ok out → Inv st →
    StLoop st out.1 c out.2
  variant_ok : ∀ st out, fns.parse_enum_variant st = .ok out → Inv st →
    StFrame st out.1 ∧ variant_fact out.1 out.2 ∧ out.2.kind ≠ NODE_PIPE_EXPR
  enum_loop_ok : ∀ st c out, fns.parse_enum_loop st c = .ok out → Inv st →
    StLoop st out.1 c out.2
  enum_ok : ∀ st out, fns.parse_enum st = .ok out → Inv st →
    StFrame st out.1 ∧ aggregate_fact NODE_ENUM_TWO NODE_ENUM out.1 out.2
  params_loop_ok : ∀ st c out, fns.params_loop st c = .ok out → Inv st →
    (Inv out.1 ∧ st.nodes.kind.length ≤ out.1.nodes.kind.length ∧
      (∃ new, out.1.scratch = st.scratch ++ new)) ∧
    (out.2 = -1 → st.nodes.kind.length + 1 ≤ out.1.nodes.kind.length)
  function_params_ok : ∀ st out, fns.parse_function_params st = .ok out → Inv st →
    (Inv out.1 ∧ st.nodes.kind.length ≤ out.1.nodes.kind.length ∧
      (∃ new, out.1.scratch = st.scratch ++ new)) ∧
    (out.2.1 = -1 → st.nodes.kind.length + 1 ≤ out.1.nodes.kind.length) ∧
    (out.2.1 ≠ -1 → out.1.scratch = st.scratch)
  function_ok : ∀ st out, fns.parse_function st = .ok out → Inv st → StFrame st out.1
  primary_ok : ∀ st out, fns.parse_primary st = .ok out → Inv st → StFrame st out.1
  lhs_ok : ∀ st out, fns.parse_lhs st = .ok out → Inv st → StFrame st out.1
  expr_prec_loop_ok : ∀ prec st lhs out, fns.parse_expr_prec_loop prec st lhs = .ok out →
    Inv st → 2 ≤ prec → StFrame st out.1
  expr_prec_ok : ∀ prec st out, fns.parse_expr_prec prec st = .ok out → Inv st → 2 ≤ prec →
    StFrame st out.1
  expr_ok : ∀ st out, fns.parse_expr st = .ok out → Inv st → StFrame st out.1
  init_ok : ∀ st i out, fns.parse_init st i = .ok out → Inv st → StFrame st out.1
  decl_ok : ∀ st out, fns.parse_decl st = .ok out → Inv st → StFrame st out.1
  decls_loop_ok : ∀ st out, fns.parse_decls_loop st = .ok out → Inv st → StFrame st out
  decls_ok : ∀ st out, fns.parse_decls st = .ok out → Inv st → StFrame st out

/-- The concrete result of parsing the empty source. -/
def parse_empty_out : Ast := (parse 30 0 []).toOption.getD default

/-! ## Theorems -/

/-- C4: the claim says `lex` never panics or fails an assertion, and in
particular that char literals containing supported escapes (such as the
three-byte input quote-backslash-n) lex without aborting.  The code
violates this: `handle_escape` asserts `*lexer->str == '\\'` while its
callers leave `lexer->str` at the *opening quote* of the literal, so
lexing the escape aborts with an assertion failure. -/
theorem C4_escape_assert_failure : lex 30 0 [39, 92, 110] = .error .assertFailed := rfl

/-- C5: the claim says every unterminated single-line string emits
exactly one unterminated-string diagnostic, including the source that is
a single double-quote.  On the input `"` the code emits *no* diagnostic:
the terminator check inspects the byte before the final scan position
(`quotes = str - 1`), which for a lone quote is the opening quote
itself, so the string is (wrongly) considered terminated. -/
theorem C5_lone_quote_no_diagnostic :
    (lex 30 0 [34]).toOption.map (fun r => (r.kind, r.diagnostics)) =
      some ([TOKEN_STRING, TOKEN_EOF], []) := rfl

/-- C3: the claim says concatenating the substrings
`[start, start + token_length)` of the token stream reproduces the
source minus skipped spaces and tabs, `token_length` recomputing the
exact spelling length of every kind.  On the source `"+x"` this fails:
`token_length` of the fixed-spelling kinds is `sizeof` of the printable
name - one more than the spelling (`TOKEN_PLUS` gives 2, not 1) - so the
concatenation yields `"+xx"` instead of `"+x"`. -/
theorem C3_roundtrip_fails :
    token_length [43, 120] 30 TOKEN_PLUS 0 = .ok 2 ∧
    (lex 30 0 [43, 120]).toOption.map (fun r => r.kind.zip r.start) =
      some [(TOKEN_PLUS, 0), (TOKEN_IDENTIFIER, 1), (TOKEN_EOF, 2)] ∧
    concat_tokens [43, 120] 30 [(TOKEN_PLUS, 0), (TOKEN_IDENTIFIER, 1), (TOKEN_EOF, 2)] =
      .ok [43, 120, 120] ∧
    strip_spaces_tabs [43, 120] = [43, 120] ∧
    [43, 120, 120] ≠ [43, 120] :=
  ⟨rfl, rfl, rfl, rfl, by decide⟩

/-- C9: parsing the empty source yields exactly one node, of kind
`NODE_ROOT`, an empty `decls` array, and no diagnostics. -/
theorem C9_empty_source :
    (parse 30 0 []).toOption.map (fun a => (a.nodes.kind, a.decls, a.diagnostics)) =
      some ([NODE_ROOT], [], []) := rfl

/-- C1 counterexample: the claim places the `ROOT` node at node id 1
with id 0 a reserved sentinel; but for the empty source the returned
tree has *no* node at index 1 at all - its single node, at index 0, is
the `ROOT`. -/
theorem C1_counterexample :
    (parse 30 0 []).toOption.map (fun a => (a.nodes.kind.get? 1, a.nodes.kind.get? 0)) =
      some (none, some NODE_ROOT) := rfl

/-- C2 counterexample: for the declaration `x:y:a|>b` (initializer
source `a |> b`) the parser does *not* consume the `|>`: the resulting
tree has no pipe node - the `NODE_CONST`'s data `(3, 4)` records the
type `y` (node 3) and the initializer expression just `a` (node 4),
and the trailing `|> b` is reported as two invalid declarations. -/
theorem C2_counterexample :
    (parse 60 0 pipe_decl_src).toOption.map
        (fun a => (a.nodes.kind, a.nodes.data.get? 2, a.diagnostics.length)) =
      some ([NODE_ROOT, NODE_IDENTIFIER, NODE_CONST, NODE_IDENTIFIER, NODE_IDENTIFIER],
        some (3, 4), 2) ∧
    NODE_PIPE_EXPR ∉
      [NODE_ROOT, NODE_IDENTIFIER, NODE_CONST, NODE_IDENTIFIER, NODE_IDENTIFIER] :=
  ⟨rfl, by decide⟩

/-- C7 counterexample: the claim says a `_TWO` aggregate with no
children stores `(0, 0)`; but parsing `x:enum{y()}:1` produces at index
5 a `NODE_VARIANT_TWO` with zero children whose data is `(5, 4)` (the
next node index and that minus one), not `(0, 0)`. -/
theorem C7_counterexample :
    (parse 60 0 empty_variant_src).toOption.map
        (fun a => (a.nodes.kind.get? 5, a.nodes.data.get? 5)) =
      some (some NODE_VARIANT_TWO, some (5, 4)) ∧
    ((5 : Nat), (4 : Nat)) ≠ ((0 : Nat), (0 : Nat)) :=
  ⟨rfl, by decide⟩

/-! ## Lexer invariants -/

theorem diagsOK_push_error {lx : Lexer} (h : DiagsOK lx.diagnostics)
    (a b : Nat) (m l : String) (hi : Option String) :
    DiagsOK (push_error lx a b m l hi).diagnostics := by
  intro d hd
  simp only [push_error, List.mem_append, List.mem_singleton] at hd
  rcases hd with hd | rfl
  · exact h d hd
  · rfl

theorem handle_escape_diags {src : List Nat} {lx : Lexer} {out : Lexer × Nat}
    (h : handle_escape src lx = .ok out) (hd : DiagsOK lx.diagnostics) :
    DiagsOK out.1.diagnostics := by
  simp only [handle_escape] at h
  split at h
  · exact Except.noConfusion h
  · split at h
    · split at h
      · cases h
        exact diagsOK_push_error hd _ _ _ _ _
      · split at h <;> (cases h; exact hd)
    · split at h
      · cases h; exact hd
      · cases h
        exact diagsOK_push_error hd _ _ _ _ _

theorem lex_base_diags (src : List Nat) (lx : Lexer) :
    (lex_base src lx).1.diagnostics = lx.diagnostics := by
  simp only [lex_base]
  split
  · rfl
  · split
    · rfl
    · split
      · rfl
      · split <;> rfl

theorem OP_diags (lx : Lexer) (k : TokenKind) : (OP lx k).diagnostics = lx.diagnostics := rfl

theorem OP_EQ_diags (src : List Nat) (lx : Lexer) (k keq : TokenKind) :
    (OP_EQ src lx k keq).diagnostics = lx.diagnostics := by
  simp only [OP_EQ]; split <;> rfl

theorem OP2_diags (src : List Nat) (lx : Lexer) (k1 : TokenKind) (c2 : Nat) (k2 : TokenKind) :
    (OP2 src lx k1 c2 k2).diagnostics = lx.diagnostics := by
  simp only [OP2]; split <;> rfl

theorem OP2_EQ_diags (src : List Nat) (lx : Lexer) (k1 : TokenKind) (c2 : Nat) (k2 k1eq : TokenKind) :
    (OP2_EQ src lx k1 c2 k2 k1eq).diagnostics = lx.diagnostics := by
  simp only [OP2_EQ]; split
  · rfl
  · split <;> rfl

theorem OP3_diags (src : List Nat) (lx : Lexer) (k1 : TokenKind) (c2 : Nat) (k2 : TokenKind)
    (c3 : Nat) (k3 : TokenKind) :
    (OP3 src lx k1 c2 k2 c3 k3).diagnostics = lx.diagnostics := by
  simp only [OP3]; split
  · rfl
  · split <;> rfl

theorem OP3_EQ_diags (src : List Nat) (lx : Lexer) (k1 : TokenKind) (c2 : Nat) (k2 k2eq : TokenKind)
    (c3 : Nat) (k3 : TokenKind) :
    (OP3_EQ src lx k1 c2 k2 k2eq c3 k3).diagnostics = lx.diagnostics := by
  simp only [OP3_EQ]; split
  · split <;> rfl
  · split <;> rfl

theorem next_token_done_ok {lx : Lexer} {out : Lexer × Bool}
    (h : next_token_done lx = .ok out) :
    out.1 = lx ∧ (out.2 = true → out.1.tok_kind ≠ TOKEN_EOF) := by
  cases h
  refine ⟨rfl, ?_⟩
  intro hb
  simpa using hb

theorem t_pipe_ok {src : List Nat} {lx : Lexer} {out : Lexer × Bool}
    (h : next_token_pipe src lx = .ok out) :
    (DiagsOK lx.diagnostics → DiagsOK out.1.diagnostics) ∧
    (out.2 = true → out.1.tok_kind ≠ TOKEN_EOF) := by
  simp only [next_token_pipe] at h
  refine ⟨fun hd => ?_, (next_token_done_ok h).2⟩
  rw [(next_token_done_ok h).1]
  split
  · simpa using hd
  · split
    · simpa using hd
    · split <;> simpa using hd

theorem t_dot_ok {src : List Nat} {lx : Lexer} {out : Lexer × Bool}
    (h : next_token_dot src lx = .ok out) :
    (DiagsOK lx.diagnostics → DiagsOK out.1.diagnostics) ∧
    (out.2 = true → out.1.tok_kind ≠ TOKEN_EOF) := by
  simp only [next_token_dot] at h
  refine ⟨fun hd => ?_, (next_token_done_ok h).2⟩
  rw [(next_token_done_ok h).1]
  split
  · simpa using hd
  · split <;> simpa using hd

theorem t_slash_ok {prev : Fns} {src : List Nat} {lx : Lexer} {out : Lexer × Bool}
    (h : next_token_slash prev src lx = .ok out) :
    (DiagsOK lx.diagnostics → DiagsOK out.1.diagnostics) ∧
    (out.2 = true → out.1.tok_kind ≠ TOKEN_EOF) := by
  simp only [next_token_slash] at h
  split at h
  · split at h
    next e heq => exact Except.noConfusion h
    next str heq =>
      exact ⟨fun hd => by rw [(next_token_done_ok h).1]; simpa using hd,
        (next_token_done_ok h).2⟩
  split at h
  · split at h
    next e heq => exact Except.noConfusion h
    next str heq =>
      exact ⟨fun hd => by rw [(next_token_done_ok h).1]; simpa using hd,
        (next_token_done_ok h).2⟩
  split at h
  · exact ⟨fun hd => by rw [(next_token_done_ok h).1]; simpa using hd,
      (next_token_done_ok h).2⟩
  · exact ⟨fun hd => by rw [(next_token_done_ok h).1]; simpa using hd,
      (next_token_done_ok h).2⟩

theorem t_number_ok {prev : Fns} {src : List Nat} {lx : Lexer} {out : Lexer × Bool}
    (ih_num : ∀ src lx out, prev.lex_number src lx = .ok out →
      DiagsOK lx.diagnostics → DiagsOK out.diagnostics)
    (h : next_token_number prev src lx = .ok out) :
    (DiagsOK lx.diagnostics → DiagsOK out.1.diagnostics) ∧
    (out.2 = true → out.1.tok_kind ≠ TOKEN_EOF) := by
  simp only [next_token_number] at h
  split at h
  next e heq => exact Except.noConfusion h
  next lx1 heq =>
    exact ⟨fun hd => by rw [(next_token_done_ok h).1]; exact ih_num _ _ _ heq hd,
      (next_token_done_ok h).2⟩

theorem t_charlit_ok {prev : Fns} {src : List Nat} {lx : Lexer} {out : Lexer × Bool}
    (ih_char : ∀ src lx out, prev.lex_char src lx = .ok out →
      DiagsOK lx.diagnostics → DiagsOK out.1.diagnostics)
    (h : next_token_charlit prev src lx = .ok out) :
    (DiagsOK lx.diagnostics → DiagsOK out.1.diagnostics) ∧
    (out.2 = true → out.1.tok_kind ≠ TOKEN_EOF) := by
  simp only [next_token_charlit] at h
  split at h
  next e heq => exact Except.noConfusion h
  next lx1 str1 heq =>
    exact ⟨fun hd => by
      rw [(next_token_done_ok h).1]
      simpa using ih_char _ _ _ heq hd, (next_token_done_ok h).2⟩

theorem t_strlit_ok {prev : Fns} {src : List Nat} {lx : Lexer} {out : Lexer × Bool}
    (ih_str : ∀ src lx out, prev.lex_string src lx = .ok out →
      DiagsOK lx.diagnostics → DiagsOK out.1.diagnostics)
    (h : next_token_strlit prev src lx = .ok out) :
    (DiagsOK lx.diagnostics → DiagsOK out.1.diagnostics) ∧
    (out.2 = true → out.1.tok_kind ≠ TOKEN_EOF) := by
  simp only [next_token_strlit] at h
  split at h
  next e heq => exact Except.noConfusion h
  next lx1 str1 heq =>
    exact ⟨fun hd => by
      rw [(next_token_done_ok h).1]
      simpa using ih_str _ _ _ heq hd, (next_token_done_ok h).2⟩

theorem t_ident_ok {prev : Fns} {src : List Nat} {lx : Lexer} {out : Lexer × Bool}
    (ih_id : ∀ src lx out, prev.lex_identifier src lx = .ok out →
      out.1.diagnostics = lx.diagnostics)
    (h : next_token_ident prev src lx = .ok out) :
    (DiagsOK lx.diagnostics → DiagsOK out.1.diagnostics) ∧
    (out.2 = true → out.1.tok_kind ≠ TOKEN_EOF) := by
  simp only [next_token_ident] at h
  split at h
  next e heq => exact Except.noConfusion h
  next lx1 str1 heq =>
    have hid := ih_id _ _ _ heq
    exact ⟨fun hd => by
      rw [(next_token_done_ok h).1]
      simp only at hid ⊢
      simpa [hid] using hd, (next_token_done_ok h).2⟩

theorem t_spaces_ok {prev : Fns} {src : List Nat} {lx : Lexer} {out : Lexer × Bool}
    (ih_next : ∀ src lx out, prev.next_token src lx = .ok out →
      (DiagsOK lx.diagnostics → DiagsOK out.1.diagnostics) ∧
      (out.2 = true → out.1.tok_kind ≠ TOKEN_EOF))
    (h : next_token_spaces prev src lx = .ok out) :
    (DiagsOK lx.diagnostics → DiagsOK out.1.diagnostics) ∧
    (out.2 = true → out.1.tok_kind ≠ TOKEN_EOF) := by
  simp only [next_token_spaces] at h
  split at h
  next e heq => exact Except.noConfusion h
  next pos1 heq =>
    exact ⟨fun hd => (ih_next _ _ _ h).1 (by simpa using hd), (ih_next _ _ _ h).2⟩

theorem t_other_ok {prev : Fns} {src : List Nat} {lx : Lexer} {out : Lexer × Bool}
    (h : next_token_other prev src lx = .ok out) :
    (DiagsOK lx.diagnostics → DiagsOK out.1.diagnostics) ∧
    (out.2 = true → out.1.tok_kind ≠ TOKEN_EOF) := by
  simp only [next_token_other] at h
  split at h
  · split at h
    next e heq => exact Except.noConfusion h
    next str1 heq =>
      exact ⟨fun hd => by rw [(next_token_done_ok h).1]; simpa using hd,
        (next_token_done_ok h).2⟩
  · refine ⟨fun hd => ?_, (next_token_done_ok h).2⟩
    rw [(next_token_done_ok h).1]
    simpa using diagsOK_push_error hd lx.pos lx.pos "unknown character" "" none

theorem next_token_stepOK {prev : Fns}
    (ih_num : ∀ src lx out, prev.lex_number src lx = .ok out →
      DiagsOK lx.diagnostics → DiagsOK out.diagnostics)
    (ih_char : ∀ src lx out, prev.lex_char src lx = .ok out →
      DiagsOK lx.diagnostics → DiagsOK out.1.diagnostics)
    (ih_str : ∀ src lx out, prev.lex_string src lx = .ok out →
      DiagsOK lx.diagnostics → DiagsOK out.1.diagnostics)
    (ih_id : ∀ src lx out, prev.lex_identifier src lx = .ok out →
      out.1.diagnostics = lx.diagnostics)
    (ih_next : ∀ src lx out, prev.next_token src lx = .ok out →
      (DiagsOK lx.diagnostics → DiagsOK out.1.diagnostics) ∧
      (out.2 = true → out.1.tok_kind ≠ TOKEN_EOF)) :
    ∀ src lx out, next_tokenF prev src lx = .ok out →
    (DiagsOK lx.diagnostics → DiagsOK out.1.diagnostics) ∧
    (out.2 = true → out.1.tok_kind ≠ TOKEN_EOF) := by
  intro src lx out h
  rw [next_tokenF] at h
  by_cases hc0 : peekc src lx.pos = 43
  · rw [if_pos hc0] at h
    exact ⟨fun hd => by
      rw [(next_token_done_ok h).1]
      simpa [OP_diags, OP_EQ_diags, OP2_diags, OP2_EQ_diags, OP3_diags, OP3_EQ_diags] using hd,
      (next_token_done_ok h).2⟩
  rw [if_neg hc0] at h
  by_cases hc1 : peekc src lx.pos = 45
  · rw [if_pos hc1] at h
    exact ⟨fun hd => by
      rw [(next_token_done_ok h).1]
      simpa [OP_diags, OP_EQ_diags, OP2_diags, OP2_EQ_diags, OP3_diags, OP3_EQ_diags] using hd,
      (next_token_done_ok h).2⟩
  rw [if_neg hc1] at h
  by_cases hc2 : peekc src lx.pos = 42
  · rw [if_pos hc2] at h
    exact ⟨fun hd => by
      rw [(next_token_done_ok h).1]
      simpa [OP_diags, OP_EQ_diags, OP2_diags, OP2_EQ_diags, OP3_diags, OP3_EQ_diags] using hd,
      (next_token_done_ok h).2⟩
  rw [if_neg hc2] at h
  by_cases hc3 : peekc src lx.pos = 37
  · rw [if_pos hc3] at h
    exact ⟨fun hd => by
      rw [(next_token_done_ok h).1]
      simpa [OP_diags, OP_EQ_diags, OP2_diags, OP2_EQ_diags, OP3_diags, OP3_EQ_diags] using hd,
      (next_token_done_ok h).2⟩
  rw [if_neg hc3] at h
  by_cases hc4 : peekc src lx.pos = 38
  · rw [if_pos hc4] at h
    exact ⟨fun hd => by
      rw [(next_token_done_ok h).1]
      simpa [OP_diags, OP_EQ_diags, OP2_diags, OP2_EQ_diags, OP3_diags, OP3_EQ_diags] using hd,
      (next_token_done_ok h).2⟩
  rw [if_neg hc4] at h
  by_cases hc5 : peekc src lx.pos = 94
  · rw [if_pos hc5] at h
    exact ⟨fun hd => by
      rw [(next_token_done_ok h).1]
      simpa [OP_diags, OP_EQ_diags, OP2_diags, OP2_EQ_diags, OP3_diags, OP3_EQ_diags] using hd,
      (next_token_done_ok h).2⟩
  rw [if_neg hc5] at h
  by_cases hc6 : peekc src lx.pos = 60
  · rw [if_pos hc6] at h
    exact ⟨fun hd => by
      rw [(next_token_done_ok h).1]
      simpa [OP_diags, OP_EQ_diags, OP2_diags, OP2_EQ_diags, OP3_diags, OP3_EQ_diags] using hd,
      (next_token_done_ok h).2⟩
  rw [if_neg hc6] at h
  by_cases hc7 : peekc src lx.pos = 62
  · rw [if_pos hc7] at h
    exact ⟨fun hd => by
      rw [(next_token_done_ok h).1]
      simpa [OP_diags, OP_EQ_diags, OP2_diags, OP2_EQ_diags, OP3_diags, OP3_EQ_diags] using hd,
      (next_token_done_ok h).2⟩
  rw [if_neg hc7] at h
  by_cases hc8 : peekc src lx.pos = 61
  · rw [if_pos hc8] at h
    exact ⟨fun hd => by
      rw [(next_token_done_ok h).1]
      simpa [OP_diags, OP_EQ_diags, OP2_diags, OP2_EQ_diags, OP3_diags, OP3_EQ_diags] using hd,
      (next_token_done_ok h).2⟩
  rw [if_neg hc8] at h
  by_cases hc9 : peekc src lx.pos = 33
  · rw [if_pos hc9] at h
    exact ⟨fun hd => by
      rw [(next_token_done_ok h).1]
      simpa [OP_diags, OP_EQ_diags, OP2_diags, OP2_EQ_diags, OP3_diags, OP3_EQ_diags] using hd,
      (next_token_done_ok h).2⟩
  rw [if_neg hc9] at h
  by_cases hc10 : peekc src lx.pos = 63
  · rw [if_pos hc10] at h
    exact ⟨fun hd => by
      rw [(next_token_done_ok h).1]
      simpa [OP_diags, OP_EQ_diags, OP2_diags, OP2_EQ_diags, OP3_diags, OP3_EQ_diags] using hd,
      (next_token_done_ok h).2⟩
  rw [if_neg hc10] at h
  by_cases hc11 : peekc src lx.pos = 44
  · rw [if_pos hc11] at h
    exact ⟨fun hd => by
      rw [(next_token_done_ok h).1]
      simpa [OP_diags, OP_EQ_diags, OP2_diags, OP2_EQ_diags, OP3_diags, OP3_EQ_diags] using hd,
      (next_token_done_ok h).2⟩
  rw [if_neg hc11] at h
  by_cases hc12 : peekc src lx.pos = 59
  · rw [if_pos hc12] at h
    exact ⟨fun hd => by
      rw [(next_token_done_ok h).1]
      simpa [OP_diags, OP_EQ_diags, OP2_diags, OP2_EQ_diags, OP3_diags, OP3_EQ_diags] using hd,
      (next_token_done_ok h).2⟩
  rw [if_neg hc12] at h
  by_cases hc13 : peekc src lx.pos = 58
  · rw [if_pos hc13] at h
    exact ⟨fun hd => by
      rw [(next_token_done_ok h).1]
      simpa [OP_diags, OP_EQ_diags, OP2_diags, OP2_EQ_diags, OP3_diags, OP3_EQ_diags] using hd,
      (next_token_done_ok h).2⟩
  rw [if_neg hc13] at h
  by_cases hc14 : peekc src lx.pos = 64
  · rw [if_pos hc14] at h
    exact ⟨fun hd => by
      rw [(next_token_done_ok h).1]
      simpa [OP_diags, OP_EQ_diags, OP2_diags, OP2_EQ_diags, OP3_diags, OP3_EQ_diags] using hd,
      (next_token_done_ok h).2⟩
  rw [if_neg hc14] at h
  by_cases hc15 : peekc src lx.pos = 126
  · rw [if_pos hc15] at h
    exact ⟨fun hd => by
      rw [(next_token_done_ok h).1]
      simpa [OP_diags, OP_EQ_diags, OP2_diags, OP2_EQ_diags, OP3_diags, OP3_EQ_diags] using hd,
      (next_token_done_ok h).2⟩
  rw [if_neg hc15] at h
  by_cases hc16 : peekc src lx.pos = 40
  · rw [if_pos hc16] at h
    exact ⟨fun hd => by
      rw [(next_token_done_ok h).1]
      simpa [OP_diags, OP_EQ_diags, OP2_diags, OP2_EQ_diags, OP3_diags, OP3_EQ_diags] using hd,
      (next_token_done_ok h).2⟩
  rw [if_neg hc16] at h
  by_cases hc17 : peekc src lx.pos = 41
  · rw [if_pos hc17] at h
    exact ⟨fun hd => by
      rw [(next_token_done_ok h).1]
      simpa [OP_diags, OP_EQ_diags, OP2_diags, OP2_EQ_diags, OP3_diags, OP3_EQ_diags] using hd,
      (next_token_done_ok h).2⟩
  rw [if_neg hc17] at h
  by_cases hc18 : peekc src lx.pos = 91
  · rw [if_pos hc18] at h
    exact ⟨fun hd => by
      rw [(next_token_done_ok h).1]
      simpa [OP_diags, OP_EQ_diags, OP2_diags, OP2_EQ_diags, OP3_diags, OP3_EQ_diags] using hd,
      (next_token_done_ok h).2⟩
  rw [if_neg hc18] at h
  by_cases hc19 : peekc src lx.pos = 93
  · rw [if_pos hc19] at h
    exact ⟨fun hd => by
      rw [(next_token_done_ok h).1]
      simpa [OP_diags, OP_EQ_diags, OP2_diags, OP2_EQ_diags, OP3_diags, OP3_EQ_diags] using hd,
      (next_token_done_ok h).2⟩
  rw [if_neg hc19] at h
  by_cases hc20 : peekc src lx.pos = 123
  · rw [if_pos hc20] at h
    exact ⟨fun hd => by
      rw [(next_token_done_ok h).1]
      simpa [OP_diags, OP_EQ_diags, OP2_diags, OP2_EQ_diags, OP3_diags, OP3_EQ_diags] using hd,
      (next_token_done_ok h).2⟩
  rw [if_neg hc20] at h
  by_cases hc21 : peekc src lx.pos = 125
  · rw [if_pos hc21] at h
    exact ⟨fun hd => by
      rw [(next_token_done_ok h).1]
      simpa [OP_diags, OP_EQ_diags, OP2_diags, OP2_EQ_diags, OP3_diags, OP3_EQ_diags] using hd,
      (next_token_done_ok h).2⟩
  rw [if_neg hc21] at h
  by_cases hc22 : peekc src lx.pos = 124
  · rw [if_pos hc22] at h
    exact t_pipe_ok h
  rw [if_neg hc22] at h
  by_cases hc23 : peekc src lx.pos = 46
  · rw [if_pos hc23] at h
    exact t_dot_ok h
  rw [if_neg hc23] at h
  by_cases hc24 : peekc src lx.pos = 47
  · rw [if_pos hc24] at h
    exact t_slash_ok h
  rw [if_neg hc24] at h
  by_cases hc25 : isdigit (peekc src lx.pos) = true
  · rw [if_pos hc25] at h
    exact t_number_ok ih_num h
  rw [if_neg hc25] at h
  by_cases hc26 : peekc src lx.pos = 39
  · rw [if_pos hc26] at h
    exact t_charlit_ok ih_char h
  rw [if_neg hc26] at h
  by_cases hc27 : peekc src lx.pos = 34
  · rw [if_pos hc27] at h
    exact t_strlit_ok ih_str h
  rw [if_neg hc27] at h
  by_cases hc28 : isalpha (peekc src lx.pos) = true ∨ peekc src lx.pos = 95
  · rw [if_pos hc28] at h
    exact t_ident_ok ih_id h
  rw [if_neg hc28] at h
  by_cases hc29 : peekc src lx.pos = 13
  · rw [if_pos hc29] at h
    exact ⟨fun hd => by rw [(next_token_done_ok h).1]; simpa using hd, (next_token_done_ok h).2⟩
  rw [if_neg hc29] at h
  by_cases hc30 : peekc src lx.pos = 10
  · rw [if_pos hc30] at h
    exact ⟨fun hd => by rw [(next_token_done_ok h).1]; simpa using hd, (next_token_done_ok h).2⟩
  rw [if_neg hc30] at h
  by_cases hc31 : peekc src lx.pos = 32 ∨ peekc src lx.pos = 9
  · rw [if_pos hc31] at h
    exact t_spaces_ok ih_next h
  rw [if_neg hc31] at h
  by_cases hc32 : peekc src lx.pos = 0
  · rw [if_pos hc32] at h
    exact ⟨fun hd => by rw [(next_token_done_ok h).1]; simpa using hd, (next_token_done_ok h).2⟩
  rw [if_neg hc32] at h
  exact t_other_ok h


theorem lexOK_all : ∀ fuel, LexOK (parseFns fuel) := by
  intro fuel
  induction fuel with
  | zero =>
    refine ⟨?_, ?_, ?_, ?_, ?_, ?_, ?_, ?_, ?_⟩ <;>
      · intros
        simp_all [parseFns, fnsBot]
  | succ fuel ih =>
    obtain ⟨ih_sd, ih_num, ih_char, ih_ss, ih_sm, ih_str, ih_id, ih_next, ih_loop⟩ := ih
    refine ⟨?_, ?_, ?_, ?_, ?_, ?_, ?_, ?_, ?_⟩
    · -- skip_digits
      intro src base lx count out h hd
      simp only [parseFns, fnsStep, skip_digitsF] at h
      split at h
      · exact ih_sd _ _ _ _ _ h hd
      · split at h
        · cases h; exact hd
        · split at h
          · split at h
            · cases h; exact hd
            · exact ih_sd _ _ _ _ _ h (diagsOK_push_error hd _ _ _ _ _)
          · exact ih_sd _ _ _ _ _ h hd
    · -- lex_number
      intro src lx out h hd
      simp only [parseFns, fnsStep, lex_numberF] at h
      split at h
      · exact Except.noConfusion h
      · split at h
        next e heq => exact Except.noConfusion h
        next lx1 count heq =>
          have hd1 : DiagsOK lx1.diagnostics :=
            ih_sd _ _ _ _ _ heq (by simpa [lex_base_diags] using hd)
          split at h
          next e2 heq2 => exact Except.noConfusion h
          next lx2 kind heq2 =>
            have hd2 : DiagsOK lx2.diagnostics := by
              split at heq2
              · split at heq2
                next e3 heq3 => exact Except.noConfusion heq2
                next lx3 c3 heq3 =>
                  have hd3 : DiagsOK lx3.diagnostics :=
                    ih_sd _ _ _ _ _ heq3 (by simpa using hd1)
                  split at heq2
                  · split at heq2 <;> split at heq2 <;> split at heq2 <;>
                      (cases heq2 ; first
                        | exact diagsOK_push_error (diagsOK_push_error (diagsOK_push_error hd3 _ _ _ _ _) _ _ _ _ _) _ _ _ _ _
                        | exact diagsOK_push_error (diagsOK_push_error hd3 _ _ _ _ _) _ _ _ _ _
                        | exact diagsOK_push_error hd3 _ _ _ _ _
                        | exact hd3)
                  · split at heq2 <;> (cases heq2 ; first
                        | exact diagsOK_push_error hd3 _ _ _ _ _
                        | exact hd3)
              · cases heq2; exact hd1
            split at h
            · split at h
              next e4 heq4 => exact Except.noConfusion h
              next lx4 c4 heq4 =>
                cases h
                refine ih_sd _ _ _ _ _ heq4 (by simpa using hd2)
            · split at h
              · split at h
                next e4 heq4 => exact Except.noConfusion h
                next lx4 c4 heq4 =>
                  cases h
                  refine ih_sd _ _ _ _ _ heq4 ?_
                  split
                  · exact diagsOK_push_error hd2 _ _ _ _ _
                  · simpa using hd2
              · cases h; exact hd2
    · -- lex_char
      intro src lx out h hd
      simp only [parseFns, fnsStep, lex_charF] at h
      split at h
      · exact Except.noConfusion h
      · split at h
        next e heq => exact Except.noConfusion h
        next lx1 str1 heq =>
          have hd1 : DiagsOK lx1.diagnostics := by
            split at heq
            · exact handle_escape_diags heq (by simpa using hd)
            · cases heq; simpa using hd
          split at h
          · cases h; exact hd1
          · split at h
            next e2 heq2 => exact Except.noConfusion h
            next str2 heq2 =>
              cases h
              exact diagsOK_push_error hd1 _ _ _ _ _
    · -- lex_string_single
      intro src lx str out h hd
      simp only [parseFns, fnsStep, lex_string_singleF] at h
      split at h
      · cases h; exact hd
      · split at h
        · cases h; exact hd
        · split at h
          · split at h
            next e heq => exact Except.noConfusion h
            next lx1 str1 heq =>
              exact ih_ss _ _ _ _ h (handle_escape_diags heq hd)
          · exact ih_ss _ _ _ _ h hd
    · -- lex_string_multi
      intro src lx str out h hd
      simp only [parseFns, fnsStep, lex_string_multiF] at h
      split at h
      · cases h; exact hd
      · split at h
        · cases h; exact hd
        · split at h
          · split at h
            next e heq => exact Except.noConfusion h
            next lx1 str1 heq =>
              exact ih_sm _ _ _ _ h (handle_escape_diags heq hd)
          · exact ih_sm _ _ _ _ h hd
    · -- lex_string
      intro src lx out h hd
      simp only [parseFns, fnsStep, lex_stringF] at h
      split at h
      · exact Except.noConfusion h
      · split at h
        next e heq => exact Except.noConfusion h
        next lx1 str1 kind1 heq =>
          have hd1 : DiagsOK lx1.diagnostics := by
            split at heq
            · split at heq
              next e2 heq2 => exact Except.noConfusion heq
              next lx2 str2 heq2 =>
                cases heq
                exact ih_sm _ _ _ _ heq2 hd
            · split at heq
              next e2 heq2 => exact Except.noConfusion heq
              next lx2 str2 heq2 =>
                cases heq
                exact ih_ss _ _ _ _ heq2 hd
          cases h
          simp only
          split
          · split
            · exact diagsOK_push_error hd1 _ _ _ _ _
            · exact diagsOK_push_error hd1 _ _ _ _ _
          · exact hd1
    · -- lex_identifier
      intro src lx out h
      simp only [parseFns, fnsStep, lex_identifierF] at h
      split at h
      next e heq => exact Except.noConfusion h
      next str heq => cases h; rfl
    · -- next_token
      intro src lx out h
      simp only [parseFns, fnsStep] at h
      exact next_token_stepOK ih_num ih_char ih_str ih_id ih_next src lx out h
    · -- lex_loop
      intro src lx kinds starts out h hd
      simp only [parseFns, fnsStep, lex_loopF] at h
      split at h
      next e heq => exact Except.noConfusion h
      next lx1 more heq =>
        have h1 := ih_next _ _ _ heq
        split at h
        · have h2 := ih_loop _ _ _ _ _ h (h1.1 hd)
          obtain ⟨hdo, ks, ss, hk, hs, hne⟩ := h2
          refine ⟨hdo, lx1.tok_kind :: ks, lx1.tok_start :: ss, ?_, ?_, ?_⟩
          · simpa using hk
          · simpa using hs
          · intro k hkm
            rcases List.mem_cons.mp hkm with rfl | hkm
            · exact h1.2 (by assumption)
            · exact hne _ hkm
        · cases h
          exact ⟨h1.1 hd, [], [], by simp, by simp, by simp⟩

/-- C6: for every input source on which `lex` succeeds, the returned token
stream ends with `TOKEN_EOF`, contains exactly one `TOKEN_EOF`, and the
final start offset equals the length of the source. -/
theorem C6_eof_sentinel (fuel file_id : Nat) (src : List Nat) (r : LexedSrc)
    (h : lex fuel file_id src = .ok r) :
    r.kind.getLast? = some TOKEN_EOF ∧
    r.kind.count TOKEN_EOF = 1 ∧
    r.start.getLast? = some src.length := by
  simp only [lex] at h
  split at h
  next e heq => exact Except.noConfusion h
  next lx1 kinds starts heq =>
    cases h
    simp only [lex_loop] at heq
    obtain ⟨-, ks, ss, hk, hs, hne⟩ :=
      (lexOK_all fuel).2.2.2.2.2.2.2.2 _ _ _ _ _ heq (by intro d hd; cases hd)
    have hk2 : kinds = ks := by simpa using hk
    have hs2 : starts = ss := by simpa using hs
    have h0 : List.count TOKEN_EOF ks = 0 :=
      List.count_eq_zero.mpr (fun hmem => hne _ hmem rfl)
    refine ⟨?_, ?_, ?_⟩
    · simp [hk2, List.getLast?_concat]
    · simp [hk2, List.count_append, h0]
    · simp [hs2, List.getLast?_concat]

theorem C6_eof_sentinel_witness :
    empty_src_lexed.kind.getLast? = some TOKEN_EOF ∧
    empty_src_lexed.kind.count TOKEN_EOF = 1 ∧
    empty_src_lexed.start.getLast? = some ([] : List Nat).length :=
  C6_eof_sentinel 30 0 [] empty_src_lexed rfl


theorem peekc_pos_of_ne_zero {src : List Nat} {pos : Nat} (h : peekc src pos ≠ 0) :
    pos < src.length := by
  by_contra hge
  exact h (List.getD_eq_default _ _ (Nat.le_of_not_lt hge))

theorem peekc_eq_getElem {src : List Nat} {pos : Nat} (h : pos < src.length) :
    peekc src pos = src[pos] :=
  List.getD_eq_getElem _ _ h

theorem skip_digits_run_cons {src : List Nat} {base pos : Nat}
    (h0 : peekc src pos ≠ 0) (hc : digit_run_cont base (peekc src pos) = true) :
    skip_digits_run src base pos = peekc src pos :: skip_digits_run src base (pos + 1) := by
  have hlt := peekc_pos_of_ne_zero h0
  rw [peekc_eq_getElem hlt] at hc ⊢
  rw [skip_digits_run, List.drop_eq_getElem_cons hlt, List.takeWhile_cons, if_pos hc,
    skip_digits_run]

theorem skip_digits_run_nil {src : List Nat} {base pos : Nat}
    (hc : digit_run_cont base (peekc src pos) = false) :
    skip_digits_run src base pos = [] := by
  by_cases hlt : pos < src.length
  · rw [peekc_eq_getElem hlt] at hc
    rw [skip_digits_run, List.drop_eq_getElem_cons hlt, List.takeWhile_cons, if_neg (by simp [hc])]
  · rw [skip_digits_run, List.drop_eq_nil_of_le (Nat.le_of_not_lt hlt), List.takeWhile_nil]

theorem digit_run_cont_zero (base : Nat) : digit_run_cont base 0 = false := by
  simp [digit_run_cont, digit_decoder]

theorem digit_run_cont_95 (base : Nat) : digit_run_cont base 95 = true := by
  simp [digit_run_cont]

theorem offending_digit_95 {base : Nat} (hb : 1 ≤ base) :
    offending_digit base 95 = false := by
  simp only [offending_digit, digit_decoder]
  norm_num
  omega

theorem digit_c_ne_zero {c : Nat} (hn : ¬(digit_decoder c = 0 ∧ c ≠ 48)) : c ≠ 0 := by
  intro h0
  subst h0
  exact hn ⟨by decide, by decide⟩

theorem skip_digits_spec : ∀ fuel src base lx count out,
    1 ≤ base →
    (parseFns fuel).skip_digits src base lx count = .ok out →
    out.1.diagnostics.length
        = lx.diagnostics.length + (skip_digits_run src base lx.pos).countP (offending_digit base) ∧
    out.1.pos = lx.pos + (skip_digits_run src base lx.pos).length ∧
    out.2 = count + (skip_digits_run src base lx.pos).countP (fun c => decide (c ≠ 95)) := by
  intro fuel
  induction fuel with
  | zero => intro src base lx count out hb h; exact Except.noConfusion h
  | succ fuel ih =>
    intro src base lx count out hb h
    simp only [parseFns, fnsStep, skip_digitsF] at h
    split at h
    next hc95 =>
      obtain ⟨h1, h2, h3⟩ := ih _ _ _ _ _ hb h
      rw [skip_digits_run_cons (by rw [hc95]; decide) (by rw [hc95]; exact digit_run_cont_95 base)]
      rw [hc95]
      simp only at h1 h2 h3
      refine ⟨?_, ?_, ?_⟩
      · rw [h1, List.countP_cons, offending_digit_95 hb]
        simp
      · rw [h2]
        simp [List.length_cons]
        omega
      · rw [h3, List.countP_cons]
        simp
    next hc95 =>
      split at h
      next hstop =>
        cases h
        have hrun : skip_digits_run src base lx.pos = [] := by
          refine skip_digits_run_nil ?_
          rw [digit_run_cont, if_neg hc95, if_pos hstop]
        simp [hrun]
      next hnstop =>
        have hne0 : peekc src lx.pos ≠ 0 := digit_c_ne_zero hnstop
        split at h
        next hge =>
          split at h
          next heE =>
            cases h
            have hrun : skip_digits_run src base lx.pos = [] := by
              refine skip_digits_run_nil ?_
              rw [digit_run_cont, if_neg hc95, if_neg hnstop, if_pos ⟨hge, heE⟩]
            simp [hrun]
          next hneE =>
            obtain ⟨h1, h2, h3⟩ := ih _ _ _ _ _ hb h
            have hcont : digit_run_cont base (peekc src lx.pos) = true := by
              rw [digit_run_cont, if_neg hc95, if_neg hnstop,
                if_neg (fun hh => hneE hh.2)]
            rw [skip_digits_run_cons hne0 hcont]
            simp only [push_error] at h1 h2 h3
            refine ⟨?_, ?_, ?_⟩
            · rw [h1, List.countP_cons]
              have hoff : offending_digit base (peekc src lx.pos) = true := by
                simp [offending_digit, hge]
              simp [hoff]
              omega
            · rw [h2]
              simp [List.length_cons]
              omega
            · rw [h3, List.countP_cons]
              simp [hc95]
              omega
        next hlt =>
          obtain ⟨h1, h2, h3⟩ := ih _ _ _ _ _ hb h
          have hcont : digit_run_cont base (peekc src lx.pos) = true := by
            rw [digit_run_cont, if_neg hc95, if_neg hnstop, if_neg (fun hh => hlt hh.1)]
          rw [skip_digits_run_cons hne0 hcont]
          simp only at h1 h2 h3
          refine ⟨?_, ?_, ?_⟩
          · rw [h1, List.countP_cons]
            have hoff : offending_digit base (peekc src lx.pos) = false := by
              simp [offending_digit]
              omega
            simp [hoff]
          · rw [h2]
            simp [List.length_cons]
            omega
          · rw [h3, List.countP_cons]
            simp [hc95]
            omega

theorem lex_base_base_pos (src : List Nat) (lx : Lexer) : 1 ≤ (lex_base src lx).2 := by
  simp only [lex_base]
  split
  · simp
  split
  · simp
  split
  · simp
  split
  · simp
  · simp

/-- C8: if `lex_number` succeeds on a numeric literal whose digit run is
not followed by a fractional point or an exponent suffix, it produces a
single numeric token (`TOKEN_INT`) starting at the first byte of the
literal and ending at the end of the digit run, and it appends exactly
one invalid-digit diagnostic per digit of the run that is out of range
for the base (witnessed below on `0o891`). -/
theorem C8_invalid_digit_diagnostics (fuel : Nat) (src : List Nat)
    (lx out : Lexer) (b p : Nat)
    (hbase : lex_base src lx = ({ lx with pos := p }, b))
    (hdot : peekc src (p + (skip_digits_run src b p).length) ≠ 46)
    (heE : ¬(peekc src (p + (skip_digits_run src b p).length) = 101 ∨
             peekc src (p + (skip_digits_run src b p).length) = 69))
    (hpP : ¬(peekc src (p + (skip_digits_run src b p).length) = 112 ∨
             peekc src (p + (skip_digits_run src b p).length) = 80))
    (h : lex_number src fuel lx = .ok out) :
    out.tok_start = lx.pos ∧
    out.tok_kind = TOKEN_INT ∧
    out.pos = p + (skip_digits_run src b p).length ∧
    out.diagnostics.length
      = lx.diagnostics.length + (skip_digits_run src b p).countP (offending_digit b) := by
  have hb : 1 ≤ b := by
    have := lex_base_base_pos src lx
    rw [hbase] at this
    exact this
  cases fuel with
  | zero => exact Except.noConfusion h
  | succ n =>
    simp only [lex_number, parseFns, fnsStep, lex_numberF] at h
    split at h
    · exact Except.noConfusion h
    · rw [hbase] at h
      split at h
      next e heq => exact Except.noConfusion h
      next lx1 count heq =>
        obtain ⟨h1, h2, h3⟩ := skip_digits_spec n src b _ 0 _ hb heq
        simp only at h1 h2 h3
        have hd1 : ¬(peekc src lx1.pos = 46) := by rw [h2]; exact hdot
        rw [if_neg hd1] at h
        simp only [] at h
        have he1 : ¬(peekc src lx1.pos = 101 ∨ peekc src lx1.pos = 69) := by
          rw [h2]; exact heE
        rw [if_neg he1] at h
        have hp1 : ¬(peekc src lx1.pos = 112 ∨ peekc src lx1.pos = 80) := by
          rw [h2]; exact hpP
        rw [if_neg hp1] at h
        cases h
        exact ⟨rfl, rfl, h2, h1⟩

theorem C8_invalid_digit_diagnostics_witness :
    numeric_demo_lexed.tok_start = lexer_start.pos ∧
    numeric_demo_lexed.tok_kind = TOKEN_INT ∧
    numeric_demo_lexed.pos = 2 + (skip_digits_run numeric_demo_src 8 2).length ∧
    numeric_demo_lexed.diagnostics.length
      = lexer_start.diagnostics.length
        + (skip_digits_run numeric_demo_src 8 2).countP (offending_digit 8) :=
  C8_invalid_digit_diagnostics 30 numeric_demo_src lexer_start numeric_demo_lexed 8 2
    rfl (by decide) (by decide) (by decide) rfl



/-! ## Parser invariants -/

theorem Inv_advance {st : Parser} (h : Inv st) : Inv (advance st) := h

theorem Inv_error_span {st : Parser} (h : Inv st) (sp : Span) (m l : String)
    (hnt : Option String) : Inv (error_span st sp m l hnt) := by
  obtain ⟨h1, h2, h3, h4, h5, h6⟩ := h
  refine ⟨h1, ?_, h3, h4, h5, h6⟩
  intro d hd
  rcases List.mem_append.mp hd with hd | hd
  · exact h2 d hd
  · rcases List.mem_singleton.mp hd with rfl
    rfl

theorem add_node_fst_kind (st : Parser) (kind : NodeKind) (token : Nat) (data : Data) :
    (add_node st kind token data).1.nodes.kind = st.nodes.kind ++ [kind] := rfl

theorem Inv_add_node {st : Parser} (h : Inv st) {kind : NodeKind}
    (hk : kind ≠ NODE_PIPE_EXPR) (token : Nat) (data : Data) :
    Inv (add_node st kind token data).1 := by
  obtain ⟨h1, h2, h3, h4, h5, h6⟩ := h
  refine ⟨?_, h2, ?_, h4, h5, ?_⟩
  · simp only [add_node]
    cases hk2 : st.nodes.kind with
    | nil => simp [hk2] at h1
    | cons a l => simp [hk2] at h1 ⊢; exact h1
  · simp only [add_node]
    intro hmem
    rcases List.mem_append.mp hmem with hm | hm
    · exact h3 hm
    · exact hk (List.mem_singleton.mp hm).symm
  · simp only [add_node]
    simp [h6]

theorem Inv_reserve_node {st : Parser} (h : Inv st) : Inv (reserve_node st).1 :=
  Inv_add_node h (by decide) 0 (0, 0)

theorem head_set_of_pos {α : Type} (l : List α) (i : Nat) (hi : 1 ≤ i) (a : α) :
    (l.set i a).head? = l.head? := by
  cases l with
  | nil => simp
  | cons b t =>
    cases i with
    | zero => omega
    | succ n => simp

theorem Inv_set_node {st : Parser} (h : Inv st) {kind : NodeKind}
    (hk : kind ≠ NODE_PIPE_EXPR) {index : Nat} (hi : 1 ≤ index) (token : Nat) (data : Data) :
    Inv (set_node st index kind token data) := by
  obtain ⟨h1, h2, h3, h4, h5, h6⟩ := h
  refine ⟨?_, h2, ?_, h4, h5, ?_⟩
  · simp only [set_node]
    rw [head_set_of_pos _ _ hi]
    exact h1
  · simp only [set_node]
    intro hmem
    rcases List.mem_or_eq_of_mem_set hmem with hm | hm
    · exact h3 hm
    · exact hk hm.symm
  · simp only [set_node]
    simp [h6]

theorem Inv_add_scratch {st : Parser} (h : Inv st) {nd : Node}
    (hk : nd.kind ≠ NODE_PIPE_EXPR) : Inv (add_scratch st nd) := by
  obtain ⟨h1, h2, h3, h4, h5, h6⟩ := h
  refine ⟨h1, h2, h3, ?_, ?_, h6⟩
  · intro x hx
    rcases List.mem_append.mp hx with hm | hm
    · exact h4 x hm
    · rcases List.mem_singleton.mp hm with rfl
      exact hk
  · simp [add_scratch, h5]

theorem set_node_kind_length (st : Parser) (index : Nat) (kind : NodeKind)
    (token : Nat) (data : Data) :
    (set_node st index kind token data).nodes.kind.length = st.nodes.kind.length := by
  simp [set_node]

theorem Inv_congr {st st' : Parser} (hn : st'.nodes = st.nodes)
    (hd : st'.diagnostics = st.diagnostics) (hs : st'.scratch = st.scratch)
    (ht : st'.scratch_top = st.scratch_top) (h : Inv st) : Inv st' := by
  rw [Inv, hn, hd, hs, ht]
  exact h

theorem __match_fst (st : Parser) (k : TokenKind) :
    (__match st k).1.nodes = st.nodes ∧ (__match st k).1.scratch = st.scratch ∧
    (__match st k).1.scratch_top = st.scratch_top ∧
    (__match st k).1.diagnostics = st.diagnostics := by
  simp only [__match]
  split <;> exact ⟨rfl, rfl, rfl, rfl⟩

theorem Inv___match {st : Parser} (k : TokenKind) (h : Inv st) : Inv (__match st k).1 :=
  Inv_congr (__match_fst st k).1 (__match_fst st k).2.2.2 (__match_fst st k).2.1
    (__match_fst st k).2.2.1 h

theorem foldl_add_node_spec (ms : List Node) (st : Parser) :
    (ms.foldl (fun st nd => (add_node st nd.kind nd.token nd.data).1) st).nodes.kind
        = st.nodes.kind ++ ms.map Node.kind ∧
    (ms.foldl (fun st nd => (add_node st nd.kind nd.token nd.data).1) st).nodes.data.length
        = st.nodes.data.length + ms.length ∧
    (ms.foldl (fun st nd => (add_node st nd.kind nd.token nd.data).1) st).diagnostics
        = st.diagnostics ∧
    (ms.foldl (fun st nd => (add_node st nd.kind nd.token nd.data).1) st).scratch
        = st.scratch ∧
    (ms.foldl (fun st nd => (add_node st nd.kind nd.token nd.data).1) st).scratch_top
        = st.scratch_top := by
  induction ms generalizing st with
  | nil => simp
  | cons nd rest ih =>
    obtain ⟨i1, i2, i3, i4, i5⟩ := ih (add_node st nd.kind nd.token nd.data).1
    refine ⟨?_, ?_, ?_, ?_, ?_⟩
    · rw [List.foldl_cons, i1]
      simp [add_node]
    · rw [List.foldl_cons, i2]
      simp only [add_node]
      simp
      omega
    · rw [List.foldl_cons, i3]
      rfl
    · rw [List.foldl_cons, i4]
      rfl
    · rw [List.foldl_cons, i5]
      rfl

theorem push_scratch_spec {st : Parser} {saved : Nat}
    (h5 : st.scratch_top = st.scratch.length) (hsv : saved ≤ st.scratch.length) :
    (push_scratch st saved).nodes.kind
        = st.nodes.kind ++ (st.scratch.drop saved).map Node.kind ∧
    (push_scratch st saved).nodes.data.length
        = st.nodes.data.length + (st.scratch.length - saved) ∧
    (push_scratch st saved).diagnostics = st.diagnostics ∧
    (push_scratch st saved).scratch = st.scratch.take saved ∧
    (push_scratch st saved).scratch_top = saved := by
  have hmoved : (st.scratch.drop saved).take (st.scratch_top - saved) = st.scratch.drop saved := by
    rw [h5]
    exact List.take_of_length_le (by simp)
  simp only [push_scratch, hmoved]
  obtain ⟨i1, i2, i3, i4, i5⟩ := foldl_add_node_spec (st.scratch.drop saved) st
  exact ⟨i1, by simp [i2], i3, by rw [i4], by trivial⟩

theorem Inv_push_scratch {st : Parser} {saved : Nat} (h : Inv st)
    (hsv : saved ≤ st.scratch.length) : Inv (push_scratch st saved) := by
  obtain ⟨h1, h2, h3, h4, h5, h6⟩ := h
  obtain ⟨p1, p2, p3, p4, p5⟩ := push_scratch_spec h5 hsv
  refine ⟨?_, ?_, ?_, ?_, ?_, ?_⟩
  · rw [p1]
    cases hk2 : st.nodes.kind with
    | nil => simp [hk2] at h1
    | cons a l => simp [hk2] at h1 ⊢; exact h1
  · rw [p3]; exact h2
  · rw [p1]
    intro hmem
    rcases List.mem_append.mp hmem with hm | hm
    · exact h3 hm
    · obtain ⟨nd, hnd, hk⟩ := List.mem_map.mp hm
      exact h4 nd (List.mem_of_mem_drop hnd) hk
  · rw [p4]
    intro nd hnd
    exact h4 nd (List.mem_of_mem_take hnd)
  · rw [p4, p5, List.length_take]
    omega
  · rw [p2, p1, h6]
    simp

theorem push_scratch_length {st : Parser} {saved : Nat}
    (h5 : st.scratch_top = st.scratch.length) (hsv : saved ≤ st.scratch.length) :
    (push_scratch st saved).nodes.kind.length
      = st.nodes.kind.length + (st.scratch.length - saved) := by
  rw [(push_scratch_spec h5 hsv).1]
  simp

theorem current_op_pipe_prec (st : Parser) :
    (current_op st).kind ≠ NODE_PIPE_EXPR ∨ (current_op st).prec = PREC_PIPE := by
  simp only [current_op]
  cases current st <;> simp

theorem current_unary_no_pipe (st : Parser) : (current_unary st).2.kind ≠ NODE_PIPE_EXPR := by
  simp only [current_unary]
  cases current st <;> (first | (split <;> simp) | simp | (split <;> simp <;> rfl))

theorem current_unary_fst (st : Parser) :
    (current_unary st).1.nodes = st.nodes ∧ (current_unary st).1.scratch = st.scratch ∧
    (current_unary st).1.scratch_top = st.scratch_top ∧
    (current_unary st).1.diagnostics = st.diagnostics := by
  simp only [current_unary]
  split <;> exact ⟨rfl, rfl, rfl, rfl⟩

theorem pair_fst {α β : Type} {p : α × β} {a : α} {b : β} (h : p = (a, b)) : p.1 = a := by
  rw [h]

theorem pair_snd {α β : Type} {p : α × β} {a : α} {b : β} (h : p = (a, b)) : p.2 = b := by
  rw [h]

theorem StExact_frame {a b : Parser} (h : StExact a b) : StFrame a b :=
  ⟨h.1, le_of_eq (by rw [h.2.1]), h.2.2⟩

theorem StExact_trans {a b c : Parser} (h1 : StExact a b) (h2 : StExact b c) : StExact a c :=
  ⟨h2.1, by rw [h2.2.1, h1.2.1], by rw [h2.2.2, h1.2.2]⟩

theorem StFrame_trans {a b c : Parser} (h1 : StFrame a b) (h2 : StFrame b c) : StFrame a c :=
  ⟨h2.1, le_trans h1.2.1 h2.2.1, by rw [h2.2.2, h1.2.2]⟩

theorem StFrame_exact_trans {a b c : Parser} (h1 : StFrame a b) (h2 : StExact b c) :
    StFrame a c :=
  StFrame_trans h1 (StExact_frame h2)

theorem StExact_frame_trans {a b c : Parser} (h1 : StExact a b) (h2 : StFrame b c) :
    StFrame a c :=
  StFrame_trans (StExact_frame h1) h2

theorem StExact_pre {a b c : Parser} (hn : b.nodes = a.nodes) (hs : b.scratch = a.scratch)
    (h : StExact b c) : StExact a c :=
  ⟨h.1, by rw [h.2.1, hn], by rw [h.2.2, hs]⟩

theorem StFrame_pre {a b c : Parser} (hn : b.nodes = a.nodes) (hs : b.scratch = a.scratch)
    (h : StFrame b c) : StFrame a c := by
  obtain ⟨j1, j2, j3⟩ := h
  refine ⟨j1, ?_, ?_⟩
  · rw [← hn]
    exact j2
  · rw [j3, hs]

theorem StExact_refl (a : Parser) (h : Inv a) : StExact a a := ⟨h, rfl, rfl⟩

theorem StFrame_refl (a : Parser) (h : Inv a) : StFrame a a := ⟨h, Nat.le_refl _, rfl⟩

theorem error_at_step {prev : Fns} (ihp : ParserOK prev) :
    ∀ st idx m l hnt out, error_atF prev st idx m l hnt = .ok out → Inv st → StExact st out := by
  intro st idx m l hnt out h hInv
  simp only [error_atF] at h
  split at h
  next e heq => exact Except.noConfusion h
  next len heq =>
    cases h
    exact ⟨Inv_error_span hInv _ _ _ _, rfl, rfl⟩

theorem error_at_current_step {prev : Fns} (ihp : ParserOK prev) :
    ∀ st m l hnt out, error_at_currentF prev st m l hnt = .ok out → Inv st → StExact st out := by
  intro st m l hnt out h hInv
  simp only [error_at_currentF] at h
  exact ihp.error_at_ok _ _ _ _ _ _ h hInv

theorem expect_step {prev : Fns} (ihp : ParserOK prev) :
    ∀ st k hnt out, __expectF prev st k hnt = .ok out → Inv st → StExact st out.1 := by
  intro st k hnt out h hInv
  simp only [__expectF] at h
  split at h
  · cases h
    exact ⟨Inv_advance hInv, rfl, rfl⟩
  · split at h
    next e heq => exact Except.noConfusion h
    next st2 heq =>
      cases h
      exact ihp.error_at_current_ok _ _ _ _ _ heq hInv

theorem skip_newlines_step {prev : Fns} (ihp : ParserOK prev) :
    ∀ st out, skip_newlinesF prev st = .ok out → Inv st → StExact st out := by
  intro st out h hInv
  simp only [skip_newlinesF] at h
  split at h
  · exact StExact_pre rfl rfl (ihp.skip_newlines_ok (advance st) _ h (Inv_advance hInv))
  · cases h
    exact StExact_refl _ hInv

theorem next_decl_step {prev : Fns} (ihp : ParserOK prev) :
    ∀ st out, next_declF prev st = .ok out → Inv st → StExact st out := by
  intro st out h hInv
  simp only [next_declF] at h
  split at h
  · cases h; exact StExact_refl _ hInv
  · cases h; exact StExact_refl _ hInv
  · cases h; exact StExact_refl _ hInv
  · cases h; exact StExact_refl _ hInv
  · cases h; exact StExact_refl _ hInv
  · cases h; exact StExact_refl _ hInv
  · split at h
    · cases h; exact StExact_refl _ hInv
    · exact StExact_pre rfl rfl (ihp.next_decl_ok (advance st) _ h (Inv_advance hInv))
  · exact StExact_pre rfl rfl (ihp.next_decl_ok (advance st) _ h (Inv_advance hInv))

theorem StFrame_add_node {a b : Parser} (h : StFrame a b) {k : NodeKind}
    (hk : k ≠ NODE_PIPE_EXPR) (tok : Nat) (d : Data) : StFrame a (add_node b k tok d).1 := by
  refine ⟨Inv_add_node h.1 hk _ _, ?_, ?_⟩
  · rw [add_node_fst_kind]
    simp
    exact le_trans h.2.1 (Nat.le_succ _)
  · exact h.2.2

theorem matched_fst_hyps {st st1 : Parser} {k : TokenKind} {b : Bool}
    (heq : __match st k = (st1, b)) :
    st1.nodes = st.nodes ∧ st1.scratch = st.scratch ∧ st1.scratch_top = st.scratch_top ∧
    st1.diagnostics = st.diagnostics := by
  rw [← pair_fst heq]
  exact __match_fst st k

theorem Inv_matched {st st1 : Parser} {k : TokenKind} {b : Bool}
    (heq : __match st k = (st1, b)) (hInv : Inv st) : Inv st1 :=
  Inv_congr (matched_fst_hyps heq).1 (matched_fst_hyps heq).2.2.2 (matched_fst_hyps heq).2.1
    (matched_fst_hyps heq).2.2.1 hInv

theorem name_list_loop_step {prev : Fns} (ihp : ParserOK prev) :
    ∀ st out, parse_name_list_loopF prev st = .ok out → Inv st → StFrame st out := by
  intro st out h hInv
  simp only [parse_name_list_loopF] at h
  split at h
  · cases h
    exact StFrame_refl _ hInv
  obtain ⟨h1n, h1s, h1t, h1d⟩ := __match_fst st TOKEN_IDENTIFIER
  have hInv1 : Inv (__match st TOKEN_IDENTIFIER).1 := Inv_congr h1n h1d h1s h1t hInv
  have f1 : StFrame st (__match st TOKEN_IDENTIFIER).1 :=
    ⟨hInv1, le_of_eq (by rw [h1n]), h1s⟩
  have f2 := StFrame_add_node (k := NODE_IDENTIFIER) f1 (by decide)
    ((__match st TOKEN_IDENTIFIER).1.token_index - 1) (0, 0)
  split at h
  · split at h
    · exact StFrame_trans f2
        (StFrame_pre rfl rfl (ihp.name_list_loop_ok (advance _) _ h (Inv_advance f2.1)))
    · cases h
      exact f2
  · cases h
    exact f1

theorem name_list_step {prev : Fns} (ihp : ParserOK prev) :
    ∀ st out, parse_name_listF prev st = .ok out → Inv st → StFrame st out.1 := by
  intro st out h hInv
  simp only [parse_name_listF] at h
  split at h
  next e heq => exact Except.noConfusion h
  next st1 heq =>
    have f1 := ihp.name_list_loop_ok _ _ heq hInv
    split at h
    · cases h
      exact f1
    · cases h
      exact f1

theorem StFrame_matched {st : Parser} (k : TokenKind) (hInv : Inv st) :
    StFrame st (__match st k).1 := by
  obtain ⟨h1n, h1s, h1t, h1d⟩ := __match_fst st k
  exact ⟨Inv_congr h1n h1d h1s h1t hInv, le_of_eq (by rw [h1n]), h1s⟩

theorem type_step {prev : Fns} (ihp : ParserOK prev) :
    ∀ st out, parse_typeF prev st = .ok out → Inv st → StFrame st out.1 := by
  intro st out h hInv
  simp only [parse_typeF] at h
  have fA := @StFrame_matched st TOKEN_AND hInv
  split at h
  · -- consumed &
    have fB := StFrame_trans fA (StFrame_matched TOKEN_MUT fA.1)
    split at h
    · -- &mut
      split at h
      next e heq => exact Except.noConfusion h
      next st3 expr heq =>
        have f3 := StFrame_trans fB (ihp.type_ok _ _ heq fB.1)
        cases h
        exact StFrame_add_node f3 (by decide) _ _
    · have fC := StFrame_trans fB (StFrame_matched TOKEN_OWN fB.1)
      split at h
      · -- &own
        split at h
        next e heq => exact Except.noConfusion h
        next st3 expr heq =>
          have f3 := StFrame_trans fC (ihp.type_ok _ _ heq fC.1)
          cases h
          exact StFrame_add_node f3 (by decide) _ _
      · -- plain &
        split at h
        next e heq => exact Except.noConfusion h
        next st3 expr heq =>
          have f3 := StFrame_trans fC (ihp.type_ok _ _ heq fC.1)
          cases h
          exact StFrame_add_node f3 (by decide) _ _
  · -- no &
    have fB := StFrame_trans fA (StFrame_matched TOKEN_LBRACKET fA.1)
    split at h
    · -- [expr]type
      split at h
      next e heq => exact Except.noConfusion h
      next st4 expr heq =>
        have f4 := StFrame_trans fB (ihp.expr_ok _ _ heq fB.1)
        split at h
        next e heq2 => exact Except.noConfusion h
        next st5 b5 heq2 =>
          have f5 := StFrame_exact_trans f4 (ihp.expect_ok _ _ _ _ heq2 f4.1)
          split at h
          next e heq3 => exact Except.noConfusion h
          next st6 rhs heq3 =>
            have f6 := StFrame_trans f5 (ihp.type_ok _ _ heq3 f5.1)
            cases h
            exact StFrame_add_node f6 (by decide) _ _
    · exact StFrame_trans fB (ihp.expr_ok _ _ h fB.1)

theorem Inv_len_pos {st : Parser} (h : Inv st) : 1 ≤ st.nodes.kind.length := by
  have h1 := h.1
  cases hk : st.nodes.kind with
  | nil =>
    rw [hk] at h1
    exact absurd h1 (by simp)
  | cons a l => simp [hk]

theorem StFrame_advance {a b : Parser} (h : StFrame a b) : StFrame a (advance b) :=
  ⟨Inv_advance h.1, h.2.1, h.2.2⟩

theorem StFrame_set_node {a b : Parser} (h : StFrame a b) {k : NodeKind}
    (hk : k ≠ NODE_PIPE_EXPR) {i : Nat} (hi : 1 ≤ i) {tok : Nat} {d : Data} :
    StFrame a (set_node b i k tok d) := by
  refine ⟨Inv_set_node h.1 hk hi tok d, ?_, h.2.2⟩
  rw [set_node_kind_length]
  exact h.2.1

theorem StFrame_reserve {a b : Parser} (h : StFrame a b) : StFrame a (reserve_node b).1 :=
  StFrame_add_node h (by decide) _ _

theorem reserve_node_snd (st : Parser) : (reserve_node st).2 = st.nodes.kind.length := rfl

theorem import_step {prev : Fns} (ihp : ParserOK prev) :
    ∀ st ik out, parse_importF prev st ik = .ok out → Inv st → StFrame st out.1 := by
  intro st ik out h hInv
  simp only [parse_importF] at h
  split at h
  · exact Except.noConfusion h
  next hcur =>
    have fB : StFrame st (reserve_node (advance st)).1 :=
      StFrame_reserve (StFrame_advance (StFrame_refl st hInv))
    have hres : 1 ≤ (reserve_node (advance st)).2 := by
      rw [reserve_node_snd]
      exact Inv_len_pos hInv
    have hres0 : (reserve_node (advance st)).2 ≠ invalid := by
      rw [invalid]
      exact Nat.pos_iff_ne_zero.mp hres
    have fD : StFrame st (__match (advance (reserve_node (advance st)).1) TOKEN_LBRACE).1 :=
      StFrame_trans (StFrame_advance fB) (StFrame_matched _ (Inv_advance fB.1))
    by_cases hbr :
        (__match (advance (reserve_node (advance st)).1) TOKEN_LBRACE).2 = true
    · rw [if_pos hbr] at h
      have fE := StFrame_reserve fD
      have hlist : 1 ≤ (reserve_node
          (__match (advance (reserve_node (advance st)).1) TOKEN_LBRACE).1).2 := by
        rw [reserve_node_snd]
        exact le_trans (Inv_len_pos hInv) fD.2.1
      have hlist0 : (reserve_node
          (__match (advance (reserve_node (advance st)).1) TOKEN_LBRACE).1).2 ≠ invalid := by
        rw [invalid]
        exact Nat.pos_iff_ne_zero.mp hlist
      split at h
      next e heq => exact Except.noConfusion h
      next stJ list heq =>
        split at heq
        next e heq2 => exact Except.noConfusion heq
        next stF range heq2 =>
          have fF : StFrame st stF := StFrame_trans fE (ihp.name_list_ok _ _ heq2 fE.1)
          have finish : ∀ stI : Parser, StFrame st stI → stJ = stI →
              list = (reserve_node
                (__match (advance (reserve_node (advance st)).1) TOKEN_LBRACE).1).2 →
              StFrame st out.1 := by
            intro stI fI hJ hL
            subst hJ hL
            rw [if_pos hlist0] at h
            have fK : StFrame st (if (__match stJ TOKEN_AS).2 = true
                then (advance (__match stJ TOKEN_AS).1, (__match stJ TOKEN_AS).1.token_index)
                else ((__match stJ TOKEN_AS).1, invalid)).1 := by
              split
              · exact StFrame_advance (StFrame_trans fI (StFrame_matched _ fI.1))
              · exact StFrame_trans fI (StFrame_matched _ fI.1)
            cases h
            exact StFrame_set_node fK (by cases ik <;> decide) hres
          by_cases hr : range.1 ≠ 0 ∧ range.2 ≠ 0
          · rw [if_pos hr] at heq
            simp only [] at heq
            split at heq
            next e heq3 => exact Except.noConfusion heq
            next stI b9 heq3 =>
              have fH : StFrame st (set_node stF (reserve_node
                  (__match (advance (reserve_node (advance st)).1) TOKEN_LBRACE).1).2
                  NODE_RANGE invalid range) :=
                StFrame_set_node fF (by decide) hlist
              have fI : StFrame st stI :=
                StFrame_exact_trans fH (ihp.expect_ok _ _ _ _ heq3 fH.1)
              cases heq
              exact finish _ fI rfl rfl
          · rw [if_neg hr] at heq
            have fG : StFrame st (__match stF TOKEN_ELLIPSIS).1 :=
              StFrame_trans fF (StFrame_matched _ fF.1)
            by_cases hel : (__match stF TOKEN_ELLIPSIS).2 = true
            · rw [if_pos hel] at heq
              simp only [] at heq
              split at heq
              next e heq3 => exact Except.noConfusion heq
              next stI b9 heq3 =>
                have fH : StFrame st (set_node (__match stF TOKEN_ELLIPSIS).1 (reserve_node
                    (__match (advance (reserve_node (advance st)).1) TOKEN_LBRACE).1).2
                    NODE_ALL_SYMBOLS ((__match stF TOKEN_ELLIPSIS).1.token_index - 1) (0, 0)) :=
                  StFrame_set_node fG (by decide) hlist
                have fI : StFrame st stI :=
                  StFrame_exact_trans fH (ihp.expect_ok _ _ _ _ heq3 fH.1)
                cases heq
                exact finish _ fI rfl rfl
            · rw [if_neg hel] at heq
              split at heq
              next e heq3 => exact Except.noConfusion heq
              next stH heq3 =>
                have fH : StFrame st stH :=
                  StFrame_exact_trans fG (ihp.error_at_current_ok _ _ _ _ _ heq3 fG.1)
                split at heq
                next e heq4 => exact Except.noConfusion heq
                next stI b9 heq4 =>
                  have fI : StFrame st stI :=
                    StFrame_exact_trans fH (ihp.expect_ok _ _ _ _ heq4 fH.1)
                  cases heq
                  exact finish _ fI rfl rfl
    · rw [if_neg hbr] at h
      simp only [] at h
      rw [if_neg (fun hc => hc rfl)] at h
      have fK : StFrame st (if (__match (__match (advance (reserve_node (advance st)).1)
            TOKEN_LBRACE).1 TOKEN_AS).2 = true
          then (advance (__match (__match (advance (reserve_node (advance st)).1)
                  TOKEN_LBRACE).1 TOKEN_AS).1,
                (__match (__match (advance (reserve_node (advance st)).1)
                  TOKEN_LBRACE).1 TOKEN_AS).1.token_index)
          else ((__match (__match (advance (reserve_node (advance st)).1)
                  TOKEN_LBRACE).1 TOKEN_AS).1, invalid)).1 := by
        split
        · exact StFrame_advance (StFrame_trans fD (StFrame_matched _ fD.1))
        · exact StFrame_trans fD (StFrame_matched _ fD.1)
      cases h
      exact StFrame_set_node fK (by cases ik <;> decide) hres


theorem StFrame_push_scratch {st mid : Parser} {new : List Node} (hstInv : Inv st)
    (fmid : Inv mid) (hlen : st.nodes.kind.length ≤ mid.nodes.kind.length)
    (hsc : mid.scratch = st.scratch ++ new) :
    StFrame st (push_scratch mid st.scratch_top) := by
  have htop : st.scratch_top = st.scratch.length := hstInv.2.2.2.2.1
  have hmtop : mid.scratch_top = mid.scratch.length := fmid.2.2.2.2.1
  have hsv : st.scratch_top ≤ mid.scratch.length := by
    rw [htop, hsc]
    simp
  refine ⟨Inv_push_scratch fmid hsv, ?_, ?_⟩
  · rw [push_scratch_length hmtop hsv]
    exact le_trans hlen (Nat.le_add_right _ _)
  · rw [(push_scratch_spec hmtop hsv).2.2.2.1, hsc, htop, List.take_left]

theorem block_loop_step {prev : Fns} (ihp : ParserOK prev) :
    ∀ st c out, parse_block_loopF prev st c = .ok out → Inv st → StLoop st out.1 c out.2 := by
  intro st c out h hInv
  simp only [parse_block_loopF] at h
  split at h
  · split at h
    next e heq => exact Except.noConfusion h
    next st1 heq =>
      have e1 := ihp.skip_newlines_ok _ _ heq hInv
      have hInv2 : Inv (add_scratch (parse_stmt st1).1 (parse_stmt st1).2) :=
        Inv_add_scratch e1.1 (show NODE_ROOT ≠ NODE_PIPE_EXPR by decide)
      obtain ⟨j1, j2, j3, hsc, hcnt⟩ := ihp.block_loop_ok _ _ _ h hInv2
      refine ⟨j1, ?_, (parse_stmt st1).2 :: j3, ?_, ?_⟩
      · refine le_trans (le_of_eq ?_) j2
        show st.nodes.kind.length = (add_scratch (parse_stmt st1).1 (parse_stmt st1).2).nodes.kind.length
        rw [show (add_scratch (parse_stmt st1).1 (parse_stmt st1).2).nodes = st1.nodes from rfl,
          e1.2.1]
      · rw [hsc]
        show _ = st.scratch ++ ((parse_stmt st1).2 :: j3)
        rw [show (add_scratch (parse_stmt st1).1 (parse_stmt st1).2).scratch
            = st1.scratch ++ [(parse_stmt st1).2] from rfl, e1.2.2]
        simp
      · rw [hcnt]
        simp
        omega
  · cases h
    exact ⟨hInv, Nat.le_refl _, [], by simp, by simp⟩

theorem block_step {prev : Fns} (ihp : ParserOK prev) :
    ∀ st out, parse_blockF prev st = .ok out → Inv st → StFrame st out.1 := by
  intro st out h hInv
  simp only [parse_blockF] at h
  split at h
  · cases h
    exact StFrame_refl _ hInv
  · have fB : StFrame st (reserve_node (advance st)).1 :=
      StFrame_reserve (StFrame_advance (StFrame_refl st hInv))
    have hres : 1 ≤ (reserve_node (advance st)).2 := by
      rw [reserve_node_snd]
      exact Inv_len_pos hInv
    split at h
    next e heq => exact Except.noConfusion h
    next st3 heq =>
      have f3 : StFrame st st3 := StFrame_exact_trans fB (ihp.skip_newlines_ok _ _ heq fB.1)
      split at h
      next e heq2 => exact Except.noConfusion h
      next st4 count heq2 =>
        obtain ⟨j1, j2, j3, hsc, hcnt⟩ := ihp.block_loop_ok _ _ _ heq2 f3.1
        have hlen4 : st.nodes.kind.length ≤ st4.nodes.kind.length := le_trans f3.2.1 j2
        have hsc4 : st4.scratch = st.scratch ++ j3 := by
          rw [hsc, f3.2.2]
        split at h
        next e heq3 => exact Except.noConfusion h
        next st5 b5 heq3 =>
          have e5 := ihp.expect_ok _ _ _ _ heq3 j1
          have hInv5 : Inv st5 := e5.1
          have hlen5 : st.nodes.kind.length ≤ st5.nodes.kind.length := by
            rw [e5.2.1]
            exact hlen4
          have hsc5 : st5.scratch = st.scratch ++ j3 := by
            rw [e5.2.2, hsc4]
          split at h
          next hc0 =>
            have hj3 : j3 = [] := by
              simp only [hc0] at hcnt
              exact List.eq_nil_of_length_eq_zero (by omega)
            cases h
            have f5 : StFrame st st5 :=
              ⟨hInv5, hlen5, by rw [hsc5, hj3, List.append_nil]⟩
            exact StFrame_set_node f5 (by decide) hres
          · cases h
            exact StFrame_set_node (StFrame_push_scratch hInv hInv5 hlen5 hsc5)
              (by decide) hres

theorem struct_loop_step {prev : Fns} (ihp : ParserOK prev) :
    ∀ st c out, parse_struct_loopF prev st c = .ok out → Inv st → StLoop st out.1 c out.2 := by
  intro st c out h hInv
  simp only [parse_struct_loopF] at h
  split at h
  · split at h
    next e heq => exact Except.noConfusion h
    next st1 b1 heq =>
      have e1 := ihp.expect_ok _ _ _ _ heq hInv
      have f2 : StFrame st (add_node st1 NODE_IDENTIFIER st.token_index (0, 0)).1 :=
        StFrame_add_node (StExact_frame e1) (by decide) _ _
      split at h
      next e heq2 => exact Except.noConfusion h
      next stA type expr heq2 =>
        have fA : StFrame st stA := by
          split at heq2
          · split at heq2
            next e heq3 => exact Except.noConfusion heq2
            next st4 ty heq3 =>
              have f4 := StFrame_trans (StFrame_trans f2 (StFrame_matched _ f2.1))
                (ihp.type_ok _ _ heq3 (StFrame_trans f2 (StFrame_matched _ f2.1)).1)
              split at heq2
              · split at heq2
                next e heq4 => exact Except.noConfusion heq2
                next st6 ex heq4 =>
                  cases heq2
                  exact StFrame_trans (StFrame_trans f4 (StFrame_matched _ f4.1))
                    (ihp.expr_ok _ _ heq4 (StFrame_trans f4 (StFrame_matched _ f4.1)).1)
              · cases heq2
                exact StFrame_trans f4 (StFrame_matched _ f4.1)
          · have f3 := StFrame_trans (StFrame_trans f2 (StFrame_matched TOKEN_COLON f2.1))
              (StFrame_matched TOKEN_COLON_EQ
                (StFrame_trans f2 (StFrame_matched TOKEN_COLON f2.1)).1)
            split at heq2
            · split at heq2
              next e heq4 => exact Except.noConfusion heq2
              next st8 ex heq4 =>
                cases heq2
                exact StFrame_trans f3 (ihp.expr_ok _ _ heq4 f3.1)
            · split at heq2
              next e heq4 => exact Except.noConfusion heq2
              next st9 heq4 =>
                cases heq2
                exact StFrame_exact_trans f3 (ihp.error_at_current_ok _ _ _ _ _ heq4 f3.1)
        have hInvB : Inv (add_scratch stA
            { kind := NODE_FIELD, token := (add_node st1 NODE_IDENTIFIER st.token_index (0, 0)).2,
              data := (type, expr) }) :=
          Inv_add_scratch fA.1 (show NODE_FIELD ≠ NODE_PIPE_EXPR by decide)
        split at h
        next e heq3 => exact Except.noConfusion h
        next stC heq3 =>
          have eC := ihp.skip_newlines_ok _ _ heq3 hInvB
          have hnC : stC.nodes = stA.nodes := eC.2.1
          have hsC : stC.scratch = stA.scratch ++
              [{ kind := NODE_FIELD,
                 token := (add_node st1 NODE_IDENTIFIER st.token_index (0, 0)).2,
                 data := (type, expr) }] := eC.2.2
          have hlenC : st.nodes.kind.length ≤ stC.nodes.kind.length := by
            rw [hnC]
            exact fA.2.1
          have hscC : stC.scratch = st.scratch ++
              [{ kind := NODE_FIELD,
                 token := (add_node st1 NODE_IDENTIFIER st.token_index (0, 0)).2,
                 data := (type, expr) }] := by
            rw [hsC, fA.2.2]
          split at h
          · cases h
            exact ⟨eC.1, hlenC, [_], hscC, by simp⟩
          · split at h
            next e heq4 => exact Except.noConfusion h
            next stD bD heq4 =>
              have eD := ihp.expect_ok _ _ _ _ heq4 eC.1
              split at h
              next e heq5 => exact Except.noConfusion h
              next stE heq5 =>
                have eE := ihp.skip_newlines_ok _ _ heq5 eD.1
                obtain ⟨j1, j2, j3, hsc, hcnt⟩ := ihp.struct_loop_ok _ _ _ h eE.1
                refine ⟨j1, ?_, ({ kind := NODE_FIELD, token := (add_node st1 NODE_IDENTIFIER st.token_index (0, 0)).2, data := (type, expr) } : Node) :: j3, ?_, ?_⟩
                · refine le_trans hlenC ?_
                  rw [show stE.nodes = stC.nodes from by rw [eE.2.1, eD.2.1]] at j2
                  exact j2
                · rw [hsc, eE.2.2, eD.2.2, hscC]
                  simp
                · rw [hcnt]
                  simp
                  omega
  · cases h
    exact ⟨hInv, Nat.le_refl _, [], by simp, by simp⟩

theorem getD_set_lt {α : Type} (l : List α) {i : Nat} (hi : i < l.length) (a d : α) :
    (l.set i a).getD i d = a := by
  rw [List.getD_eq_getElem?_getD, List.getElem?_set_eq_of_lt a hi]
  rfl

theorem set_node_kind_getD {st : Parser} {i : Nat} (hi : i < st.nodes.kind.length)
    (k : NodeKind) (tok : Nat) (d : Data) :
    (set_node st i k tok d).nodes.kind.getD i NODE_INVALID = k :=
  getD_set_lt _ hi _ _

theorem set_node_data_getD {st : Parser} {i : Nat} (hi : i < st.nodes.data.length)
    (k : NodeKind) (tok : Nat) (d : Data) :
    (set_node st i k tok d).nodes.data.getD i (0, 0) = d :=
  getD_set_lt _ hi _ _

theorem struct_step {prev : Fns} (ihp : ParserOK prev) :
    ∀ st out, parse_structF prev st = .ok out → Inv st →
    StFrame st out.1 ∧ aggregate_fact NODE_STRUCT_TWO NODE_STRUCT out.1 out.2 := by
  intro st out h hInv
  simp only [parse_structF] at h
  split at h
  · exact Except.noConfusion h
  split at h
  next e heq => exact Except.noConfusion h
  next st2 found heq =>
    have e2 : StExact st st2 := by
      have := ihp.expect_ok _ _ _ _ heq (Inv_advance hInv)
      exact ⟨this.1, this.2.1, this.2.2⟩
    split at h
    · cases h
      exact ⟨StExact_frame e2, Or.inl rfl⟩
    · have hr1 : 1 ≤ st2.nodes.kind.length := by
        rw [e2.2.1]
        exact Inv_len_pos hInv
      rw [reserve_node_snd st2] at h
      split at h
      next e heq2 => exact Except.noConfusion h
      next st4 heq2 =>
        have e4 := ihp.skip_newlines_ok _ _ heq2 (Inv_reserve_node e2.1)
        have hn4 : st4.nodes.kind.length = st2.nodes.kind.length + 1 := by
          rw [e4.2.1,
            show (reserve_node st2).1.nodes.kind = st2.nodes.kind ++ [NODE_INVALID] from rfl]
          simp
        have hs4 : st4.scratch = st.scratch := by
          rw [e4.2.2]
          exact e2.2.2
        split at h
        next e heq3 => exact Except.noConfusion h
        next st5 count heq3 =>
          obtain ⟨j1, j2, j3, hsc5, hcnt⟩ := ihp.struct_loop_ok _ _ _ heq3 e4.1
          split at h
          next e heq4 => exact Except.noConfusion h
          next st6 b6 heq4 =>
            have e6 := ihp.expect_ok _ _ _ _ heq4 j1
            have hInv6 : Inv st6 := e6.1
            have hs6 : st6.scratch = st.scratch ++ j3 := by
              rw [e6.2.2, hsc5, hs4]
            have hlen6 : st2.nodes.kind.length + 1 ≤ st6.nodes.kind.length := by
              rw [e6.2.1, ← hn4]
              exact j2
            have htop2 : st2.scratch_top = st.scratch.length := by
              have h5 := hInv.2.2.2.2.1
              have : st2.scratch_top = st.scratch_top := by
                have hh := ihp.expect_ok _ _ _ _ heq (Inv_advance hInv)
                have := hh.1.2.2.2.2.1
                rw [this, hh.2.2]
                exact hInv.2.2.2.2.1.symm
              rw [this, h5]
            have hmtop : st6.scratch_top = st6.scratch.length := hInv6.2.2.2.2.1
            have hsv : st2.scratch_top ≤ st6.scratch.length := by
              rw [htop2, hs6]
              simp
            obtain ⟨p1, p2, p3, p4, p5⟩ := push_scratch_spec hmtop hsv
            have hlen7 : (push_scratch st6 st2.scratch_top).nodes.kind.length
                = st6.nodes.kind.length + count := by
              rw [p1]
              simp only [List.length_append, List.length_map]
              rw [hs6, htop2, List.drop_left]
              omega
            have hsc7 : (push_scratch st6 st2.scratch_top).scratch = st.scratch := by
              rw [p4, hs6, htop2, List.take_left]
            have hInv7 : Inv (push_scratch st6 st2.scratch_top) := Inv_push_scratch hInv6 hsv
            have hrlt : st2.nodes.kind.length
                < (push_scratch st6 st2.scratch_top).nodes.kind.length := by
              rw [hlen7]
              omega
            have f7 : StFrame st (push_scratch st6 st2.scratch_top) := by
              refine ⟨hInv7, ?_, hsc7⟩
              rw [hlen7, ← e2.2.1]
              omega
            have hdlt : st2.nodes.kind.length
                < (push_scratch st6 st2.scratch_top).nodes.data.length := by
              rw [hInv7.2.2.2.2.2]
              exact hrlt
            have hagg : ∀ K : NodeKind, ∀ D : Data,
                (set_node (push_scratch st6 st2.scratch_top) st2.nodes.kind.length K
                  st.token_index D).nodes.kind.length = st6.nodes.kind.length + count ∧
                (set_node (push_scratch st6 st2.scratch_top) st2.nodes.kind.length K
                  st.token_index D).nodes.kind.getD st2.nodes.kind.length NODE_INVALID = K ∧
                (set_node (push_scratch st6 st2.scratch_top) st2.nodes.kind.length K
                  st.token_index D).nodes.data.getD st2.nodes.kind.length (0, 0) = D := by
              intro K D
              exact ⟨by rw [set_node_kind_length, hlen7],
                set_node_kind_getD hrlt _ _ _, set_node_data_getD hdlt _ _ _⟩
            split at h
            next hc0 =>
              cases h
              refine ⟨StFrame_set_node f7 (by decide) hr1, Or.inr ?_⟩
              refine ⟨st6.nodes.kind.length + count, 0, ?_⟩
              exact ⟨by rw [(hagg _ _).1]; omega,
                Or.inl ⟨rfl, (hagg _ _).2.1, (hagg _ _).2.2⟩⟩
            next hc0 =>
              split at h
              next hc2 =>
                cases h
                refine ⟨StFrame_set_node f7 (by decide) hr1, Or.inr ?_⟩
                refine ⟨st6.nodes.kind.length, count, ?_⟩
                refine ⟨(hagg _ _).1, Or.inr (Or.inl ⟨by omega, hc2, (hagg _ _).2.1, ?_⟩)⟩
                rw [(hagg _ _).2.2, hlen7]
              next hc2 =>
                cases h
                refine ⟨StFrame_set_node f7 (by decide) hr1, Or.inr ?_⟩
                refine ⟨st6.nodes.kind.length, count, ?_⟩
                refine ⟨(hagg _ _).1, Or.inr (Or.inr ⟨by omega, (hagg _ _).2.1, ?_⟩)⟩
                rw [(hagg _ _).2.2, hlen7]

theorem variant_fields_loop_step {prev : Fns} (ihp : ParserOK prev) :
    ∀ st c out, variant_fields_loopF prev st c = .ok out → Inv st → StLoop st out.1 c out.2 := by
  intro st c out h hInv
  simp only [variant_fields_loopF] at h
  split at h
  · split at h
    next e heq => exact Except.noConfusion h
    next st1 lhs heq =>
      have f1 : StFrame st st1 := ihp.type_ok _ _ heq hInv
      split at h
      next e heq2 => exact Except.noConfusion h
      next stA rhs heq2 =>
        have fA : StFrame st stA := by
          split at heq2
          · -- colon matched
            have f2 := StFrame_trans f1 (StFrame_matched TOKEN_COLON f1.1)
            by_cases hid : (__match st1 TOKEN_COLON).1.nodes.kind.getD lhs NODE_INVALID
                ≠ NODE_IDENTIFIER
            · rw [if_pos hid] at heq2
              split at heq2
              next e heq4 => exact Except.noConfusion heq2
              next st9 heq4 =>
                have f3 : StFrame st st9 :=
                  StFrame_exact_trans f2 (ihp.error_at_ok _ _ _ _ _ _ heq4 f2.1)
                split at heq2
                next e heq5 => exact Except.noConfusion heq2
                next st4 ty heq5 =>
                  cases heq2
                  exact StFrame_trans f3 (ihp.type_ok _ _ heq5 f3.1)
            · rw [if_neg hid] at heq2
              simp only [] at heq2
              split at heq2
              next e heq5 => exact Except.noConfusion heq2
              next st4 ty heq5 =>
                cases heq2
                exact StFrame_trans f2 (ihp.type_ok _ _ heq5 f2.1)
          · cases heq2
            exact StFrame_trans f1 (StFrame_matched TOKEN_COLON f1.1)
        have hInvB : Inv (add_scratch stA
            { kind := NODE_FIELD, token := lhs, data := (lhs, rhs) }) :=
          Inv_add_scratch fA.1 (show NODE_FIELD ≠ NODE_PIPE_EXPR by decide)
        have hscB : (add_scratch stA
            { kind := NODE_FIELD, token := lhs, data := (lhs, rhs) }).scratch
            = st.scratch ++ [{ kind := NODE_FIELD, token := lhs, data := (lhs, rhs) }] := by
          rw [show (add_scratch stA { kind := NODE_FIELD, token := lhs, data := (lhs, rhs) }).scratch = stA.scratch ++ [{ kind := NODE_FIELD, token := lhs, data := (lhs, rhs) }] from rfl, fA.2.2]
        split at h
        · cases h
          exact ⟨hInvB, fA.2.1, [_], hscB, by simp⟩
        · split at h
          next e heq3 => exact Except.noConfusion h
          next stC heq3 =>
            have eC := ihp.skip_newlines_ok _ _ heq3 hInvB
            split at h
            next e heq4 => exact Except.noConfusion h
            next stD bD heq4 =>
              have eD := ihp.expect_ok _ _ _ _ heq4 eC.1
              split at h
              next e heq5 => exact Except.noConfusion h
              next stE heq5 =>
                have eE := ihp.skip_newlines_ok _ _ heq5 eD.1
                obtain ⟨j1, j2, j3, hsc, hcnt⟩ := ihp.variant_fields_ok _ _ _ h eE.1
                refine ⟨j1, ?_, ({ kind := NODE_FIELD, token := lhs, data := (lhs, rhs) } : Node) :: j3, ?_, ?_⟩
                · refine le_trans fA.2.1 (le_trans (le_of_eq ?_) j2)
                  rw [eE.2.1, eD.2.1, eC.2.1]
                  rfl
                · rw [hsc, eE.2.2, eD.2.2, eC.2.2, hscB]
                  simp
                · rw [hcnt]
                  simp
                  omega
  · cases h
    exact ⟨hInv, Nat.le_refl _, [], by simp, by simp⟩

theorem variant_step {prev : Fns} (ihp : ParserOK prev) :
    ∀ st out, parse_enum_variantF prev st = .ok out → Inv st →
    StFrame st out.1 ∧ variant_fact out.1 out.2 ∧ out.2.kind ≠ NODE_PIPE_EXPR := by
  intro st out h hInv
  simp only [parse_enum_variantF] at h
  split at h
  next e heq => exact Except.noConfusion h
  next st1 b1 heq =>
    have e1 := ihp.expect_ok _ _ _ _ heq hInv
    have f2 : StFrame st (add_node st1 NODE_IDENTIFIER st.token_index (0, 0)).1 :=
      StFrame_add_node (StExact_frame e1) (by decide) _ _
    have htop2 : (add_node st1 NODE_IDENTIFIER st.token_index (0, 0)).1.scratch_top
        = st.scratch.length := by
      have ht := f2.1.2.2.2.2.1
      rw [ht, f2.2.2]
    split at h
    next e heq2 => exact Except.noConfusion h
    next stA count expr heq2 =>
      -- the paren / eq / simple step
      have hstep : (StFrame st stA ∧ count = -1) ∨
          (∃ cnt : Nat, count = (cnt : Int) ∧ Inv stA ∧
            st.nodes.kind.length ≤ stA.nodes.kind.length ∧
            ∃ new : List Node, stA.scratch = st.scratch ++ new ∧ cnt = new.length) := by
        split at heq2
        · -- ( matched
          have f3 := StFrame_trans f2 (StFrame_matched TOKEN_LPAREN f2.1)
          split at heq2
          next e heq3 => exact Except.noConfusion heq2
          next st4 cnt heq3 =>
            obtain ⟨j1, j2, j3, hsc, hcnt⟩ := ihp.variant_fields_ok _ _ _ heq3 f3.1
            split at heq2
            next e heq4 => exact Except.noConfusion heq2
            next st5 b5 heq4 =>
              have e5 := ihp.expect_ok _ _ _ _ heq4 j1
              cases heq2
              refine Or.inr ⟨cnt, rfl, e5.1, ?_, j3, ?_, by simpa using hcnt⟩
              · rw [e5.2.1]
                exact le_trans f3.2.1 j2
              · rw [e5.2.2, hsc, f3.2.2]
        · -- no paren
          have f3 := StFrame_trans (StFrame_trans f2 (StFrame_matched TOKEN_LPAREN f2.1))
            (StFrame_matched TOKEN_EQ
              (StFrame_trans f2 (StFrame_matched TOKEN_LPAREN f2.1)).1)
          split at heq2
          · split at heq2
            next e heq3 => exact Except.noConfusion heq2
            next st7 ex heq3 =>
              cases heq2
              exact Or.inl ⟨StFrame_trans f3 (ihp.expr_ok _ _ heq3 f3.1), rfl⟩
          · cases heq2
            exact Or.inl ⟨f3, rfl⟩
      rcases hstep with ⟨fA, rfl⟩ | ⟨cnt, rfl, jA, jlen, new, jsc, jcnt⟩
      · rw [if_pos rfl] at h
        cases h
        exact ⟨fA, Or.inl rfl, show NODE_VARIANT_SIMPLE ≠ NODE_PIPE_EXPR by decide⟩
      · rw [if_neg (by omega)] at h
        -- the zero-fields diagnostic step
        have hdiag : ∀ stB, Inv stB → stB.nodes = stA.nodes → stB.scratch = stA.scratch →
            ((Except.ok (push_scratch stB (add_node st1 NODE_IDENTIFIER st.token_index
                (0, 0)).1.scratch_top,
              ({ kind := if (cnt : Int) ≤ 2 then NODE_VARIANT_TWO else NODE_VARIANT,
                 token := (add_node st1 NODE_IDENTIFIER st.token_index (0, 0)).2,
                 data := (stB.nodes.kind.length,
                   (push_scratch stB (add_node st1 NODE_IDENTIFIER st.token_index
                     (0, 0)).1.scratch_top).nodes.kind.length - 1) } : Node))
              : Except Err (Parser × Node)) = .ok out) →
            StFrame st out.1 ∧ variant_fact out.1 out.2 ∧ out.2.kind ≠ NODE_PIPE_EXPR := by
          intro stB jB hnB hsB hc
          have hsB2 : stB.scratch = st.scratch ++ new := by
            rw [hsB, jsc]
          have hmtop : stB.scratch_top = stB.scratch.length := jB.2.2.2.2.1
          have hsv : (add_node st1 NODE_IDENTIFIER st.token_index (0, 0)).1.scratch_top
              ≤ stB.scratch.length := by
            rw [htop2, hsB2]
            simp
          obtain ⟨p1, p2, p3, p4, p5⟩ := push_scratch_spec hmtop hsv
          have hlenC : (push_scratch stB (add_node st1 NODE_IDENTIFIER st.token_index
              (0, 0)).1.scratch_top).nodes.kind.length
              = stB.nodes.kind.length + cnt := by
            rw [p1]
            simp only [List.length_append, List.length_map]
            rw [hsB2, htop2, List.drop_left, jcnt]
          have hscC : (push_scratch stB (add_node st1 NODE_IDENTIFIER st.token_index
              (0, 0)).1.scratch_top).scratch = st.scratch := by
            rw [p4, hsB2, htop2, List.take_left]
          have hInvC := Inv_push_scratch jB hsv
          cases hc
          refine ⟨⟨hInvC, ?_, hscC⟩, Or.inr ⟨stB.nodes.kind.length, cnt, ?_, ?_, ?_⟩, ?_⟩
          · rw [hlenC, hnB]
            omega
          · rw [hlenC]
          · show (stB.nodes.kind.length, (push_scratch stB (add_node st1 NODE_IDENTIFIER
              st.token_index (0, 0)).1.scratch_top).nodes.kind.length - 1) = _
            rw [hlenC]
          · by_cases h2 : (cnt : Int) ≤ 2
            · rw [if_pos h2]
              exact Or.inl ⟨by omega, rfl⟩
            · rw [if_neg h2]
              exact Or.inr ⟨by omega, rfl⟩
          · show (if (cnt : Int) ≤ 2 then NODE_VARIANT_TWO else NODE_VARIANT) ≠ NODE_PIPE_EXPR
            split
            · exact (show NODE_VARIANT_TWO ≠ NODE_PIPE_EXPR by decide)
            · exact (show NODE_VARIANT ≠ NODE_PIPE_EXPR by decide)
        by_cases hc0 : (cnt : Int) = 0
        · rw [if_pos hc0] at h
          split at h
          next e heq3 => exact Except.noConfusion h
          next sp heq3 =>
            have hfacts : Inv sp ∧ sp.nodes = stA.nodes ∧ sp.scratch = stA.scratch := by
              split at heq3
              next e heq4 => exact Except.noConfusion heq3
              next sp2 heq4 =>
                cases heq3
                exact ⟨Inv_error_span jA _ _ _ _, rfl, rfl⟩
            exact hdiag sp hfacts.1 hfacts.2.1 hfacts.2.2 h
        · rw [if_neg hc0] at h
          exact hdiag stA jA rfl rfl h

theorem enum_loop_step {prev : Fns} (ihp : ParserOK prev) :
    ∀ st c out, parse_enum_loopF prev st c = .ok out → Inv st → StLoop st out.1 c out.2 := by
  intro st c out h hInv
  simp only [parse_enum_loopF] at h
  split at h
  · split at h
    next e heq => exact Except.noConfusion h
    next st1 variant heq =>
      obtain ⟨f1, hvf, hvk⟩ := ihp.variant_ok _ _ heq hInv
      have hInv2 : Inv (add_scratch st1 variant) := Inv_add_scratch f1.1 hvk
      have hsc2 : (add_scratch st1 variant).scratch = st.scratch ++ [variant] := by
        rw [show (add_scratch st1 variant).scratch = st1.scratch ++ [variant] from rfl, f1.2.2]
      have f3 : Inv (__match (add_scratch st1 variant) TOKEN_COMMA).1 ∧
          (__match (add_scratch st1 variant) TOKEN_COMMA).1.nodes
            = (add_scratch st1 variant).nodes ∧
          (__match (add_scratch st1 variant) TOKEN_COMMA).1.scratch
            = st.scratch ++ [variant] := by
        obtain ⟨q1, q2, q3, q4⟩ := __match_fst (add_scratch st1 variant) TOKEN_COMMA
        exact ⟨Inv_congr q1 q4 q2 q3 hInv2, q1, by rw [q2, hsc2]⟩
      split at h
      · cases h
        exact ⟨f3.1, by rw [f3.2.1]; exact f1.2.1, [variant], f3.2.2, by simp⟩
      · split at h
        next e heq2 => exact Except.noConfusion h
        next st4 b4 heq2 =>
          have e4 := ihp.expect_ok _ _ _ _ heq2 f3.1
          split at h
          next e heq3 => exact Except.noConfusion h
          next st5 heq3 =>
            have e5 := ihp.skip_newlines_ok _ _ heq3 e4.1
            obtain ⟨j1, j2, j3, hsc, hcnt⟩ := ihp.enum_loop_ok _ _ _ h e5.1
            refine ⟨j1, ?_, variant :: j3, ?_, ?_⟩
            · refine le_trans f1.2.1 (le_trans (le_of_eq ?_) j2)
              rw [e5.2.1, e4.2.1, f3.2.1]
              rfl
            · rw [hsc, e5.2.2, e4.2.2, f3.2.2]
              simp
            · rw [hcnt]
              simp
              omega
  · cases h
    exact ⟨hInv, Nat.le_refl _, [], by simp, by simp⟩

theorem enum_step {prev : Fns} (ihp : ParserOK prev) :
    ∀ st out, parse_enumF prev st = .ok out → Inv st →
    StFrame st out.1 ∧ aggregate_fact NODE_ENUM_TWO NODE_ENUM out.1 out.2 := by
  intro st out h hInv
  simp only [parse_enumF] at h
  split at h
  · exact Except.noConfusion h
  split at h
  next e heq => exact Except.noConfusion h
  next stA token heq =>
    have fA : StFrame st stA := by
      split at heq
      · split at heq
        next e heq2 => exact Except.noConfusion heq
        next st3 tk heq2 =>
          cases heq
          have f2 := @StFrame_matched (advance st) TOKEN_IDENTIFIER (Inv_advance hInv)
          exact StFrame_trans f2 (ihp.type_ok _ _ heq2 f2.1)
      · cases heq
        exact @StFrame_matched (advance st) TOKEN_IDENTIFIER (Inv_advance hInv)
    split at h
    next e heq2 => exact Except.noConfusion h
    next stB found heq2 =>
      have fB : StFrame st stB := StFrame_exact_trans fA (ihp.expect_ok _ _ _ _ heq2 fA.1)
      split at h
      · cases h
        exact ⟨fB, Or.inl rfl⟩
      · rw [reserve_node_snd stB] at h
        have hr1 : 1 ≤ stB.nodes.kind.length := le_trans (Inv_len_pos hInv) fB.2.1
        split at h
        next e heq3 => exact Except.noConfusion h
        next stD count heq3 =>
          obtain ⟨j1, j2, j3, hsc5, hcnt⟩ := ihp.enum_loop_ok _ _ _ heq3 (Inv_reserve_node fB.1)
          split at h
          next e heq4 => exact Except.noConfusion h
          next stE b6 heq4 =>
            have e6 := ihp.expect_ok _ _ _ _ heq4 j1
            have hInv6 : Inv stE := e6.1
            have hs6 : stE.scratch = st.scratch ++ j3 := by
              rw [e6.2.2, hsc5]
              rw [show (reserve_node stB).1.scratch = stB.scratch from rfl, fB.2.2]
            have hlen6 : stB.nodes.kind.length + 1 ≤ stE.nodes.kind.length := by
              rw [e6.2.1]
              refine le_trans (le_of_eq ?_) j2
              rw [show (reserve_node stB).1.nodes.kind
                  = stB.nodes.kind ++ [NODE_INVALID] from rfl]
              simp
            have htop2 : (reserve_node stB).1.scratch_top = st.scratch.length := by
              show stB.scratch_top = st.scratch.length
              rw [fB.1.2.2.2.2.1, fB.2.2]
            have hmtop : stE.scratch_top = stE.scratch.length := hInv6.2.2.2.2.1
            have hsv : (reserve_node stB).1.scratch_top ≤ stE.scratch.length := by
              rw [htop2, hs6]
              simp
            obtain ⟨p1, p2, p3, p4, p5⟩ := push_scratch_spec hmtop hsv
            have hlen7 : (push_scratch stE (reserve_node stB).1.scratch_top).nodes.kind.length
                = stE.nodes.kind.length + count := by
              rw [p1]
              simp only [List.length_append, List.length_map]
              rw [hs6, htop2, List.drop_left]
              omega
            have hsc7 : (push_scratch stE (reserve_node stB).1.scratch_top).scratch
                = st.scratch := by
              rw [p4, hs6, htop2, List.take_left]
            have hInv7 : Inv (push_scratch stE (reserve_node stB).1.scratch_top) :=
              Inv_push_scratch hInv6 hsv
            have hrlt : stB.nodes.kind.length
                < (push_scratch stE (reserve_node stB).1.scratch_top).nodes.kind.length := by
              rw [hlen7]
              omega
            have f7 : StFrame st (push_scratch stE (reserve_node stB).1.scratch_top) := by
              refine ⟨hInv7, ?_, hsc7⟩
              rw [hlen7]
              exact le_trans fB.2.1 (by omega)
            have hdlt : stB.nodes.kind.length
                < (push_scratch stE (reserve_node stB).1.scratch_top).nodes.data.length := by
              rw [hInv7.2.2.2.2.2]
              exact hrlt
            have hagg : ∀ K : NodeKind, ∀ D : Data,
                (set_node (push_scratch stE (reserve_node stB).1.scratch_top)
                  stB.nodes.kind.length K token D).nodes.kind.length
                  = stE.nodes.kind.length + count ∧
                (set_node (push_scratch stE (reserve_node stB).1.scratch_top)
                  stB.nodes.kind.length K token D).nodes.kind.getD
                  stB.nodes.kind.length NODE_INVALID = K ∧
                (set_node (push_scratch stE (reserve_node stB).1.scratch_top)
                  stB.nodes.kind.length K token D).nodes.data.getD
                  stB.nodes.kind.length (0, 0) = D := by
              intro K D
              exact ⟨by rw [set_node_kind_length, hlen7],
                set_node_kind_getD hrlt _ _ _, set_node_data_getD hdlt _ _ _⟩
            split at h
            next hc0 =>
              cases h
              refine ⟨StFrame_set_node f7 (by decide) hr1, Or.inr ?_⟩
              refine ⟨stE.nodes.kind.length + count, 0, ?_⟩
              exact ⟨by rw [(hagg _ _).1]; omega,
                Or.inl ⟨rfl, (hagg _ _).2.1, (hagg _ _).2.2⟩⟩
            next hc0 =>
              split at h
              next hc2 =>
                cases h
                refine ⟨StFrame_set_node f7 (by decide) hr1, Or.inr ?_⟩
                refine ⟨stE.nodes.kind.length, count, ?_⟩
                refine ⟨(hagg _ _).1, Or.inr (Or.inl ⟨by omega, hc2, (hagg _ _).2.1, ?_⟩)⟩
                rw [(hagg _ _).2.2, hlen7]
              next hc2 =>
                cases h
                refine ⟨StFrame_set_node f7 (by decide) hr1, Or.inr ?_⟩
                refine ⟨stE.nodes.kind.length, count, ?_⟩
                refine ⟨(hagg _ _).1, Or.inr (Or.inr ⟨by omega, (hagg _ _).2.1, ?_⟩)⟩
                rw [(hagg _ _).2.2, hlen7]

theorem Inv_add_extra {st : Parser} (h : Inv st) (ws : List Nat) :
    Inv (add_extra st ws).1 := h

theorem params_loop_step {prev : Fns} (ihp : ParserOK prev) :
    ∀ st c out, params_loopF prev st c = .ok out → Inv st →
    (Inv out.1 ∧ st.nodes.kind.length ≤ out.1.nodes.kind.length ∧
      (∃ new, out.1.scratch = st.scratch ++ new)) ∧
    (out.2 = -1 → st.nodes.kind.length + 1 ≤ out.1.nodes.kind.length) := by
  intro st c out h hInv
  simp only [params_loopF] at h
  split at h
  · have fX : StFrame st (add_node (advance st) NODE_IDENTIFIER st.token_index (0, 0)).1 :=
      StFrame_add_node (StFrame_advance (StFrame_refl st hInv)) (by decide) _ _
    have hXlt : st.nodes.kind.length
        < (add_node (advance st) NODE_IDENTIFIER st.token_index (0, 0)).1.nodes.kind.length := by
      show st.nodes.kind.length < ((advance st).nodes.kind ++ [NODE_IDENTIFIER]).length
      simp
      show st.nodes.kind.length < st.nodes.kind.length + 1
      omega
    split at h
    next e heqP => exact Except.noConfusion h
    next stP cnt2 okb heqP =>
      have fC1 : StFrame (add_node (advance st) NODE_IDENTIFIER st.token_index (0, 0)).1
          (__match (add_node (advance st) NODE_IDENTIFIER st.token_index (0, 0)).1
            TOKEN_COLON).1 :=
        StFrame_matched TOKEN_COLON fX.1
      have hP : Inv stP ∧ st.nodes.kind.length < stP.nodes.kind.length ∧
          (∃ new, stP.scratch = st.scratch ++ new) := by
        split at heqP
        · -- colon matched
          have f3 := StFrame_trans fC1 (StFrame_matched TOKEN_ELLIPSIS fC1.1)
          split at heqP
          next e heq2 => exact Except.noConfusion heqP
          next st4 ty heq2 =>
            have f4 := StFrame_trans f3 (ihp.type_ok _ _ heq2 f3.1)
            split at heqP
            · split at heqP
              next e heq3 => exact Except.noConfusion heqP
              next st5 ex heq3 =>
                have f5 := StFrame_trans (StFrame_trans f4 (StFrame_matched TOKEN_EQ f4.1))
                  (ihp.expr_ok _ _ heq3
                    (StFrame_trans f4 (StFrame_matched TOKEN_EQ f4.1)).1)
                cases heqP
                refine ⟨Inv_add_scratch f5.1 ?_,
                  Nat.lt_of_lt_of_le hXlt (le_trans f5.2.1 (le_of_eq rfl)), [_],
                  by rw [show (add_scratch st5 _).scratch = st5.scratch ++ [_] from rfl,
                    f5.2.2, fX.2.2]⟩
                show (if (__match (__match (add_node (advance st) NODE_IDENTIFIER
                    st.token_index (0, 0)).1 TOKEN_COLON).1 TOKEN_ELLIPSIS).2 = true
                  then NODE_VARPARAM else NODE_PARAM) ≠ NODE_PIPE_EXPR
                split
                · exact (show NODE_VARPARAM ≠ NODE_PIPE_EXPR by decide)
                · exact (show NODE_PARAM ≠ NODE_PIPE_EXPR by decide)
            · cases heqP
              have f4e := StFrame_trans f4 (StFrame_matched TOKEN_EQ f4.1)
              refine ⟨Inv_add_scratch f4e.1 ?_,
                Nat.lt_of_lt_of_le hXlt f4e.2.1, [_],
                by rw [show (add_scratch (__match st4 TOKEN_EQ).1 _).scratch
                    = (__match st4 TOKEN_EQ).1.scratch ++ [_] from rfl,
                  f4e.2.2, fX.2.2]⟩
              show (if (__match (__match (add_node (advance st) NODE_IDENTIFIER
                  st.token_index (0, 0)).1 TOKEN_COLON).1 TOKEN_ELLIPSIS).2 = true
                then NODE_VARPARAM else NODE_PARAM) ≠ NODE_PIPE_EXPR
              split
              · exact (show NODE_VARPARAM ≠ NODE_PIPE_EXPR by decide)
              · exact (show NODE_PARAM ≠ NODE_PIPE_EXPR by decide)
        · -- no colon
          split at heqP
          · cases heqP
            exact ⟨fC1.1, Nat.lt_of_lt_of_le hXlt fC1.2.1, [],
              by rw [fC1.2.2, fX.2.2]; simp⟩
          · split at heqP
            next e heq3 => exact Except.noConfusion heqP
            next st9 heq3 =>
              have e9 := ihp.error_at_current_ok _ _ _ _ _ heq3 fC1.1
              cases heqP
              refine ⟨e9.1, ?_, [], ?_⟩
              · rw [e9.2.1]
                exact Nat.lt_of_lt_of_le hXlt fC1.2.1
              · rw [e9.2.2, fC1.2.2, fX.2.2]
                simp
      split at h
      · cases h
        exact ⟨⟨hP.1, le_of_lt hP.2.1, hP.2.2⟩, fun _ => hP.2.1⟩
      split at h
      · cases h
        exact ⟨⟨hP.1, le_of_lt hP.2.1, hP.2.2⟩, fun hc => absurd hc (by omega)⟩
      · split at h
        next e heqQ => exact Except.noConfusion h
        next stQ bQ heqQ =>
          have eQ := ihp.expect_ok _ _ _ _ heqQ hP.1
          split at h
          next e heqR => exact Except.noConfusion h
          next stR heqR =>
            have eR := ihp.skip_newlines_ok _ _ heqR eQ.1
            obtain ⟨⟨j1, j2, jnew, jsc⟩, jneg⟩ := ihp.params_loop_ok _ _ _ h eR.1
            have hlenR : stP.nodes.kind.length = stR.nodes.kind.length := by
              rw [eR.2.1, eQ.2.1]
            obtain ⟨new1, hnew1⟩ := hP.2.2
            have hscR : stR.scratch = st.scratch ++ new1 := by
              rw [eR.2.2, eQ.2.2, hnew1]
            refine ⟨⟨j1, ?_, new1 ++ jnew, ?_⟩, ?_⟩
            · omega
            · rw [jsc, hscR]
              simp
            · intro hc
              have := jneg hc
              have := hP.2.1
              omega
  · cases h
    exact ⟨⟨hInv, Nat.le_refl _, [], by simp⟩, fun hc => absurd hc (by omega)⟩

theorem function_params_step {prev : Fns} (ihp : ParserOK prev) :
    ∀ st out, parse_function_paramsF prev st = .ok out → Inv st →
    (Inv out.1 ∧ st.nodes.kind.length ≤ out.1.nodes.kind.length ∧
      (∃ new, out.1.scratch = st.scratch ++ new)) ∧
    (out.2.1 = -1 → st.nodes.kind.length + 1 ≤ out.1.nodes.kind.length) ∧
    (out.2.1 ≠ -1 → out.1.scratch = st.scratch) := by
  intro st out h hInv
  simp only [parse_function_paramsF] at h
  split at h
  · exact Except.noConfusion h
  · have fM : StFrame st (__match (advance st) TOKEN_RPAREN).1 :=
      StFrame_trans (StFrame_advance (StFrame_refl st hInv))
        (StFrame_matched TOKEN_RPAREN (Inv_advance hInv))
    split at h
    · cases h
      exact ⟨⟨fM.1, fM.2.1, [], by rw [fM.2.2]; simp⟩,
        fun hc => by simp at hc, fun _ => fM.2.2⟩
    · split at h
      next e heq => exact Except.noConfusion h
      next st3 count heq =>
        obtain ⟨⟨j1, j2, jnew, jsc⟩, jneg⟩ := ihp.params_loop_ok _ _ _ heq fM.1
        have hsc3 : st3.scratch = st.scratch ++ jnew := by
          rw [jsc, fM.2.2]
        split at h
        next hcm =>
          cases h
          have ha : (__match (advance st) TOKEN_RPAREN).1.nodes.kind.length + 1
              ≤ st3.nodes.kind.length := jneg hcm
          have hb : st.nodes.kind.length
              ≤ (__match (advance st) TOKEN_RPAREN).1.nodes.kind.length := fM.2.1
          refine ⟨⟨j1, ?_, jnew, hsc3⟩, fun _ => ?_, fun hc => absurd rfl hc⟩
          · show st.nodes.kind.length ≤ st3.nodes.kind.length
            omega
          · show st.nodes.kind.length + 1 ≤ st3.nodes.kind.length
            omega
        next hcm1 =>
          split at h
          next e heq2 => exact Except.noConfusion h
          next st4 b4 heq2 =>
            have e4 := ihp.expect_ok _ _ _ _ heq2 j1
            have hInv4 : Inv st4 := e4.1
            have hsc4 : st4.scratch = st.scratch ++ jnew := by
              rw [e4.2.2, hsc3]
            have htop : st.scratch_top = st.scratch.length := hInv.2.2.2.2.1
            have hmtop : st4.scratch_top = st4.scratch.length := hInv4.2.2.2.2.1
            have hstop : (__match (advance st) TOKEN_RPAREN).1.scratch_top
                = st.scratch.length := by
              rw [(__match_fst (advance st) TOKEN_RPAREN).2.2.1]
              exact htop
            have hsv : (__match (advance st) TOKEN_RPAREN).1.scratch_top
                ≤ st4.scratch.length := by
              rw [hstop, hsc4]
              simp
            obtain ⟨p1, p2, p3, p4, p5⟩ := push_scratch_spec hmtop hsv
            cases h
            refine ⟨⟨Inv_push_scratch hInv4 hsv, ?_, [], ?_⟩, fun hc => absurd hc hcm1,
              fun _ => ?_⟩
            · rw [p1]
              simp only [List.length_append, List.length_map]
              have : st.nodes.kind.length ≤ st4.nodes.kind.length := by
                rw [e4.2.1]
                exact le_trans fM.2.1 j2
              omega
            · rw [p4, hsc4, hstop, List.take_left]
              simp
            · rw [p4, hsc4, hstop, List.take_left]

theorem function_step {prev : Fns} (ihp : ParserOK prev) :
    ∀ st out, parse_functionF prev st = .ok out → Inv st → StFrame st out.1 := by
  intro st out h hInv
  simp only [parse_functionF] at h
  have fP : StFrame st (reserve_node (reserve_node st).1).1 :=
    StFrame_reserve (StFrame_reserve (StFrame_refl st hInv))
  have hfp : (reserve_node (reserve_node st).1).2 = st.nodes.kind.length + 1 := by
    rw [reserve_node_snd]
    show (st.nodes.kind ++ [NODE_INVALID]).length = _
    simp
  have hlenP : (reserve_node (reserve_node st).1).1.nodes.kind.length
      = st.nodes.kind.length + 2 := by
    show ((reserve_node st).1.nodes.kind ++ [NODE_INVALID]).length = _
    rw [show (reserve_node st).1.nodes.kind = st.nodes.kind ++ [NODE_INVALID] from rfl]
    simp
  split at h
  next e heq => exact Except.noConfusion h
  next st3 count args heq =>
    obtain ⟨⟨j1, j2, jnew, jsc⟩, jneg, jok⟩ := ihp.function_params_ok _ _ heq fP.1
    split at h
    next hm1 =>
      have hj : (reserve_node (reserve_node st).1).1.nodes.kind.length + 1
          ≤ st3.nodes.kind.length := jneg hm1
      have hlen3 : st.nodes.kind.length + 3 ≤ st3.nodes.kind.length := by
        rw [hlenP] at hj
        omega
      rw [pop_node, if_pos (by rw [hfp]; omega :
        (reserve_node (reserve_node st).1).2 ≠ st3.nodes.kind.length - 1)] at h
      exact Except.noConfusion h
    next hm1 =>
      have hsc3 : st3.scratch = st.scratch := by
        rw [jok hm1]
        exact fP.2.2
      have f3 : StFrame st st3 := ⟨j1, le_trans fP.2.1 j2, hsc3⟩
      split at h
      next e heqR => exact Except.noConfusion h
      next st4 rt heqR =>
        have f4 : StFrame st st4 := by
          split at heqR
          · split at heqR
            next e heq2 => exact Except.noConfusion heqR
            next st5 ty heq2 =>
              cases heqR
              have f3m := StFrame_trans f3 (StFrame_matched TOKEN_ARROW f3.1)
              exact StFrame_trans f3m (ihp.type_ok _ _ heq2 f3m.1)
          · cases heqR
            exact StFrame_trans f3 (StFrame_matched TOKEN_ARROW f3.1)
        have fcc : StFrame st ((if (__match st4 TOKEN_STRING).2 = true
            then add_node (__match st4 TOKEN_STRING).1 NODE_STRING
              ((__match st4 TOKEN_STRING).1.token_index - 1) (0, 0)
            else ((__match st4 TOKEN_STRING).1, invalid)).1) := by
          split
          · exact StFrame_add_node
              (StFrame_trans f4 (StFrame_matched TOKEN_STRING f4.1)) (by decide) _ _
          · exact StFrame_trans f4 (StFrame_matched TOKEN_STRING f4.1)
        split at h
        next e heqS => exact Except.noConfusion h
        next st6 heqS =>
          have f6 : StFrame st st6 := StFrame_exact_trans fcc
            (ihp.skip_newlines_ok _ _ heqS fcc.1)
          split at h
          next e heqB => exact Except.noConfusion h
          next st7 body heqB =>
            have f7 : StFrame st st7 := by
              split at heqB
              · exact StFrame_trans
                  (StFrame_trans f6 (StFrame_matched TOKEN_FAT_ARROW f6.1))
                  (ihp.expr_ok _ _ heqB
                    (StFrame_trans f6 (StFrame_matched TOKEN_FAT_ARROW f6.1)).1)
              · exact StFrame_trans
                  (StFrame_trans f6 (StFrame_matched TOKEN_FAT_ARROW f6.1))
                  (ihp.block_ok _ _ heqB
                    (StFrame_trans f6 (StFrame_matched TOKEN_FAT_ARROW f6.1)).1)
            have hfp1 : 1 ≤ (reserve_node (reserve_node st).1).2 := by
              rw [hfp]
              omega
            have hrs1 : 1 ≤ (reserve_node st).2 := by
              rw [reserve_node_snd]
              exact Inv_len_pos hInv
            have f8 : StFrame st (if count = 0
                then set_node (add_extra st7 [invalid, (if (__match st4 TOKEN_STRING).2 = true
                    then add_node (__match st4 TOKEN_STRING).1 NODE_STRING
                      ((__match st4 TOKEN_STRING).1.token_index - 1) (0, 0)
                    else ((__match st4 TOKEN_STRING).1, invalid)).2]).1 (reserve_node (reserve_node st).1).2
                    NODE_FUNC_PROTO_ONE invalid
                    ((add_extra st7 [invalid, (if (__match st4 TOKEN_STRING).2 = true
                      then add_node (__match st4 TOKEN_STRING).1 NODE_STRING
                        ((__match st4 TOKEN_STRING).1.token_index - 1) (0, 0)
                      else ((__match st4 TOKEN_STRING).1, invalid)).2]).2, rt)
                else if count = 1
                then set_node (add_extra st7 [args.1, (if (__match st4 TOKEN_STRING).2 = true
                    then add_node (__match st4 TOKEN_STRING).1 NODE_STRING
                      ((__match st4 TOKEN_STRING).1.token_index - 1) (0, 0)
                    else ((__match st4 TOKEN_STRING).1, invalid)).2]).1 (reserve_node (reserve_node st).1).2
                    NODE_FUNC_PROTO_ONE invalid
                    ((add_extra st7 [args.1, (if (__match st4 TOKEN_STRING).2 = true
                      then add_node (__match st4 TOKEN_STRING).1 NODE_STRING
                        ((__match st4 TOKEN_STRING).1.token_index - 1) (0, 0)
                      else ((__match st4 TOKEN_STRING).1, invalid)).2]).2, rt)
                else set_node (add_extra st7 [args.1, args.2,
                    (if (__match st4 TOKEN_STRING).2 = true
                    then add_node (__match st4 TOKEN_STRING).1 NODE_STRING
                      ((__match st4 TOKEN_STRING).1.token_index - 1) (0, 0)
                    else ((__match st4 TOKEN_STRING).1, invalid)).2]).1 (reserve_node (reserve_node st).1).2
                    NODE_FUNC_PROTO invalid
                    ((add_extra st7 [args.1, args.2,
                      (if (__match st4 TOKEN_STRING).2 = true
                      then add_node (__match st4 TOKEN_STRING).1 NODE_STRING
                        ((__match st4 TOKEN_STRING).1.token_index - 1) (0, 0)
                      else ((__match st4 TOKEN_STRING).1, invalid)).2]).2, rt)) := by
              split
              · refine StFrame_set_node ?_ (by decide) hfp1
                exact f7
              split
              · refine StFrame_set_node ?_ (by decide) hfp1
                exact f7
              · refine StFrame_set_node ?_ (by decide) hfp1
                exact f7
            cases h
            refine StFrame_set_node ?_ (by decide) hrs1
            exact f8

theorem primary_step {prev : Fns} (ihp : ParserOK prev) :
    ∀ st out, parse_primaryF prev st = .ok out → Inv st → StFrame st out.1 := by
  intro st out h hInv
  simp only [parse_primaryF] at h
  split at h
  · cases h
    exact StFrame_add_node (StFrame_advance (StFrame_refl st hInv)) (by decide) _ _
  · cases h
    exact StFrame_add_node (StFrame_advance (StFrame_refl st hInv)) (by decide) _ _
  · split at h
    next e heq => exact Except.noConfusion h
    next st1 expr heq =>
      have f1 : StFrame st st1 := ihp.function_ok _ _ heq hInv
      split at h
      · cases h
        exact f1
      · split at h
        next e heq2 => exact Except.noConfusion h
        next st2 e2 heq2 =>
          have f2 : StFrame st st2 :=
            StFrame_trans (StFrame_advance f1) (ihp.expr_ok _ _ heq2 (Inv_advance f1.1))
          split at h
          next e heq3 => exact Except.noConfusion h
          next st3 b3 heq3 =>
            cases h
            exact StFrame_exact_trans f2 (ihp.expect_ok _ _ _ _ heq3 f2.1)
  · exact (ihp.struct_ok _ _ h hInv).1
  · exact (ihp.enum_ok _ _ h hInv).1
  · cases h
    exact StFrame_refl _ hInv
  · exact Except.noConfusion h

theorem lhs_step {prev : Fns} (ihp : ParserOK prev) :
    ∀ st out, parse_lhsF prev st = .ok out → Inv st → StFrame st out.1 := by
  intro st out h hInv
  simp only [parse_lhsF] at h
  have f1 : StFrame st (current_unary st).1 := by
    obtain ⟨q1, q2, q3, q4⟩ := current_unary_fst st
    exact ⟨Inv_congr q1 q4 q2 q3 hInv, le_of_eq (by rw [q1]), q2⟩
  split at h
  · split at h
    next e heq => exact Except.noConfusion h
    next st2 expr heq =>
      have f2 : StFrame st st2 :=
        StFrame_trans (StFrame_advance f1) (ihp.lhs_ok _ _ heq (Inv_advance f1.1))
      cases h
      exact StFrame_add_node f2 (current_unary_no_pipe st) _ _
  · exact StFrame_trans f1 (ihp.primary_ok _ _ h f1.1)

theorem expr_prec_loop_step {prev : Fns} (ihp : ParserOK prev) :
    ∀ prec st lhs out, parse_expr_prec_loopF prev prec st lhs = .ok out → Inv st → 2 ≤ prec →
    StFrame st out.1 := by
  intro prec st lhs out h hInv hp
  simp only [parse_expr_prec_loopF] at h
  split at h
  next hle =>
    have hknp : (current_op st).kind ≠ NODE_PIPE_EXPR := by
      rcases current_op_pipe_prec st with hk | hpr
      · exact hk
      · rw [hpr, PREC_PIPE] at hle
        omega
    split at h
    next e heq => exact Except.noConfusion h
    next st2 rhs heq =>
      have f2 : StFrame st st2 :=
        StFrame_trans (StFrame_advance (StFrame_refl st hInv))
          (ihp.expr_prec_ok _ _ _ heq (Inv_advance hInv) (by omega))
      have f3 := StFrame_add_node f2 hknp (current_op st).token
        (lhs, rhs)
      exact StFrame_trans f3 (ihp.expr_prec_loop_ok _ _ _ _ h f3.1 hp)
  · cases h
    exact StFrame_refl _ hInv

theorem expr_prec_step {prev : Fns} (ihp : ParserOK prev) :
    ∀ prec st out, parse_expr_precF prev prec st = .ok out → Inv st → 2 ≤ prec →
    StFrame st out.1 := by
  intro prec st out h hInv hp
  simp only [parse_expr_precF] at h
  split at h
  next e heq => exact Except.noConfusion h
  next st1 lhs heq =>
    have f1 : StFrame st st1 := ihp.lhs_ok _ _ heq hInv
    split at h
    · cases h
      exact f1
    · exact StFrame_trans f1 (ihp.expr_prec_loop_ok _ _ _ _ h f1.1 hp)

theorem expr_step {prev : Fns} (ihp : ParserOK prev) :
    ∀ st out, parse_exprF prev st = .ok out → Inv st → StFrame st out.1 := by
  intro st out h hInv
  simp only [parse_exprF] at h
  exact ihp.expr_prec_ok _ _ _ h hInv (by rw [PREC_OR])

theorem init_step {prev : Fns} (ihp : ParserOK prev) :
    ∀ st i out, parse_initF prev st i = .ok out → Inv st → StFrame st out.1 := by
  intro st i out h hInv
  simp only [parse_initF] at h
  have fC : StFrame st (__match st TOKEN_COLON).1 := StFrame_matched TOKEN_COLON hInv
  split at h
  · -- colon form
    have fR := StFrame_reserve fC
    have hres : 1 ≤ (reserve_node (__match st TOKEN_COLON).1).2 := by
      rw [reserve_node_snd]
      exact le_trans (Inv_len_pos hInv) fC.2.1
    split at h
    next e heq => exact Except.noConfusion h
    next st2 ty heq =>
      have f2 : StFrame st st2 := StFrame_trans fR (ihp.type_ok _ _ heq fR.1)
      split at h
      · -- second colon: const
        split at h
        next e heq2 => exact Except.noConfusion h
        next st3 ex heq2 =>
          have f3 := StFrame_trans (StFrame_trans f2 (StFrame_matched TOKEN_COLON f2.1))
            (ihp.expr_ok _ _ heq2
              (StFrame_trans f2 (StFrame_matched TOKEN_COLON f2.1)).1)
          cases h
          exact StFrame_set_node f3 (by decide) hres
      · split at h
        · -- equals: var
          split at h
          next e heq2 => exact Except.noConfusion h
          next st3 ex heq2 =>
            have fq := StFrame_trans f2 (StFrame_matched TOKEN_COLON f2.1)
            have f3 := StFrame_trans (StFrame_trans fq (StFrame_matched TOKEN_EQ fq.1))
              (ihp.expr_ok _ _ heq2
                (StFrame_trans fq (StFrame_matched TOKEN_EQ fq.1)).1)
            cases h
            exact StFrame_set_node f3 (by decide) hres
        · split at h
          next e heq2 => exact Except.noConfusion h
          next st3 heq2 =>
            have fq := StFrame_trans f2 (StFrame_matched TOKEN_COLON f2.1)
            have fq2 := StFrame_trans fq (StFrame_matched TOKEN_EQ fq.1)
            cases h
            exact StFrame_exact_trans fq2 (ihp.error_at_current_ok _ _ _ _ _ heq2 fq2.1)
  · have fE := StFrame_trans fC (StFrame_matched TOKEN_COLON_EQ fC.1)
    split at h
    · -- colon-equals: var
      have fR := StFrame_reserve fE
      have hres : 1 ≤ (reserve_node (__match (__match st TOKEN_COLON).1
          TOKEN_COLON_EQ).1).2 := by
        rw [reserve_node_snd]
        exact le_trans (Inv_len_pos hInv) fE.2.1
      split at h
      next e heq => exact Except.noConfusion h
      next st2 ex heq =>
        have f2 := StFrame_trans fR (ihp.expr_ok _ _ heq fR.1)
        cases h
        exact StFrame_set_node f2 (by decide) hres
    · split at h
      next e heq => exact Except.noConfusion h
      next st2 found heq =>
        have f2 : StFrame st st2 := StFrame_exact_trans fE (ihp.expect_ok _ _ _ _ heq fE.1)
        split at h
        · cases h
          exact f2
        · have fR := StFrame_reserve f2
          have hres : 1 ≤ (reserve_node st2).2 := by
            rw [reserve_node_snd]
            exact le_trans (Inv_len_pos hInv) f2.2.1
          split at h
          next e heq2 => exact Except.noConfusion h
          next st3 ex heq2 =>
            have f3 := StFrame_trans fR (ihp.expr_ok _ _ heq2 fR.1)
            cases h
            exact StFrame_set_node f3 (by decide) hres

theorem decl_step {prev : Fns} (ihp : ParserOK prev) :
    ∀ st out, parse_declF prev st = .ok out → Inv st → StFrame st out.1 := by
  intro st out h hInv
  simp only [parse_declF] at h
  split at h
  next e heq => exact Except.noConfusion h
  next st1 heq =>
    have e1 := ihp.skip_newlines_ok _ _ heq hInv
    have f1 : StFrame st st1 := StExact_frame e1
    split at h
    · -- identifier
      have f2 := StFrame_add_node f1 (k := NODE_IDENTIFIER) (by decide)
        (u32sub st1.token_index 1) (0, 0)
      exact StFrame_trans (StFrame_advance f2)
        (ihp.init_ok _ _ _ h (Inv_advance f2.1))
    · cases h
      exact f1
    · cases h
      exact f1
    · cases h
      exact f1
    · exact StFrame_trans f1 (ihp.import_ok _ _ _ h f1.1)
    · -- foreign
      split at h
      · exact StFrame_trans (StFrame_advance f1)
          (ihp.import_ok _ _ _ h (Inv_advance f1.1))
      · split at h
        next e heq2 => exact Except.noConfusion h
        next st2 found heq2 =>
          have f2 : StFrame st st2 := StFrame_exact_trans (StFrame_advance f1)
            (ihp.expect_ok _ _ _ _ heq2 (Inv_advance f1.1))
          split at h
          · cases h
            exact f2
          · rw [reserve_node_snd st2] at h
            have hres : 1 ≤ st2.nodes.kind.length :=
              le_trans (Inv_len_pos hInv) f2.2.1
            have fR := StFrame_reserve f2
            have fM : StFrame st (__match (reserve_node st2).1 TOKEN_RBRACE).1 :=
              StFrame_trans fR (StFrame_matched TOKEN_RBRACE fR.1)
            split at h
            · cases h
              exact StFrame_set_node fM (by decide) hres
            · split at h
              next e heq3 => exact Except.noConfusion h
              next st3 heq3 =>
                have f3 : StFrame st st3 := StFrame_trans fM (ihp.decls_ok _ _ heq3 fM.1)
                split at h
                next e heq4 => exact Except.noConfusion h
                next st4 b4 heq4 =>
                  have f4 : StFrame st st4 :=
                    StFrame_exact_trans f3 (ihp.expect_ok _ _ _ _ heq4 f3.1)
                  cases h
                  exact StFrame_set_node f4 (by decide) hres
    · cases h
      exact StFrame_advance f1
    · split at h
      next e heq2 => exact Except.noConfusion h
      next st2 heq2 =>
        cases h
        exact StFrame_exact_trans f1 (ihp.error_at_current_ok _ _ _ _ _ heq2 f1.1)

theorem decls_loop_step {prev : Fns} (ihp : ParserOK prev) :
    ∀ st out, parse_decls_loopF prev st = .ok out → Inv st → StFrame st out := by
  intro st out h hInv
  simp only [parse_decls_loopF] at h
  split at h
  · cases h
    exact StFrame_refl _ hInv
  · split at h
    next e heq => exact Except.noConfusion h
    next st1 decl heq =>
      have f1 : StFrame st st1 := ihp.decl_ok _ _ heq hInv
      split at h
      next e heq2 => exact Except.noConfusion h
      next st3 dec2 heq2 =>
        have f3 : StFrame st st3 := by
          split at heq2
          · split at heq2
            next e heq3 => exact Except.noConfusion heq2
            next st2 heq3 =>
              have e2 := ihp.next_decl_ok _ _ heq3 f1.1
              exact StFrame_trans (StFrame_exact_trans f1 e2)
                (ihp.decl_ok _ _ heq2 (StFrame_exact_trans f1 e2).1)
          · cases heq2
            exact f1
        split at h
        next e heq4 => exact Except.noConfusion h
        next st5 heq4 =>
          have e5 := ihp.skip_newlines_ok _ _ heq4 (show Inv _ from f3.1)
          exact StFrame_trans (StFrame_exact_trans f3 e5)
            (ihp.decls_loop_ok _ _ h (StFrame_exact_trans f3 e5).1)

theorem decls_step {prev : Fns} (ihp : ParserOK prev) :
    ∀ st out, parse_declsF prev st = .ok out → Inv st → StFrame st out := by
  intro st out h hInv
  simp only [parse_declsF] at h
  split at h
  next e heq => exact Except.noConfusion h
  next st1 heq =>
    have e1 := ihp.skip_newlines_ok _ _ heq hInv
    exact StFrame_trans (StExact_frame e1) (ihp.decls_loop_ok _ _ h e1.1)

theorem parserOK_all : ∀ fuel, ParserOK (parseFns fuel) := by
  intro fuel
  induction fuel with
  | zero =>
    constructor <;>
      · intros
        simp_all [parseFns, fnsBot]
  | succ fuel ih =>
    refine ⟨?_, ?_, ?_, ?_, ?_, ?_, ?_, ?_, ?_, ?_, ?_, ?_, ?_, ?_, ?_, ?_, ?_, ?_, ?_, ?_, ?_, ?_, ?_, ?_, ?_, ?_, ?_, ?_, ?_⟩
    · intro st idx m l hnt out h hInv
      simp only [parseFns, fnsStep] at h
      exact error_at_step ih st idx m l hnt out h hInv
    · intro st m l hnt out h hInv
      simp only [parseFns, fnsStep] at h
      exact error_at_current_step ih st m l hnt out h hInv
    · intro st k hnt out h hInv
      simp only [parseFns, fnsStep] at h
      exact expect_step ih st k hnt out h hInv
    · intro st out h hInv
      simp only [parseFns, fnsStep] at h
      exact skip_newlines_step ih st out h hInv
    · intro st out h hInv
      simp only [parseFns, fnsStep] at h
      exact name_list_loop_step ih st out h hInv
    · intro st out h hInv
      simp only [parseFns, fnsStep] at h
      exact name_list_step ih st out h hInv
    · intro st ik out h hInv
      simp only [parseFns, fnsStep] at h
      exact import_step ih st ik out h hInv
    · intro st out h hInv
      simp only [parseFns, fnsStep] at h
      exact next_decl_step ih st out h hInv
    · intro st out h hInv
      simp only [parseFns, fnsStep] at h
      exact type_step ih st out h hInv
    · intro st c out h hInv
      simp only [parseFns, fnsStep] at h
      exact block_loop_step ih st c out h hInv
    · intro st out h hInv
      simp only [parseFns, fnsStep] at h
      exact block_step ih st out h hInv
    · intro st c out h hInv
      simp only [parseFns, fnsStep] at h
      exact struct_loop_step ih st c out h hInv
    · intro st out h hInv
      simp only [parseFns, fnsStep] at h
      exact struct_step ih st out h hInv
    · intro st c out h hInv
      simp only [parseFns, fnsStep] at h
      exact variant_fields_loop_step ih st c out h hInv
    · intro st out h hInv
      simp only [parseFns, fnsStep] at h
      exact variant_step ih st out h hInv
    · intro st c out h hInv
      simp only [parseFns, fnsStep] at h
      exact enum_loop_step ih st c out h hInv
    · intro st out h hInv
      simp only [parseFns, fnsStep] at h
      exact enum_step ih st out h hInv
    · intro st c out h hInv
      simp only [parseFns, fnsStep] at h
      exact params_loop_step ih st c out h hInv
    · intro st out h hInv
      simp only [parseFns, fnsStep] at h
      exact function_params_step ih st out h hInv
    · intro st out h hInv
      simp only [parseFns, fnsStep] at h
      exact function_step ih st out h hInv
    · intro st out h hInv
      simp only [parseFns, fnsStep] at h
      exact primary_step ih st out h hInv
    · intro st out h hInv
      simp only [parseFns, fnsStep] at h
      exact lhs_step ih st out h hInv
    · intro prec st lhs out h hInv hp
      simp only [parseFns, fnsStep] at h
      exact expr_prec_loop_step ih prec st lhs out h hInv hp
    · intro prec st out h hInv hp
      simp only [parseFns, fnsStep] at h
      exact expr_prec_step ih prec st out h hInv hp
    · intro st out h hInv
      simp only [parseFns, fnsStep] at h
      exact expr_step ih st out h hInv
    · intro st i out h hInv
      simp only [parseFns, fnsStep] at h
      exact init_step ih st i out h hInv
    · intro st out h hInv
      simp only [parseFns, fnsStep] at h
      exact decl_step ih st out h hInv
    · intro st out h hInv
      simp only [parseFns, fnsStep] at h
      exact decls_loop_step ih st out h hInv
    · intro st out h hInv
      simp only [parseFns, fnsStep] at h
      exact decls_step ih st out h hInv



theorem lex_ok_diags (fuel file_id : Nat) (src : List Nat) (r : LexedSrc)
    (h : lex fuel file_id src = .ok r) : DiagsOK r.diagnostics := by
  simp only [lex] at h
  split at h
  next e heq => exact Except.noConfusion h
  next lx1 kinds starts heq =>
    cases h
    simp only [lex_loop] at heq
    exact ((lexOK_all fuel).2.2.2.2.2.2.2.2 _ _ _ _ _ heq (by intro d hd; cases hd)).1

theorem parse_inv (fuel file_id : Nat) (src : List Nat) (ast : Ast)
    (h : parse fuel file_id src = .ok ast) :
    ast.nodes.kind.head? = some NODE_ROOT ∧
    NODE_PIPE_EXPR ∉ ast.nodes.kind ∧
    (∀ d ∈ ast.diagnostics, d.is_error = true) := by
  simp only [parse] at h
  split at h
  next e heq => exact Except.noConfusion h
  next lexed heqL =>
    have hdl : DiagsOK lexed.diagnostics := lex_ok_diags fuel file_id src lexed heqL
    split at h
    next e heqD => exact Except.noConfusion h
    next st2 heqD =>
      cases h
      have hInv1 : Inv (add_node
          { nodes := { kind := [], data := [], token := [], extra := [] }
            decls := []
            token_kind := lexed.kind
            token_start := lexed.start
            num_tokens := lexed.num_tokens
            diagnostics := lexed.diagnostics
            str := src
            token_index := 0
            file_id := file_id
            scratch := []
            scratch_top := 0 } NODE_ROOT 0 (0, 0)).1 := by
        refine ⟨rfl, ?_, ?_, ?_, rfl, rfl⟩
        · intro d hd
          exact hdl d hd
        · intro hmem
          simp [add_node] at hmem
        · intro nd hnd
          cases hnd
      simp only [parse_decls] at heqD
      have hfr := (parserOK_all fuel).decls_ok _ _ heqD hInv1
      exact ⟨hfr.1.1, hfr.1.2.2.1, hfr.1.2.1⟩

/-- C1 (amended): in every `Ast` returned by `parse` the `ROOT` node is
the *first* node, at node id 0 - there is no reserved id-0 sentinel and
no guarantee that an id 1 even exists (see `C1_counterexample`). -/
theorem C1_root_first (fuel file_id : Nat) (src : List Nat) (ast : Ast)
    (h : parse fuel file_id src = .ok ast) :
    ast.nodes.kind.head? = some NODE_ROOT :=
  (parse_inv fuel file_id src ast h).1


theorem C1_root_first_witness : parse_empty_out.nodes.kind.head? = some NODE_ROOT :=
  C1_root_first 30 0 [] parse_empty_out rfl

/-- C2 (amended): the expression parser starts climbing at `PREC_OR`,
one level *above* the lowest level `PREC_PIPE`, so a `|>` operator is
never consumed at the top level: no tree returned by `parse` ever
contains a `NODE_PIPE_EXPR` (see `C2_counterexample` for `a |> b`). -/
theorem C2_no_pipe_node (fuel file_id : Nat) (src : List Nat) (ast : Ast)
    (h : parse fuel file_id src = .ok ast) :
    NODE_PIPE_EXPR ∉ ast.nodes.kind :=
  (parse_inv fuel file_id src ast h).2.1

theorem C2_no_pipe_node_witness : NODE_PIPE_EXPR ∉ parse_pipe_out.nodes.kind :=
  C2_no_pipe_node 60 0 pipe_decl_src parse_pipe_out rfl

/-- C10: every diagnostic produced by `lex` or by `parse` has
`is_error = true`; the front end only ever constructs diagnostics
through the `error` constructor, never through `warn`. -/
theorem C10_all_diags_error :
    (∀ fuel file_id src r, lex fuel file_id src = .ok r →
      ∀ d ∈ r.diagnostics, d.is_error = true) ∧
    (∀ fuel file_id src ast, parse fuel file_id src = .ok ast →
      ∀ d ∈ ast.diagnostics, d.is_error = true) :=
  ⟨fun fuel fid src r h => lex_ok_diags fuel fid src r h,
   fun fuel fid src ast h => (parse_inv fuel fid src ast h).2.2⟩

theorem C10_all_diags_error_witness :
    (∀ d ∈ lex_0o891_out.diagnostics, d.is_error = true) ∧
    (∀ d ∈ parse_pipe_out.diagnostics, d.is_error = true) :=
  ⟨C10_all_diags_error.1 30 0 [48, 111, 56, 57, 49] lex_0o891_out rfl,
   C10_all_diags_error.2 60 0 pipe_decl_src parse_pipe_out rfl⟩

/-- C7 (amended): for `parse_struct` and `parse_enum`, a `_TWO` node
with `c` children (`1 ≤ c ≤ 2`) stores `data = (start, start + c - 1)`
for the `c` consecutive trailing child indices, and an empty aggregate
stores `(0, 0)`; but `parse_enum_variant` deviates: a `VARIANT_TWO`
always stores `(start, start + c - 1)`, which for `c = 0` is
`(start, start - 1)`, *not* `(0, 0)` (see `C7_counterexample`). -/
theorem C7_aggregate_invariant :
    (∀ fuel st out, parse_struct fuel st = .ok out → Inv st →
      aggregate_fact NODE_STRUCT_TWO NODE_STRUCT out.1 out.2) ∧
    (∀ fuel st out, parse_enum fuel st = .ok out → Inv st →
      aggregate_fact NODE_ENUM_TWO NODE_ENUM out.1 out.2) ∧
    (∀ fuel st out, parse_enum_variant fuel st = .ok out → Inv st →
      variant_fact out.1 out.2) :=
  ⟨fun fuel st out h hInv => ((parserOK_all fuel).struct_ok st out h hInv).2,
   fun fuel st out h hInv => ((parserOK_all fuel).enum_ok st out h hInv).2,
   fun fuel st out h hInv => ((parserOK_all fuel).variant_ok st out h hInv).2.1⟩

theorem C7_aggregate_invariant_witness :
    Inv struct_demo_state ∧
    aggregate_fact NODE_STRUCT_TWO NODE_STRUCT struct_demo_out.1 struct_demo_out.2 :=
  ⟨by unfold Inv; decide, C7_aggregate_invariant.1 40 struct_demo_state struct_demo_out rfl (by unfold Inv; decide)⟩


end Wave
